import Mathlib

/-!
# MediaManager: aggregation and caching layer

A shallow embedding of the Go sources under `internal/` and the properties
proved about it.

Conventions of the embedding

* A Go `(value, error)` result of a backend call is an `Except Error α`.
  Where a function can hand back a nil map or pointer next to the error, the
  result is a pair of options, `none` standing for `nil`.
* A Go map is an association list (`GoMap`) updated with `GoMap.set`, which
  overwrites the entry of an existing key, so maps built from the empty map
  have pairwise distinct keys (`GoMap.WF`).
* `time.Time` and `time.Duration` are integers counting nanoseconds; one call
  reads the clock once (`now`).
* A fan-out spawns one goroutine per element of a list.  The goroutines reach
  their critical section in an order the scheduler chooses; that order is an
  explicit argument `order`, a list of spawn positions, and the theorems hold
  for every order that is a permutation of the positions.
-/

namespace MediaManager

/-! ## Go runtime model -/

/-- Go `error` values carry a message. -/
abbrev Error := String

/-- Nanoseconds since the Unix epoch (`time.Time`). -/
abbrev Time := Int

/-- Nanoseconds (`time.Duration`). -/
abbrev Duration := Int

/-- The constant `time.Minute`. -/
def Minute : Duration := 60 * 1000000000

/-- The zero value of `time.Time`: January 1, year 1, 00:00 UTC. -/
def zeroTime : Time := -62135596800 * 1000000000

/-- The function `time.Since`, given the clock reading `now`. -/
def Since (now t : Time) : Duration := now - t

deriving instance DecidableEq for Except

/-- A Go map as an association list. -/
abbrev GoMap (κ ν : Type) := List (κ × ν)

namespace GoMap

variable {κ ν : Type} [DecidableEq κ]

/-- Map read `m[k]` with the comma-ok result. -/
def get : GoMap κ ν → κ → Option ν
  | [], _ => none
  | (k', v) :: rest, k => if k' = k then some v else get rest k

/-- Map write `m[k] = v`. -/
def set : GoMap κ ν → κ → ν → GoMap κ ν
  | [], k, v => [(k, v)]
  | (k', v') :: rest, k, v => if k' = k then (k, v) :: rest else (k', v') :: set rest k v

/-- The keys of the map, in storage order. -/
def keys (m : GoMap κ ν) : List κ := m.map Prod.fst

/-- Keys are pairwise distinct, as in every Go map. -/
def WF (m : GoMap κ ν) : Prop := m.keys.Nodup

instance (m : GoMap κ ν) : Decidable m.WF := by
  unfold WF; infer_instance

end GoMap

/-- The goroutines of a fan-out over `tasks`, listed in the order in which
they reach their critical section; `order` holds spawn positions. -/
def inOrder {α : Type} (tasks : List α) (order : List Nat) : List α :=
  order.filterMap (fun i => tasks[i]?)

/-! ## Canonical model (`internal/models/media_server.go`) -/

/-- Go struct `models.ServerInfo`. -/
structure ServerInfo where
  ID : String := ""
  Name : String := ""
  Version : String := ""
  PublicIP : String := ""
  LocalIP : String := ""
  OS : String := ""
  Arch : String := ""
  StartTime : Int := 0
  Uptime : Int := 0
  TotalRAM : Int := 0
  FreeRAM : Int := 0
  TotalDiskSize : Int := 0
  FreeDiskSize : Int := 0
  ServerVersion : String := ""
  APIVersion : String := ""
  Language : String := ""
  deriving DecidableEq

/-- Go struct `models.LibraryInfo`. -/
structure LibraryInfo where
  ID : String := ""
  Name : String := ""
  ItemCount : Int := 0
  MediaType : String := ""
  CreatedAt : Int := 0
  UpdatedAt : Int := 0
  LastScan : Int := 0
  deriving DecidableEq

/-- Go struct `models.SearchResult`; `Typ` is the field `Type`. -/
structure SearchResult where
  ID : String := ""
  Title : String := ""
  Author : String := ""
  Size : Int := 0
  AddedAt : Int := 0
  LibraryID : String := ""
  Library : String := ""
  Typ : String := ""
  Path : String := ""
  RelPath : String := ""
  Overview : String := ""
  Genres : List String := []
  Year : Int := 0
  ProductionYear : Int := 0
  PremiereDate : String := ""
  RunTime : Int := 0
  MediaType : String := ""
  deriving DecidableEq

/-- The methods of the Go interface `models.MediaServer` that the manager
calls; each field is what the call returns. -/
structure MediaServer where
  GetServerInfo : Except Error (Option ServerInfo)
  Search : String → Except Error (List SearchResult)

/-! ## Configuration (`internal/config/config.go`) -/

/-- Go struct `config.Config`. -/
structure Config where
  TelegramBotToken : String := ""
  AudiobookshelfURL : String := ""
  AudiobookshelfToken : String := ""
  AudiobookshelfPort : Int := 0
  EmbyURL : String := ""
  EmbyToken : String := ""
  EmbyPort : Int := 0
  Debug : Bool := false
  ProxyAddress : String := ""
  AllowedUserIDs : List Int := []

/-! ## Aggregation manager (`internal/services/media_server_manager.go`) -/

/-- Go type `MediaServerType`. -/
abbrev MediaServerType := String

/-- Constant `AbsServerType`. -/
def AbsServerType : MediaServerType := "audiobookshelf"

/-- Constant `EmbyServerType`. -/
def EmbyServerType : MediaServerType := "emby"

/-- Go struct `MediaServerManager`. -/
structure MediaServerManager where
  servers : GoMap MediaServerType MediaServer

/-- Go function `NewMediaServerManager`.  `newAbs` and `newEmby` stand for
`api.NewAbsAdapter(api.NewAbsClient(cfg))` and
`api.NewEmbyAdapter(api.NewEmbyClient(cfg))` seen through the interface. -/
def NewMediaServerManager (newAbs newEmby : Config → MediaServer)
    (cfg : Config) : Option MediaServerManager × Option Error :=
  let servers : GoMap MediaServerType MediaServer := []
  let servers :=
    if cfg.AudiobookshelfToken ≠ "" then servers.set AbsServerType (newAbs cfg)
    else servers
  let servers :=
    if cfg.EmbyToken ≠ "" then servers.set EmbyServerType (newEmby cfg)
    else servers
  if servers.length = 0 then (none, some "没有配置任何媒体服务器")
  else (some { servers := servers }, none)

/-- Go method `MediaServerManager.SearchAcrossServers`.  A goroutine whose
`Search` fails returns without touching `results`; the others write
`results[st]` under the mutex. -/
def MediaServerManager.SearchAcrossServers (m : MediaServerManager) (query : String)
    (order : List Nat) :
    Option (GoMap MediaServerType (List SearchResult)) × Option Error :=
  let results : GoMap MediaServerType (List SearchResult) :=
    (inOrder m.servers order).foldl
      (fun results e =>
        match e.2.Search query with
        | .error _ => results
        | .ok searchResults => results.set e.1 searchResults)
      []
  (some results, none)

/-- Go method `MediaServerManager.GetServerInfoAcrossServers`. -/
def MediaServerManager.GetServerInfoAcrossServers (m : MediaServerManager)
    (order : List Nat) :
    Option (GoMap MediaServerType (Option ServerInfo)) × Option Error :=
  let info : GoMap MediaServerType (Option ServerInfo) :=
    (inOrder m.servers order).foldl
      (fun info e =>
        match e.2.GetServerInfo with
        | .error _ => info
        | .ok serverInfo => info.set e.1 serverInfo)
      []
  (some info, none)

/-! ## Concrete backends used to instantiate the theorems -/

/-- A backend that answers every call. -/
def exampleUp (name : String) : MediaServer :=
  { GetServerInfo := .ok (some { Name := name }),
    Search := fun q => .ok [{ ID := name ++ "_" ++ q, Title := q }] }

/-- A backend whose calls all fail. -/
def exampleDown : MediaServer :=
  { GetServerInfo := .error "connection refused",
    Search := fun _ => .error "connection refused" }

/-- Both backends configured and answering. -/
def exampleManager : MediaServerManager :=
  { servers := [(AbsServerType, exampleUp "abs"), (EmbyServerType, exampleUp "emby")] }

/-- Both backends configured, Emby unreachable. -/
def exampleManagerHalf : MediaServerManager :=
  { servers := [(AbsServerType, exampleUp "abs"), (EmbyServerType, exampleDown)] }

/-- Both backends configured, both unreachable. -/
def exampleManagerDown : MediaServerManager :=
  { servers := [(AbsServerType, exampleDown), (EmbyServerType, exampleDown)] }

/-- A configuration with only the Audiobookshelf credential. -/
def exampleConfigAbsOnly : Config := { AudiobookshelfToken := "secret" }

/-! ## Audiobookshelf models (`internal/models/abs.go`) -/

/-- One element of `AbsLibraryInfo.Folders`. -/
structure AbsFolder where
  ID : String := ""
  Path : String := ""
  deriving DecidableEq

/-- Go struct `models.AbsLibraryInfo`; `Settings` holds the raw JSON value. -/
structure AbsLibraryInfo where
  ID : String := ""
  Name : String := ""
  Folders : List AbsFolder := []
  DisplayOrder : Int := 0
  Icon : String := ""
  LastScan : Int := 0
  CreatedAt : Int := 0
  UpdatedAt : Int := 0
  MediaType : String := ""
  Provider : String := ""
  Settings : String := ""
  ItemCount : Int := 0
  deriving DecidableEq

/-- Go struct `models.AbsBook`. -/
structure AbsBook where
  LibraryID : String := ""
  RelPath : String := ""
  Size : Int := 0
  AddedAt : Int := 0
  deriving DecidableEq

/-- The `LibraryItem` object of one element of the `book` array in a search
response. -/
structure LibraryItem where
  Path : String := ""
  RelPath : String := ""
  Size : Int := 0
  AddedAt : Int := 0
  deriving DecidableEq

/-! ## Audiobookshelf client (`internal/api/abs_client.go`) -/

/-- Go read `m[k]` of a `map[string]bool`: a missing key reads as `false`. -/
def GoMap.readBool (m : GoMap String Bool) (k : String) : Bool := (m.get k).getD false

/-- What `AbsClient.SearchBooks` meets outside the client during one call. -/
structure SearchBooksEnv where
  /-- The function `json.Unmarshal` into the search response struct. -/
  unmarshal : String → Except Error (List LibraryItem)
  /-- The result of `doRequest` for the endpoint of the library asked for. -/
  doRequest : Except Error String
  /-- The result of `c.GetLibrariesInfo()`. -/
  GetLibrariesInfo : Except Error (List AbsLibraryInfo)
  /-- The result of `doRequest` in the goroutine spawned for `libraries[i]`. -/
  doRequestLib : Nat → Except Error String
  /-- The order in which the goroutines take the mutex. -/
  order : List Nat

/-- The variables `allBooks` and `bookRelPaths` of `SearchBooks`. -/
structure SearchBooksState where
  allBooks : List AbsBook := []
  bookRelPaths : GoMap String Bool := []

/-- The loop of `SearchBooks` that runs under the mutex: every result whose
`RelPath` has not been seen is appended with the id of the library of the
goroutine. -/
def AbsClient.SearchBooks.dedup (lib : AbsLibraryInfo) (results : List LibraryItem)
    (st : SearchBooksState) : SearchBooksState :=
  results.foldl
    (fun st result =>
      if !st.bookRelPaths.readBool result.RelPath then
        { allBooks := st.allBooks ++
            [{ LibraryID := lib.ID, RelPath := result.RelPath, Size := result.Size,
               AddedAt := result.AddedAt }],
          bookRelPaths := st.bookRelPaths.set result.RelPath true }
      else st)
    st

/-- The goroutine that `SearchBooks` spawns for `libraries[i]`: a failed
request or an undecodable body ends it without touching the shared state. -/
def AbsClient.SearchBooks.worker (env : SearchBooksEnv) (st : SearchBooksState)
    (task : Nat × AbsLibraryInfo) : SearchBooksState :=
  match env.doRequestLib task.1 with
  | .error _ => st
  | .ok data =>
    match env.unmarshal data with
    | .error _ => st
    | .ok results => AbsClient.SearchBooks.dedup task.2 results st

/-- Go method `AbsClient.SearchBooks`. -/
def AbsClient.SearchBooks (env : SearchBooksEnv) (libraryID : String) :
    Except Error (List AbsBook) :=
  if libraryID ≠ "" then
    match env.doRequest with
    | .error err => .error err
    | .ok data =>
      match env.unmarshal data with
      | .error err => .error ("error unmarshaling search results: " ++ err)
      | .ok results =>
        .ok (results.map fun result =>
          { LibraryID := libraryID, RelPath := result.RelPath, Size := result.Size,
            AddedAt := result.AddedAt })
  else
    match env.GetLibrariesInfo with
    | .error err => .error ("获取媒体库列表失败: " ++ err)
    | .ok libraries =>
      .ok ((inOrder libraries.enum env.order).foldl
        (AbsClient.SearchBooks.worker env) {}).allBooks

/-! ## Audiobookshelf adapter (`internal/api/abs_adapter.go`) -/

/-- Go struct `AbsAdapter`: the library-name cache; a nil slice is `none`.
The answers of `client` are arguments of the methods. -/
structure AbsAdapter where
  librariesCache : Option (List LibraryInfo) := none
  librariesCacheTime : Time := zeroTime
  cacheExpiry : Duration := 0
  deriving DecidableEq

/-- Go function `NewAbsAdapter`. -/
def NewAbsAdapter : AbsAdapter := { cacheExpiry := 30 * Minute }

/-- The struct literal that converts an `AbsLibraryInfo` to a `LibraryInfo`
in `GetLibraries` and in `getLibraryNameByID`. -/
def AbsLibraryInfo.toLibraryInfo (absLibrary : AbsLibraryInfo) : LibraryInfo :=
  { ID := absLibrary.ID, Name := absLibrary.Name, ItemCount := absLibrary.ItemCount,
    MediaType := absLibrary.MediaType, CreatedAt := absLibrary.CreatedAt,
    UpdatedAt := absLibrary.UpdatedAt, LastScan := absLibrary.LastScan }

/-- The lookup loop `for _, lib := range cache { if lib.ID == libraryID ... }`
with its fall-through result `""`. -/
def lookupLibraryName : List LibraryInfo → String → String
  | [], _ => ""
  | lib :: rest, libraryID => if lib.ID = libraryID then lib.Name else lookupLibraryName rest libraryID

/-- What one call of `getLibraryNameByID` meets: the clock and the answer of
`a.client.GetLibrariesInfo()` should the call ask for it. -/
structure LookupEnv where
  now : Time
  GetLibrariesInfo : Except Error (List AbsLibraryInfo)

/-- The outcome of `getLibraryNameByID`: the name, the adapter afterwards and
the number of `GetLibrariesInfo` calls made. -/
structure LookupResult where
  name : String
  adapter : AbsAdapter
  fetches : Nat
  deriving DecidableEq

/-- Go method `AbsAdapter.getLibraryNameByID`. -/
def AbsAdapter.getLibraryNameByID (a : AbsAdapter) (env : LookupEnv) (libraryID : String) :
    LookupResult :=
  if Since env.now a.librariesCacheTime < a.cacheExpiry ∧ a.librariesCache ≠ none then
    { name := lookupLibraryName (a.librariesCache.getD []) libraryID, adapter := a,
      fetches := 0 }
  else if Since env.now a.librariesCacheTime ≥ a.cacheExpiry ∨ a.librariesCache = none then
    match env.GetLibrariesInfo with
    | .ok libraries =>
      let a₂ : AbsAdapter :=
        { a with librariesCache := some (libraries.map AbsLibraryInfo.toLibraryInfo),
                 librariesCacheTime := env.now }
      { name := lookupLibraryName (a₂.librariesCache.getD []) libraryID, adapter := a₂,
        fetches := 1 }
    | .error _ =>
      let a₂ : AbsAdapter := { a with librariesCacheTime := env.now }
      { name := lookupLibraryName (a₂.librariesCache.getD []) libraryID, adapter := a₂,
        fetches := 1 }
  else
    { name := lookupLibraryName (a.librariesCache.getD []) libraryID, adapter := a,
      fetches := 0 }

/-- Go function `extractFileName`: the part of `path` after its last `/`, the
whole of `path` when it has none. -/
def extractFileName (path : String) : String :=
  String.mk (path.data.reverse.takeWhile (fun c => c ≠ '/')).reverse

/-- The body of the conversion loop of `AbsAdapter.Search` for one book, given
the answer `name` of `getLibraryNameByID`. -/
def AbsAdapter.Search.convert (book : AbsBook) (name : String) : SearchResult :=
  let title := if book.RelPath.length > 0 then extractFileName book.RelPath else book.RelPath
  let libraryName :=
    if book.LibraryID ≠ "" then (if name = "" then book.LibraryID else name)
    else "Unknown Library"
  { ID := book.LibraryID ++ "_" ++ book.RelPath,
    Title := title,
    Size := book.Size,
    AddedAt := book.AddedAt,
    LibraryID := book.LibraryID,
    Library := libraryName,
    Typ := "book",
    RelPath := book.RelPath,
    Overview := "",
    Genres := [],
    Year := 0,
    ProductionYear := 0,
    PremiereDate := "",
    RunTime := 0,
    MediaType := "audio" }

/-- The conversion loop of `AbsAdapter.Search`, from book number `i` on; the
name lookup runs only for a book with a non-empty library id, and lookup
number `i` meets `env i`. -/
def AbsAdapter.Search.loop (env : Nat → LookupEnv) :
    Nat → List AbsBook → AbsAdapter → List SearchResult × AbsAdapter
  | _, [], a => ([], a)
  | i, book :: rest, a =>
    if book.LibraryID ≠ "" then
      let r := a.getLibraryNameByID (env i) book.LibraryID
      let tail := AbsAdapter.Search.loop env (i + 1) rest r.adapter
      (AbsAdapter.Search.convert book r.name :: tail.1, tail.2)
    else
      let tail := AbsAdapter.Search.loop env (i + 1) rest a
      (AbsAdapter.Search.convert book "" :: tail.1, tail.2)

/-- Go method `AbsAdapter.Search`; `searchBooks` is the result of
`a.client.SearchBooks(query, "")`. -/
def AbsAdapter.Search (a : AbsAdapter) (searchBooks : Except Error (List AbsBook))
    (env : Nat → LookupEnv) : Except Error (List SearchResult) × AbsAdapter :=
  match searchBooks with
  | .error err => (.error err, a)
  | .ok books =>
    let r := AbsAdapter.Search.loop env 0 books a
    (.ok r.1, r.2)

/-- The decoded results of the request made for `libraries[i]`, when both the
request and the decoding of its body succeeded. -/
def SearchBooksEnv.decoded (env : SearchBooksEnv) (i : Nat) : Option (List LibraryItem) :=
  match env.doRequestLib i with
  | .error _ => none
  | .ok data =>
    match env.unmarshal data with
    | .error _ => none
    | .ok results => some results

/-- The book that `SearchBooks` builds from a result of library `lib`. -/
def AbsBook.ofItem (lib : AbsLibraryInfo) (result : LibraryItem) : AbsBook :=
  { LibraryID := lib.ID, RelPath := result.RelPath, Size := result.Size,
    AddedAt := result.AddedAt }

/-- The relation that the mutex of `SearchBooks` keeps between its two shared
variables: `bookRelPaths` marks exactly the paths of `allBooks`, and no path
occurs twice in `allBooks`. -/
def SearchBooksState.Inv (st : SearchBooksState) : Prop :=
  (∀ k, st.bookRelPaths.readBool k = true ↔ k ∈ st.allBooks.map AbsBook.RelPath) ∧
  (st.allBooks.map AbsBook.RelPath).Nodup

/-! ## Concrete Audiobookshelf responses used to instantiate the theorems -/

/-- A decoder for the response bodies of the examples. -/
def exampleUnmarshal : String → Except Error (List LibraryItem)
  | "a,b" => .ok [{ RelPath := "Tolkien/a.m4b", Size := 10 }, { RelPath := "b.m4b", Size := 20 }]
  | "b" => .ok [{ RelPath := "b.m4b", Size := 20 }]
  | "b_c" => .ok [{ RelPath := "b_c", Size := 1 }]
  | "c" => .ok [{ RelPath := "c", Size := 2 }]
  | _ => .error "unexpected end of JSON input"

/-- Libraries `L1` and `L2`. -/
def exampleLibraries : List AbsLibraryInfo :=
  [{ ID := "L1", Name := "Books" }, { ID := "L2", Name := "Podcasts" }]

/-- Both libraries answer and both return the item `b.m4b`; `L2` is merged
first. -/
def exampleSearchOverlap : SearchBooksEnv :=
  { unmarshal := exampleUnmarshal,
    doRequest := .error "unused",
    GetLibrariesInfo := .ok exampleLibraries,
    doRequestLib := fun i => if i = 0 then .ok "a,b" else .ok "b",
    order := [1, 0] }

/-- Library `L1` answers, the request for `L2` fails in the transport. -/
def exampleSearchPartial : SearchBooksEnv :=
  { unmarshal := exampleUnmarshal,
    doRequest := .error "unused",
    GetLibrariesInfo := .ok exampleLibraries,
    doRequestLib := fun i =>
      if i = 0 then .ok "a,b" else .error "error making request: connection reset",
    order := [0, 1] }

/-- Two libraries whose ids are `a` and `a_b`, returning the paths `b_c` and
`c`. -/
def exampleSearchUnderscore : SearchBooksEnv :=
  { unmarshal := exampleUnmarshal,
    doRequest := .error "unused",
    GetLibrariesInfo := .ok [{ ID := "a", Name := "A" }, { ID := "a_b", Name := "B" }],
    doRequestLib := fun i => if i = 0 then .ok "b_c" else .ok "c",
    order := [0, 1] }

/-- A clock that stands still and a library fetch that answers with `L1` and
`L2`. -/
def exampleLookups : Nat → LookupEnv :=
  fun _ => { now := 1000, GetLibrariesInfo := .ok exampleLibraries }

/-- The fields of a search result that `AbsAdapter.Search` copies from the
book it converts. -/
def SearchResult.toAbsBook (result : SearchResult) : AbsBook :=
  { LibraryID := result.LibraryID, RelPath := result.RelPath, Size := result.Size,
    AddedAt := result.AddedAt }

/-- The format `"%s_%s"` that `AbsAdapter.Search` applies to build an id. -/
def AbsBook.searchID (book : AbsBook) : String := book.LibraryID ++ "_" ++ book.RelPath

/-! ## Stats cache services (`internal/services/abs_service.go`,
`internal/services/emby_service.go`) -/

/-- Go struct `LibraryWithStats`: the embedded `models.LibraryInfo` and the
resolved `ItemCount`. -/
structure LibraryWithStats where
  LibraryInfo : LibraryInfo := {}
  ItemCount : Int := 0
  deriving DecidableEq

/-- What one call of `GetLibrariesWithStats` meets: the clock, the answers of
the adapter, and the order in which the goroutines take the mutex.
`GetLibraryItemsCount i id` is the answer to the goroutine spawned for
`libraries[i]`, which asks for the count of `id`. -/
structure StatsEnv where
  now : Time
  GetLibraries : Except Error (List LibraryInfo)
  GetLibraryItemsCount : Nat → String → Except Error Int
  order : List Nat

/-- The outcome of one call of `GetLibrariesWithStats`: the returned pair, the
service afterwards, and the numbers of `adapter.GetLibraries` and
`adapter.GetLibraryItemsCount` calls made. -/
structure StatsCall (σ : Type) where
  result : Except Error (List LibraryWithStats)
  service : σ
  getLibrariesCalls : Nat
  countCalls : Nat

/-- Go struct `AbsServerService`: the stats cache; a nil slice is `none`.  The
answers of `adapter` are arguments of the methods. -/
structure AbsServerService where
  librariesCache : Option (List LibraryWithStats) := none
  librariesCacheTime : Time := zeroTime
  cacheExpiry : Duration := 0
  deriving DecidableEq

/-- Go function `NewAbsServerService`. -/
def NewAbsServerService : AbsServerService := { cacheExpiry := 5 * Minute }

/-- The goroutine that `AbsServerService.GetLibrariesWithStats` spawns for
`libraries[index]`: it writes slot `index` of the result slice. -/
def AbsServerService.GetLibrariesWithStats.worker (env : StatsEnv)
    (librariesWithStats : List LibraryWithStats) (task : Nat × LibraryInfo) :
    List LibraryWithStats :=
  match env.GetLibraryItemsCount task.1 task.2.ID with
  | .error _ => librariesWithStats.set task.1 { LibraryInfo := task.2, ItemCount := 0 }
  | .ok count => librariesWithStats.set task.1 { LibraryInfo := task.2, ItemCount := count }

/-- Go method `AbsServerService.GetLibrariesWithStats`. -/
def AbsServerService.GetLibrariesWithStats (s : AbsServerService) (env : StatsEnv) :
    StatsCall AbsServerService :=
  if Since env.now s.librariesCacheTime < s.cacheExpiry ∧ s.librariesCache ≠ none then
    { result := .ok (s.librariesCache.getD []), service := s,
      getLibrariesCalls := 0, countCalls := 0 }
  else
    match env.GetLibraries with
    | .error err =>
      { result := .error err, service := s, getLibrariesCalls := 1, countCalls := 0 }
    | .ok libraries =>
      let librariesWithStats :=
        (inOrder libraries.enum env.order).foldl
          (AbsServerService.GetLibrariesWithStats.worker env)
          (List.replicate libraries.length {})
      { result := .ok librariesWithStats,
        service := { s with librariesCache := some librariesWithStats,
                            librariesCacheTime := env.now },
        getLibrariesCalls := 1, countCalls := libraries.length }

/-- Calls of `AbsServerService.GetLibrariesWithStats` made one after another,
call number `k` meeting the `k`-th element of the list. -/
def AbsServerService.callsInSequence (s : AbsServerService) :
    List StatsEnv → List (StatsCall AbsServerService)
  | [] => []
  | env :: rest =>
    (s.GetLibrariesWithStats env) ::
      AbsServerService.callsInSequence (s.GetLibrariesWithStats env).service rest

/-- Go struct `EmbyServerService`: the stats cache; a nil slice is `none`.  The
answers of `adapter` are arguments of the methods. -/
structure EmbyServerService where
  librariesCache : Option (List LibraryWithStats) := none
  librariesCacheTime : Time := zeroTime
  cacheExpiry : Duration := 0
  deriving DecidableEq

/-- Go function `NewEmbyServerService`. -/
def NewEmbyServerService : EmbyServerService := { cacheExpiry := 5 * Minute }

/-- The goroutine that `EmbyServerService.GetLibrariesWithStats` spawns for
`libraries[index]`: it writes slot `index` of the result slice. -/
def EmbyServerService.GetLibrariesWithStats.worker (env : StatsEnv)
    (librariesWithStats : List LibraryWithStats) (task : Nat × LibraryInfo) :
    List LibraryWithStats :=
  match env.GetLibraryItemsCount task.1 task.2.ID with
  | .error _ => librariesWithStats.set task.1 { LibraryInfo := task.2, ItemCount := 0 }
  | .ok count => librariesWithStats.set task.1 { LibraryInfo := task.2, ItemCount := count }

/-- Go method `EmbyServerService.GetLibrariesWithStats`. -/
def EmbyServerService.GetLibrariesWithStats (s : EmbyServerService) (env : StatsEnv) :
    StatsCall EmbyServerService :=
  if Since env.now s.librariesCacheTime < s.cacheExpiry ∧ s.librariesCache ≠ none then
    { result := .ok (s.librariesCache.getD []), service := s,
      getLibrariesCalls := 0, countCalls := 0 }
  else
    match env.GetLibraries with
    | .error err =>
      { result := .error err, service := s, getLibrariesCalls := 1, countCalls := 0 }
    | .ok libraries =>
      let librariesWithStats :=
        (inOrder libraries.enum env.order).foldl
          (EmbyServerService.GetLibrariesWithStats.worker env)
          (List.replicate libraries.length {})
      { result := .ok librariesWithStats,
        service := { s with librariesCache := some librariesWithStats,
                            librariesCacheTime := env.now },
        getLibrariesCalls := 1, countCalls := libraries.length }

/-- Calls of `EmbyServerService.GetLibrariesWithStats` made one after another,
call number `k` meeting the `k`-th element of the list. -/
def EmbyServerService.callsInSequence (s : EmbyServerService) :
    List StatsEnv → List (StatsCall EmbyServerService)
  | [] => []
  | env :: rest =>
    (s.GetLibrariesWithStats env) ::
      EmbyServerService.callsInSequence (s.GetLibrariesWithStats env).service rest

/-- The slot that the goroutine of `libraries[i]` writes. -/
def StatsEnv.entry (env : StatsEnv) (i : Nat) (lib : LibraryInfo) : LibraryWithStats :=
  match env.GetLibraryItemsCount i lib.ID with
  | .error _ => { LibraryInfo := lib, ItemCount := 0 }
  | .ok count => { LibraryInfo := lib, ItemCount := count }

/-! ## Concurrent callers of `AbsServerService.GetLibrariesWithStats`

The method has three sections: the cache check under the read lock (lines
76-82), the refetch with no lock held (lines 85-128), and the store under the
write lock (lines 131-134).  A caller runs them in this order; the scheduler
interleaves the sections of different callers. -/

/-- The section that a caller of `GetLibrariesWithStats` runs next. -/
inductive StatsCaller where
  | atCheck
  | atFetch
  | atStore (librariesWithStats : List LibraryWithStats)
  | returned (result : Except Error (List LibraryWithStats))
  deriving DecidableEq

/-- The service shared by the callers, where each caller stands, and the
numbers of adapter calls made so far. -/
structure StatsRun where
  service : AbsServerService
  callers : List StatsCaller
  getLibrariesCalls : Nat := 0
  countCalls : Nat := 0
  deriving DecidableEq

/-- Caller `i` runs its next section; `env i` is what that caller meets. -/
def StatsRun.step (env : Nat → StatsEnv) (r : StatsRun) (i : Nat) : StatsRun :=
  match r.callers[i]? with
  | none => r
  | some .atCheck =>
    if Since (env i).now r.service.librariesCacheTime < r.service.cacheExpiry ∧
        r.service.librariesCache ≠ none then
      { r with callers := r.callers.set i (.returned (.ok (r.service.librariesCache.getD []))) }
    else
      { r with callers := r.callers.set i .atFetch }
  | some .atFetch =>
    match (env i).GetLibraries with
    | .error err =>
      { r with callers := r.callers.set i (.returned (.error err)),
               getLibrariesCalls := r.getLibrariesCalls + 1 }
    | .ok libraries =>
      { r with
        callers := r.callers.set i
          (.atStore ((inOrder libraries.enum (env i).order).foldl
            (AbsServerService.GetLibrariesWithStats.worker (env i))
            (List.replicate libraries.length {}))),
        getLibrariesCalls := r.getLibrariesCalls + 1,
        countCalls := r.countCalls + libraries.length }
  | some (.atStore librariesWithStats) =>
    { r with
      service := { r.service with librariesCache := some librariesWithStats,
                                  librariesCacheTime := (env i).now },
      callers := r.callers.set i (.returned (.ok librariesWithStats)) }
  | some (.returned _) => r

/-- The callers run their sections in the order given by `schedule`. -/
def StatsRun.run (env : Nat → StatsEnv) (r : StatsRun) (schedule : List Nat) : StatsRun :=
  schedule.foldl (StatsRun.step env) r

/-- The start of `n` concurrent calls on the service `s`. -/
def StatsRun.start (s : AbsServerService) (n : Nat) : StatsRun :=
  { service := s, callers := List.replicate n .atCheck }

/-! ## Concrete stats-cache calls used to instantiate the theorems -/

/-- Libraries `1` and `x`. -/
def exampleStatsLibraries : List LibraryInfo :=
  [{ ID := "1", Name := "Books" }, { ID := "x", Name := "Movies" }]

/-- At time `now` the adapter lists two libraries; the count of the first is
`10`, the count call of the second fails. -/
def exampleStatsEnv (now : Time) : StatsEnv :=
  { now := now,
    GetLibraries := .ok exampleStatsLibraries,
    GetLibraryItemsCount := fun i _ => if i = 0 then .ok 10 else .error "timeout",
    order := [1, 0] }

/-- At time `now` the library fetch of the adapter fails. -/
def exampleStatsEnvDown (now : Time) : StatsEnv :=
  { now := now,
    GetLibraries := .error "error making request: connection refused",
    GetLibraryItemsCount := fun _ _ => .error "error making request: connection refused",
    order := [] }

/-! ## Concrete library-name lookups used to instantiate the theorems -/

/-- At time `now` the library fetch of the client fails. -/
def exampleLookupDown (now : Time) : LookupEnv :=
  { now := now, GetLibrariesInfo := .error "error making request: connection refused" }

/-- At time `now` the library fetch of the client answers with `L1` and `L2`. -/
def exampleLookupUp (now : Time) : LookupEnv :=
  { now := now, GetLibrariesInfo := .ok exampleLibraries }

/-- An adapter whose cache holds `L1` and `L2`, fetched at time `0`. -/
def exampleAdapterCached : AbsAdapter :=
  { librariesCache := some (exampleLibraries.map AbsLibraryInfo.toLibraryInfo),
    librariesCacheTime := 0,
    cacheExpiry := 30 * Minute }

/-! ## HTTP requests (`doRequest` in `internal/api/abs_client.go` and
`internal/api/emby_client.go`) -/

/-- The status code and the body, read to its end, of an `http.Response`. -/
structure HttpResponse where
  StatusCode : Int
  Body : String
  deriving DecidableEq

/-- How far one run of `doRequest` gets: the step that fails, with the message
of its error, or the response once `io.ReadAll` has read the body. -/
inductive RoundTrip where
  | marshalFailed (err : Error)
  | newRequestFailed (err : Error)
  | doFailed (err : Error)
  | readAllFailed (err : Error)
  | delivered (resp : HttpResponse)
  deriving DecidableEq

/-- Go method `AbsClient.doRequest`, given how far the round trip gets. -/
def AbsClient.doRequest (rt : RoundTrip) : Except Error String :=
  match rt with
  | .marshalFailed err => .error ("error marshaling request body: " ++ err)
  | .newRequestFailed err => .error ("error creating request: " ++ err)
  | .doFailed err => .error ("error making request: " ++ err)
  | .readAllFailed err => .error ("error reading response body: " ++ err)
  | .delivered resp =>
    if resp.StatusCode < 200 ∨ resp.StatusCode ≥ 300 then
      .error ("API request failed with status " ++ toString resp.StatusCode ++ ": " ++ resp.Body)
    else .ok resp.Body

/-- Go method `EmbyClient.doRequest`, given how far the round trip gets. -/
def EmbyClient.doRequest (rt : RoundTrip) : Except Error String :=
  match rt with
  | .marshalFailed err => .error ("error marshaling request body: " ++ err)
  | .newRequestFailed err => .error ("error creating request: " ++ err)
  | .doFailed err => .error ("error making request: " ++ err)
  | .readAllFailed err => .error ("error reading response body: " ++ err)
  | .delivered resp =>
    if resp.StatusCode < 200 ∨ resp.StatusCode ≥ 300 then
      .error ("API request failed with status " ++ toString resp.StatusCode ++ ": " ++ resp.Body)
    else .ok resp.Body

/-! ## Emby adapter (`internal/api/emby_adapter.go`) -/

/-- One element of `Items` in the media-folder response that
`EmbyAdapter.GetLibraries` decodes. -/
structure EmbyMediaFolder where
  Name : String := ""
  ID : String := ""
  CollectionType : String := ""
  LocationType : String := ""
  RefreshStatus : String := ""
  PrimaryImageTag : String := ""
  CanDelete : Bool := false
  CanRefresh : Bool := false
  CanRecover : Bool := false
  CanDownload : Bool := false
  IsOwnedItem : Bool := false
  deriving DecidableEq

/-- What `EmbyAdapter.GetLibraries` meets during one call.
`GetLibraryItemsCount i id` is the answer of `e.client.GetLibraryItemsCount`
in round `i` of the loop, which asks for the count of `id`. -/
structure EmbyLibrariesEnv where
  GetMediaFolders : Except Error String
  unmarshal : String → Except Error (List EmbyMediaFolder)
  GetLibraryItemsCount : Nat → String → Except Error Int

/-- The body of the loop of `EmbyAdapter.GetLibraries` for `Items[i]`. -/
def EmbyAdapter.GetLibraries.convert (env : EmbyLibrariesEnv) (i : Nat)
    (folder : EmbyMediaFolder) : LibraryInfo :=
  let itemCount : Int :=
    match env.GetLibraryItemsCount i folder.ID with
    | .error _ => 0
    | .ok itemCount => itemCount
  { ID := folder.ID,
    Name := folder.Name,
    ItemCount := itemCount,
    MediaType := folder.CollectionType,
    CreatedAt := 0,
    UpdatedAt := 0,
    LastScan := 0 }

/-- Go method `EmbyAdapter.GetLibraries`. -/
def EmbyAdapter.GetLibraries (env : EmbyLibrariesEnv) : Except Error (List LibraryInfo) :=
  match env.GetMediaFolders with
  | .error err => .error err
  | .ok data =>
    match env.unmarshal data with
    | .error err => .error ("error unmarshaling media folders: " ++ err)
    | .ok items =>
      .ok (items.enum.map fun t => EmbyAdapter.GetLibraries.convert env t.1 t.2)

/-- Two media folders; the count of the first is `5`, the count call of the
second fails. -/
def exampleEmbyLibraries : EmbyLibrariesEnv :=
  { GetMediaFolders := .ok "folders",
    unmarshal := fun data =>
      if data = "folders" then
        .ok [{ Name := "Movies", ID := "x", CollectionType := "movies" },
             { Name := "Shows", ID := "y", CollectionType := "tvshows" }]
      else .error "unexpected end of JSON input",
    GetLibraryItemsCount := fun i _ =>
      if i = 0 then .ok 5 else .error "API request failed with status 500: " }

/-! ## Audiobookshelf client: the library cache (`internal/api/abs_client.go`) -/

/-- Go struct `AbsClient`; a nil `librariesCache` is `none`. -/
structure AbsClient where
  baseURL : String := ""
  token : String := ""
  librariesCache : Option (List AbsLibraryInfo) := none
  librariesCacheTime : Time := zeroTime
  cacheExpiry : Duration := 0
  deriving DecidableEq

/-- Go function `NewAbsClient`. -/
def NewAbsClient (config : Config) : AbsClient :=
  { baseURL :=
      if config.AudiobookshelfURL = "" then
        "http://localhost:" ++ toString config.AudiobookshelfPort
      else config.AudiobookshelfURL,
    token := config.AudiobookshelfToken,
    cacheExpiry := 30 * Minute }

/-- What one call of `AbsClient.GetLibrariesInfo` meets: the clock, the result
of `doRequest` for `/api/libraries`, the decoding of its body into the field
`Libraries` (`none` when the decoder leaves the slice nil), and the answer of
`c.GetLibraryItemsCount` in round `i` of the count loop. -/
structure LibrariesInfoEnv where
  now : Time
  doRequest : Except Error String
  unmarshal : String → Except Error (Option (List AbsLibraryInfo))
  GetLibraryItemsCount : Nat → String → Except Error Int

/-- The outcome of `AbsClient.GetLibrariesInfo`: the returned pair (a nil
slice reads as the empty list), the client afterwards, and the number of HTTP
requests issued. -/
structure LibrariesInfoCall where
  result : Except Error (List AbsLibraryInfo)
  client : AbsClient
  requests : Nat
  deriving DecidableEq

/-- The count loop of `GetLibrariesInfo`: a count that arrives overwrites
`ItemCount`, a failed count call leaves the library as decoded. -/
def AbsClient.GetLibrariesInfo.withCounts (env : LibrariesInfoEnv)
    (libraries : List AbsLibraryInfo) : List AbsLibraryInfo :=
  libraries.enum.map fun t =>
    match env.GetLibraryItemsCount t.1 t.2.ID with
    | .ok count => { t.2 with ItemCount := count }
    | .error _ => t.2

/-- Go method `AbsClient.GetLibrariesInfo`. -/
def AbsClient.GetLibrariesInfo (c : AbsClient) (env : LibrariesInfoEnv) : LibrariesInfoCall :=
  if Since env.now c.librariesCacheTime < c.cacheExpiry ∧ c.librariesCache ≠ none then
    { result := .ok (c.librariesCache.getD []), client := c, requests := 0 }
  else
    match env.doRequest with
    | .error err => { result := .error err, client := c, requests := 1 }
    | .ok data =>
      match env.unmarshal data with
      | .error err =>
        { result := .error ("error unmarshaling libraries: " ++ err), client := c,
          requests := 1 }
      | .ok libraries =>
        let counted := libraries.map (AbsClient.GetLibrariesInfo.withCounts env)
        { result := .ok (counted.getD []),
          client := { c with librariesCache := counted, librariesCacheTime := env.now },
          requests := 1 + (counted.getD []).length }

/-- Go method `AbsAdapter.GetLibraries`; `getLibrariesInfo` is the result of
`a.client.GetLibrariesInfo()`. -/
def AbsAdapter.GetLibraries (getLibrariesInfo : Except Error (List AbsLibraryInfo)) :
    Except Error (List LibraryInfo) :=
  match getLibrariesInfo with
  | .error err => .error err
  | .ok absLibraries => .ok (absLibraries.map AbsLibraryInfo.toLibraryInfo)

/-- The search loop of `AbsServerService.GetLibraryName` with the not-found
error that follows it. -/
def AbsServerService.GetLibraryName.find : List LibraryInfo → String → String × Option Error
  | [], libraryId => ("", some ("未找到ID为" ++ libraryId ++ "的媒体库"))
  | lib :: rest, libraryId =>
    if lib.ID = libraryId then (lib.Name, none)
    else AbsServerService.GetLibraryName.find rest libraryId

/-- Go method `AbsServerService.GetLibraryName`; `getLibrariesBasicInfo` is
the result of `s.getLibrariesBasicInfo()`, that is of `s.adapter.GetLibraries()`. -/
def AbsServerService.GetLibraryName (getLibrariesBasicInfo : Except Error (List LibraryInfo))
    (libraryId : String) : String × Option Error :=
  match getLibrariesBasicInfo with
  | .error err => ("", some err)
  | .ok libraries => AbsServerService.GetLibraryName.find libraries libraryId

/-- The outcome of `GetLibraryName` run on a client: the returned pair, the
client afterwards and the number of HTTP requests issued. -/
structure LibraryNameCall where
  name : String
  err : Option Error
  client : AbsClient
  requests : Nat
  deriving DecidableEq

/-- One call `s.GetLibraryName(libraryId)` on a service whose adapter uses the
client `c`: the service asks the adapter, the adapter asks the client. -/
def AbsServerService.GetLibraryName.call (c : AbsClient) (env : LibrariesInfoEnv)
    (libraryId : String) : LibraryNameCall :=
  { name := (AbsServerService.GetLibraryName
      (AbsAdapter.GetLibraries (c.GetLibrariesInfo env).result) libraryId).1,
    err := (AbsServerService.GetLibraryName
      (AbsAdapter.GetLibraries (c.GetLibrariesInfo env).result) libraryId).2,
    client := (c.GetLibrariesInfo env).client,
    requests := (c.GetLibrariesInfo env).requests }

/-- Calls `s.GetLibraryName(libraryId)` made one after another, call number
`k` meeting the `k`-th element of the list. -/
def AbsServerService.GetLibraryName.calls (c : AbsClient) :
    List LibrariesInfoEnv → String → List LibraryNameCall
  | [], _ => []
  | env :: rest, libraryId =>
    AbsServerService.GetLibraryName.call c env libraryId ::
      AbsServerService.GetLibraryName.calls
        (AbsServerService.GetLibraryName.call c env libraryId).client rest libraryId

/-- At time `now` the backend lists `L1` and `L2`; the count of `L1` is `7`,
the count call of `L2` fails. -/
def exampleLibrariesInfo (now : Time) : LibrariesInfoEnv :=
  { now := now,
    doRequest := .ok "libraries",
    unmarshal := fun data =>
      if data = "libraries" then .ok (some exampleLibraries)
      else .error "unexpected end of JSON input",
    GetLibraryItemsCount := fun i _ =>
      if i = 0 then .ok 7 else .error "error making request: timeout" }

/-- At time `now` the backend is unreachable. -/
def exampleLibrariesInfoDown (now : Time) : LibrariesInfoEnv :=
  { now := now,
    doRequest := .error "error making request: connection refused",
    unmarshal := fun _ => .error "unexpected end of JSON input",
    GetLibraryItemsCount := fun _ _ => .error "error making request: connection refused" }

/-! ## Audiobookshelf service: search (`internal/services/abs_service.go`) -/

/-- The outcome of `AbsServerService.SearchBooks`: the returned pair, the
adapter afterwards and the number of `adapter.Search` calls made. -/
structure ServiceSearchCall where
  result : Except Error (List AbsBook)
  adapter : AbsAdapter
  searchCalls : Nat
  deriving DecidableEq

/-- Go method `AbsServerService.SearchBooks` on a service whose adapter is
`a`; `searchBooks` and `env` are what `a.Search(term)` meets. -/
def AbsServerService.SearchBooks (a : AbsAdapter) (term _libraryID : String)
    (searchBooks : Except Error (List AbsBook)) (env : Nat → LookupEnv) : ServiceSearchCall :=
  if term = "" then
    { result := .error "搜索词不能为空", adapter := a, searchCalls := 0 }
  else
    match (a.Search searchBooks env).1 with
    | .error err =>
      { result := .error ("搜索失败: " ++ err), adapter := (a.Search searchBooks env).2,
        searchCalls := 1 }
    | .ok results =>
      { result := .ok (results.map fun result =>
          { LibraryID := result.LibraryID, RelPath := result.RelPath, Size := result.Size,
            AddedAt := result.AddedAt }),
        adapter := (a.Search searchBooks env).2,
        searchCalls := 1 }

/-! ## Aggregation manager: accessors (`internal/services/media_server_manager.go`) -/

/-- Go method `MediaServerManager.GetServer`. -/
def MediaServerManager.GetServer (m : MediaServerManager) (serverType : MediaServerType) :
    Option MediaServer × Option Error :=
  match m.servers.get serverType with
  | none => (none, some ("未找到类型为 " ++ serverType ++ " 的媒体服务器"))
  | some server => (some server, none)

/-- Go method `MediaServerManager.GetAllServers`; `order` is the order in
which `range m.servers` visits the entries. -/
def MediaServerManager.GetAllServers (m : MediaServerManager) (order : List Nat) :
    GoMap MediaServerType MediaServer :=
  (inOrder m.servers order).foldl (fun servers e => servers.set e.1 e.2) []

/-- Go method `MediaServerManager.GetServerTypes`; `order` is the order in
which `range m.servers` visits the entries. -/
def MediaServerManager.GetServerTypes (m : MediaServerManager) (order : List Nat) :
    List MediaServerType :=
  (inOrder m.servers order).foldl (fun types e => types ++ [e.1]) []

/-- The maps that live on the Go heap; a map value is the position of its
entries in this list, so two values are the same map when the positions are
equal. -/
abbrev ServerHeap := List (GoMap MediaServerType MediaServer)

/-- Map write `ref[k] = v` through a map value. -/
def ServerHeap.write (h : ServerHeap) (ref : Nat) (k : MediaServerType) (v : MediaServer) :
    ServerHeap :=
  match h[ref]? with
  | none => h
  | some m => h.set ref (m.set k v)

/-- `GetAllServers` on the heap: the manager's field `servers` is the map at
position `servers`; `make` allocates the result at a new position, the loop
fills it, and the method returns the new position. -/
def MediaServerManager.GetAllServers.onHeap (h : ServerHeap) (servers : Nat)
    (order : List Nat) : ServerHeap × Nat :=
  (h ++ [MediaServerManager.GetAllServers { servers := (h[servers]?).getD [] } order], h.length)

/-! ## Emby users and search (`internal/models/emby.go`,
`internal/api/emby_adapter.go`) -/

/-- A Go `int64` holding the integer `x`: two's complement wrap-around. -/
def int64 (x : Int) : Int := (x + 9223372036854775808) % 18446744073709551616 - 9223372036854775808

/-- Go struct `models.UserInfo`; `Typ` is the field `Type`, `MediaProgress`
holds the raw value of the `interface{}`, `none` when nil. -/
structure UserInfo where
  ID : String := ""
  Username : String := ""
  Typ : String := ""
  Token : String := ""
  IsActive : Bool := false
  LastSeen : Int := 0
  MediaProgress : Option String := none
  CreatedAt : Int := 0
  UpdatedAt : Int := 0
  deriving DecidableEq

/-- The struct of the field `Policy` of `models.EmbyUser`; a slice of
`interface{}` holds raw values. -/
structure EmbyPolicy where
  IsAdministrator : Bool := false
  IsHidden : Bool := false
  IsDisabled : Bool := false
  MaxParentalRating : Int := 0
  BlockedTags : List String := []
  EnableUserPreferenceAccess : Bool := false
  AccessSchedules : List String := []
  BlockedChannels : List String := []
  BlockedTagsForRatings : List String := []
  BlockedVideoTypes : List String := []
  EnablePlaybackRemuxing : Bool := false
  EnableLiveTvManagement : Bool := false
  EnableLiveTvAccess : Bool := false
  EnableMediaPlayback : Bool := false
  EnableAudioPlaybackTranscoding : Bool := false
  EnableVideoPlaybackTranscoding : Bool := false
  EnableContentDeletion : Bool := false
  EnableContentDeletionFromFolders : List String := []
  EnableContentDownloading : Bool := false
  EnableSyncTranscoding : Bool := false
  EnableMediaConversion : Bool := false
  EnabledDevices : List String := []
  EnableAllDevices : Bool := false
  EnabledChannels : List String := []
  EnableAllChannels : Bool := false
  EnabledFolders : List String := []
  EnableAllFolders : Bool := false
  InvalidLoginAttemptCount : Int := 0
  LoginAttemptsBeforeLockout : Int := 0
  MaxActiveSessions : Int := 0
  EnablePublicSharing : Bool := false
  RemoteClientBitrateLimit : Int := 0
  AuthenticationProviderId : String := ""
  PasswordResetProviderId : String := ""
  SyncPlayAccess : String := ""
  deriving DecidableEq

/-- Go struct `models.EmbyUser`; `Typ` is the field `Type`. -/
structure EmbyUser where
  ID : String := ""
  Name : String := ""
  LastActivityDate : String := ""
  LastPlaybackCheckIn : String := ""
  HasConfiguredPassword : Bool := false
  HasConfiguredEasyPassword : Bool := false
  Typ : String := ""
  Policy : EmbyPolicy := {}
  deriving DecidableEq

/-- Go function `toUser`.  `parse s` stands for
`time.Parse(time.RFC3339, s)` followed by `t.Unix()`: the whole Unix seconds of
the timestamp, or the error of the parser. -/
def toUser (parse : String → Except Error Int) (embyUser : EmbyUser) : UserInfo :=
  let lastSeen : Int :=
    if embyUser.LastActivityDate ≠ "" then
      match parse embyUser.LastActivityDate with
      | .ok unix => int64 (unix * 1000)
      | .error _ => 0
    else 0
  let userType := if embyUser.Policy.IsAdministrator then "Admin" else "EmbyUser"
  { ID := embyUser.ID,
    Username := embyUser.Name,
    Typ := userType,
    IsActive := !embyUser.Policy.IsDisabled,
    LastSeen := lastSeen,
    CreatedAt := 0,
    UpdatedAt := 0 }

/-- The struct of the field `ProviderIds` of a search item. -/
structure EmbyProviderIds where
  Tmdb : String := ""
  Imdb : String := ""
  Tvdb : String := ""
  deriving DecidableEq

/-- One element of `Items` in the response that `EmbyAdapter.Search` decodes;
`Typ` is the field `Type`. -/
structure EmbySearchItem where
  ID : String := ""
  Name : String := ""
  Typ : String := ""
  IsFolder : Bool := false
  Size : Int := 0
  DateCreated : String := ""
  ParentId : String := ""
  Path : String := ""
  ProductionYear : Int := 0
  PremiereDate : String := ""
  Overview : String := ""
  Genres : List String := []
  MediaType : String := ""
  RunTimeTicks : Int := 0
  ProviderIds : EmbyProviderIds := {}
  deriving DecidableEq

/-- What `EmbyAdapter.Search` meets during one call: the result of
`e.client.SearchItems(query, "", 50)`, the decoding of its body, and the
library functions `time.Parse(time.RFC3339, s)` followed by `t.Unix()`
(`parse`) and `strings.ToLower`. -/
structure EmbySearchEnv where
  SearchItems : Except Error String
  unmarshal : String → Except Error (List EmbySearchItem)
  parse : String → Except Error Int
  ToLower : String → String

/-- The body of the conversion loop of `EmbyAdapter.Search` for one item. -/
def EmbyAdapter.Search.convert (env : EmbySearchEnv) (item : EmbySearchItem) : SearchResult :=
  let addedAt : Int :=
    if item.DateCreated ≠ "" then
      match env.parse item.DateCreated with
      | .ok unix => int64 (unix * 1000)
      | .error _ => 0
    else 0
  let library := if item.ParentId = "" then "Unknown Library" else item.ParentId
  { ID := item.ID,
    Title := item.Name,
    Author := "",
    Size := item.Size,
    AddedAt := addedAt,
    LibraryID := item.ParentId,
    Library := library,
    Typ := env.ToLower item.Typ,
    Path := item.Path,
    RelPath := item.Path,
    Overview := item.Overview,
    Genres := item.Genres,
    Year := item.ProductionYear,
    ProductionYear := item.ProductionYear,
    PremiereDate := item.PremiereDate,
    RunTime := item.RunTimeTicks,
    MediaType := item.MediaType }

/-- Go method `EmbyAdapter.Search`. -/
def EmbyAdapter.Search (env : EmbySearchEnv) : Except Error (List SearchResult) :=
  match env.SearchItems with
  | .error err => .error err
  | .ok data =>
    match env.unmarshal data with
    | .error err => .error ("error unmarshaling search results: " ++ err)
    | .ok items => .ok (items.map (EmbyAdapter.Search.convert env))

/-- A timestamp parser for the examples: it knows one timestamp. -/
def exampleParse (s : String) : Except Error Int :=
  if s = "2024-01-01T00:00:00Z" then .ok 1704067200
  else .error "parsing time: cannot parse"

/-- An Emby item in the folder `x`. -/
def exampleEmbyMovie : EmbySearchItem :=
  { ID := "1", Name := "Dune", Typ := "Movie", ParentId := "x", DateCreated := "2024-01-01T00:00:00Z" }

/-- An Emby item without parent. -/
def exampleEmbyLoose : EmbySearchItem :=
  { ID := "2", Name := "Loose", Typ := "Audio" }

/-- An Emby administrator last seen on 1 January 2024. -/
def exampleEmbyAdmin : EmbyUser :=
  { ID := "7", Name := "ann", LastActivityDate := "2024-01-01T00:00:00Z", Policy := { IsAdministrator := true } }

/-- An Emby search that returns a movie in folder `x` and an item without
parent. -/
def exampleEmbySearch : EmbySearchEnv :=
  { SearchItems := .ok "items",
    unmarshal := fun data =>
      if data = "items" then .ok [exampleEmbyMovie, exampleEmbyLoose]
      else .error "unexpected end of JSON input",
    parse := exampleParse,
    ToLower := fun s => s.toLower }

/-! ## Configuration (`internal/config/config.go`) -/

/-- Go function `getEnvWithDefault`; `environ` is `os.LookupEnv` on the
process environment as `loadEnvFile()` leaves it. -/
def getEnvWithDefault (environ : String → Option String) (key defaultValue : String) : String :=
  match environ key with
  | some value => value
  | none => defaultValue

/-- Go function `parseAllowedUserIDs`.  `Split` stands for
`strings.Split(·, ",")`, `TrimSpace` for `strings.TrimSpace` and `ParseInt`
for `strconv.ParseInt(·, 10, 64)`.  A nil slice and an empty slice are both
the empty list. -/
def parseAllowedUserIDs (Split : String → List String) (TrimSpace : String → String)
    (ParseInt : String → Except Error Int) (idsStr : String) : List Int :=
  if idsStr = "" then []
  else
    (Split idsStr).foldl
      (fun ids idStr =>
        match ParseInt (TrimSpace idStr) with
        | .ok id => ids ++ [id]
        | .error _ => ids)
      []

/-- The list that the description of `parseAllowedUserIDs` names: split at
commas, trim every piece, drop the pieces that are no integer, convert the
rest, keeping the order. -/
def parseAllowedUserIDs.described (Split : String → List String) (TrimSpace : String → String)
    (ParseInt : String → Except Error Int) (s : String) : List Int :=
  ((Split s).map TrimSpace).filterMap fun piece => (ParseInt piece).toOption

/-- Go function `LoadConfig`; `Atoi` stands for `strconv.Atoi`. -/
def LoadConfig (Split : String → List String) (TrimSpace : String → String)
    (ParseInt Atoi : String → Except Error Int) (environ : String → Option String) : Config :=
  let allowedUserIDs :=
    parseAllowedUserIDs Split TrimSpace ParseInt (getEnvWithDefault environ "ALLOWED_USER_IDS" "")
  let config : Config :=
    { TelegramBotToken := getEnvWithDefault environ "TELEGRAM_BOT_TOKEN" "",
      AudiobookshelfURL := getEnvWithDefault environ "AUDIOBOOKSHELF_URL" "",
      AudiobookshelfToken := getEnvWithDefault environ "AUDIOBOOKSHELF_TOKEN" "",
      EmbyURL := getEnvWithDefault environ "EMBY_URL" "",
      EmbyToken := getEnvWithDefault environ "EMBY_TOKEN" "",
      Debug := getEnvWithDefault environ "DEBUG" "false" = "true",
      ProxyAddress := getEnvWithDefault environ "PROXY_ADDRESS" "",
      AllowedUserIDs := allowedUserIDs }
  let portStr := getEnvWithDefault environ "AUDIOBOOKSHELF_PORT" ""
  let config : Config :=
    if portStr ≠ "" then
      match Atoi portStr with
      | .ok port => { config with AudiobookshelfPort := port }
      | .error _ => config
    else config
  let config : Config :=
    if config.AudiobookshelfPort = 0 then { config with AudiobookshelfPort := 13378 }
    else config
  let embyPortStr := getEnvWithDefault environ "EMBY_PORT" ""
  let config : Config :=
    if embyPortStr ≠ "" then
      match Atoi embyPortStr with
      | .ok port => { config with EmbyPort := port }
      | .error _ => config
    else config
  if config.EmbyPort = 0 then { config with EmbyPort := 8096 }
  else config

/-! ### The standard library functions on which the configuration relies -/

/-- The scan of `strings.Split` for a separator of one character: `cur` holds
the characters of the piece being read, latest first. -/
def strings.Split.scan (sep : Char) : List Char → List Char → List String
  | cur, [] => [String.mk cur.reverse]
  | cur, c :: cs =>
    if c = sep then String.mk cur.reverse :: strings.Split.scan sep [] cs
    else strings.Split.scan sep (c :: cur) cs

/-- Go `strings.Split(s, sep)` for a separator of one character: the pieces
between the separators, one more than there are separators. -/
def strings.Split (s : String) (sep : Char) : List String :=
  strings.Split.scan sep [] s.data

/-- Go `unicode.IsSpace`. -/
def unicode.IsSpace (c : Char) : Bool :=
  decide (c.toNat ∈ [0x09, 0x0A, 0x0B, 0x0C, 0x0D, 0x20, 0x85, 0xA0, 0x1680, 0x2028, 0x2029,
    0x202F, 0x205F, 0x3000]) || (decide (0x2000 ≤ c.toNat) && decide (c.toNat ≤ 0x200A))

/-- Go `strings.TrimSpace`. -/
def strings.TrimSpace (s : String) : String :=
  String.mk ((s.data.dropWhile unicode.IsSpace).reverse.dropWhile unicode.IsSpace).reverse

/-- The value of a non-empty run of the digits `0` to `9`, and `none` for
anything else. -/
def strconv.digits : List Char → Option Nat
  | [] => none
  | cs => cs.foldl
      (fun acc c =>
        match acc with
        | none => none
        | some n => if c.isDigit then some (n * 10 + (c.toNat - 48)) else none)
      (some 0)

/-- Go `strconv.ParseInt(s, 10, bitSize)`: an optional sign, then decimal
digits only, the value within the signed range of `bitSize` bits.  The text
of the errors is abridged. -/
def strconv.ParseInt (s : String) (bitSize : Nat) : Except Error Int :=
  match s.data with
  | [] => .error "invalid syntax"
  | c :: cs =>
    let neg : Bool := c = '-'
    let body := if c = '+' ∨ c = '-' then cs else c :: cs
    match strconv.digits body with
    | none => .error "invalid syntax"
    | some un =>
      if !neg && decide (un ≥ 2 ^ (bitSize - 1)) then .error "value out of range"
      else if neg && decide (un > 2 ^ (bitSize - 1)) then .error "value out of range"
      else .ok (if neg then -(un : Int) else (un : Int))

/-- Go `strconv.Atoi` where `int` has 64 bits. -/
def strconv.Atoi (s : String) : Except Error Int := strconv.ParseInt s 64

/-! ## Bot manager (`internal/bot/bot_manager.go`) -/

/-- What the manager keeps of `tgbotapi.BotAPI`. -/
structure BotAPI where
  Token : String := ""
  Debug : Bool := false
  deriving DecidableEq

/-- Go struct `bot.Manager`; the pointer `mediaServerManager` may be nil. -/
structure Manager where
  Bot : BotAPI
  mediaServerManager : Option MediaServerManager
  allowedUserIDs : GoMap Int Bool

/-- Go function `NewBotManager`; `initializeTelegramBot` is the function of
that name, which connects to the Telegram API. -/
def NewBotManager (initializeTelegramBot : Config → Except Error BotAPI)
    (newAbs newEmby : Config → MediaServer) (cfg : Config) : Option Manager × Option Error :=
  match initializeTelegramBot cfg with
  | .error err => (none, some ("无法初始化Telegram Bot: " ++ err))
  | .ok telegramBot =>
    match NewMediaServerManager newAbs newEmby cfg with
    | (_, some err) => (none, some ("无法初始化媒体服务器管理器: " ++ err))
    | (mediaServerManager, none) =>
      let allowedUserIDs : GoMap Int Bool :=
        cfg.AllowedUserIDs.foldl (fun allowedUserIDs id => allowedUserIDs.set id true) []
      (some { Bot := telegramBot,
              mediaServerManager := mediaServerManager,
              allowedUserIDs := allowedUserIDs }, none)

/-- Go method `Manager.IsUserAllowed`. -/
def Manager.IsUserAllowed (bm : Manager) (userID : Int) : Bool :=
  if bm.allowedUserIDs.length = 0 then true
  else (bm.allowedUserIDs.get userID).getD false

/-- An environment with both backends configured and the given value of
`ALLOWED_USER_IDS`. -/
def exampleEnviron (allowed : String) (key : String) : Option String :=
  if key = "ALLOWED_USER_IDS" then some allowed
  else if key = "TELEGRAM_BOT_TOKEN" then some "t"
  else if key = "AUDIOBOOKSHELF_TOKEN" then some "a"
  else if key = "EMBY_TOKEN" then some "e"
  else none

/-- The configuration loaded from `exampleEnviron allowed` with the standard
library functions above. -/
def exampleLoadConfig (allowed : String) : Config :=
  LoadConfig (fun s => strings.Split s ',') strings.TrimSpace (fun s => strconv.ParseInt s 64)
    strconv.Atoi (exampleEnviron allowed)

/-- The bot manager built from `exampleLoadConfig allowed` when Telegram
accepts the token. -/
def exampleBotManager (allowed : String) : Option Manager × Option Error :=
  NewBotManager (fun cfg => .ok { Token := cfg.TelegramBotToken, Debug := cfg.Debug })
    (fun _ => exampleUp "abs") (fun _ => exampleUp "emby") (exampleLoadConfig allowed)

/-! ## Concurrent callers of `EmbyServerService.GetLibrariesWithStats`

The method of the Emby service has the same three sections as that of the
Audiobookshelf service (lines 72-78, 81-124 and 127-130). -/

/-- The Emby service shared by the callers, where each caller stands, and the
numbers of adapter calls made so far. -/
structure EmbyStatsRun where
  service : EmbyServerService
  callers : List StatsCaller
  getLibrariesCalls : Nat := 0
  countCalls : Nat := 0
  deriving DecidableEq

/-- Caller `i` of the Emby service runs its next section; `env i` is what that
caller meets. -/
def EmbyStatsRun.step (env : Nat → StatsEnv) (r : EmbyStatsRun) (i : Nat) : EmbyStatsRun :=
  match r.callers[i]? with
  | none => r
  | some .atCheck =>
    if Since (env i).now r.service.librariesCacheTime < r.service.cacheExpiry ∧
        r.service.librariesCache ≠ none then
      { r with callers := r.callers.set i (.returned (.ok (r.service.librariesCache.getD []))) }
    else
      { r with callers := r.callers.set i .atFetch }
  | some .atFetch =>
    match (env i).GetLibraries with
    | .error err =>
      { r with callers := r.callers.set i (.returned (.error err)),
               getLibrariesCalls := r.getLibrariesCalls + 1 }
    | .ok libraries =>
      { r with
        callers := r.callers.set i
          (.atStore ((inOrder libraries.enum (env i).order).foldl
            (EmbyServerService.GetLibrariesWithStats.worker (env i))
            (List.replicate libraries.length {}))),
        getLibrariesCalls := r.getLibrariesCalls + 1,
        countCalls := r.countCalls + libraries.length }
  | some (.atStore librariesWithStats) =>
    { r with
      service := { r.service with librariesCache := some librariesWithStats,
                                  librariesCacheTime := (env i).now },
      callers := r.callers.set i (.returned (.ok librariesWithStats)) }
  | some (.returned _) => r

/-- The callers of the Emby service run their sections in the order given by
`schedule`. -/
def EmbyStatsRun.run (env : Nat → StatsEnv) (r : EmbyStatsRun) (schedule : List Nat) :
    EmbyStatsRun :=
  schedule.foldl (EmbyStatsRun.step env) r

/-- The start of `n` concurrent calls on the Emby service `s`. -/
def EmbyStatsRun.start (s : EmbyServerService) (n : Nat) : EmbyStatsRun :=
  { service := s, callers := List.replicate n .atCheck }

/-- The stats cache of an Emby service, read as one of an Audiobookshelf
service: the two structs have the same fields. -/
def EmbyServerService.asAbs (s : EmbyServerService) : AbsServerService :=
  { librariesCache := s.librariesCache,
    librariesCacheTime := s.librariesCacheTime,
    cacheExpiry := s.cacheExpiry }

/-- A run on the Emby service, read as a run on an Audiobookshelf service. -/
def EmbyStatsRun.asAbs (r : EmbyStatsRun) : StatsRun :=
  { service := r.service.asAbs,
    callers := r.callers,
    getLibrariesCalls := r.getLibrariesCalls,
    countCalls := r.countCalls }

/-- The number of count calls in one refetch of a caller that meets `env`: one
for each library listed, none when the library fetch fails. -/
def StatsEnv.round (env : StatsEnv) : Nat :=
  match env.GetLibraries with
  | .ok libraries => libraries.length
  | .error _ => 0

/-- The sum of `w k c` over the callers `c`, where `k` is the position of the
caller counted from `start`. -/
def StatsCaller.weigh (w : Nat → StatsCaller → Nat) : Nat → List StatsCaller → Nat
  | _, [] => 0
  | start, c :: cs => w start c + StatsCaller.weigh w (start + 1) cs

/-- The number 1 for a caller that has still to run its refetch section, and 0
for a caller that is past it. -/
def StatsCaller.pending : StatsCaller → Nat
  | .atCheck => 1
  | .atFetch => 1
  | .atStore _ => 0
  | .returned _ => 0

/-! ## Lemmas on maps and schedules -/

section MapLemmas

variable {κ ν : Type} [DecidableEq κ]

theorem GoMap.get_set_self (m : GoMap κ ν) (k : κ) (v : ν) : (m.set k v).get k = some v := by
  induction m with
  | nil => simp [GoMap.set, GoMap.get]
  | cons e rest ih =>
    obtain ⟨k', v'⟩ := e
    by_cases h : k' = k
    · simp [GoMap.set, GoMap.get, h]
    · simp [GoMap.set, GoMap.get, h, ih]

theorem GoMap.get_set_ne (m : GoMap κ ν) (k k₂ : κ) (v : ν) (hne : k ≠ k₂) :
    (m.set k v).get k₂ = m.get k₂ := by
  induction m with
  | nil => simp [GoMap.set, GoMap.get, hne]
  | cons e rest ih =>
    obtain ⟨k', v'⟩ := e
    by_cases h : k' = k
    · subst h; simp [GoMap.set, GoMap.get, hne]
    · by_cases h2 : k' = k₂
      · subst h2
        simp [GoMap.set, GoMap.get, h]
      · simp [GoMap.set, GoMap.get, h, h2, ih]

theorem GoMap.mem_keys_set (m : GoMap κ ν) (k k₂ : κ) (v : ν) :
    k₂ ∈ (m.set k v).keys ↔ k₂ = k ∨ k₂ ∈ m.keys := by
  induction m with
  | nil => simp [GoMap.set, GoMap.keys]
  | cons e rest ih =>
    obtain ⟨k', v'⟩ := e
    by_cases h : k' = k
    · subst h; simp [GoMap.set, GoMap.keys]
    · have ih2 : k₂ ∈ List.map Prod.fst (GoMap.set rest k v) ↔
          k₂ = k ∨ k₂ ∈ List.map Prod.fst rest := ih
      simp only [GoMap.set, GoMap.keys, h, if_false, List.map_cons, List.mem_cons, ih2]
      tauto

theorem GoMap.wf_set (m : GoMap κ ν) (k : κ) (v : ν) (hm : m.WF) : (m.set k v).WF := by
  induction m with
  | nil => simp [GoMap.set, GoMap.WF, GoMap.keys]
  | cons e rest ih =>
    obtain ⟨k', v'⟩ := e
    have hm2 : k' ∉ GoMap.keys rest ∧ GoMap.WF rest := by
      simpa [GoMap.WF, GoMap.keys] using hm
    by_cases h : k' = k
    · subst h
      simpa [GoMap.set, GoMap.WF, GoMap.keys] using hm
    · have hk : k' ∉ GoMap.keys (GoMap.set rest k v) := by
        rw [GoMap.mem_keys_set]; tauto
      have hw : GoMap.WF (GoMap.set rest k v) := ih hm2.2
      simp only [GoMap.set, h, if_false]
      simpa [GoMap.WF, GoMap.keys] using And.intro hk hw

theorem GoMap.get_eq_none_iff (m : GoMap κ ν) (k : κ) : m.get k = none ↔ k ∉ m.keys := by
  induction m with
  | nil => simp [GoMap.get, GoMap.keys]
  | cons e rest ih =>
    obtain ⟨k', v'⟩ := e
    have ih2 : GoMap.get rest k = none ↔ k ∉ List.map Prod.fst rest := ih
    by_cases h : k' = k
    · simp [GoMap.get, GoMap.keys, h]
    · have h2 : ¬ k = k' := fun e => h e.symm
      simp [GoMap.get, GoMap.keys, h, h2, ih2]

theorem GoMap.get_eq_some_iff (m : GoMap κ ν) (hm : m.WF) (k : κ) (v : ν) :
    m.get k = some v ↔ (k, v) ∈ m := by
  induction m with
  | nil => simp [GoMap.get]
  | cons e rest ih =>
    obtain ⟨k', v'⟩ := e
    have hm2 : k' ∉ GoMap.keys rest ∧ GoMap.WF rest := by
      simpa [GoMap.WF, GoMap.keys] using hm
    by_cases h : k' = k
    · subst h
      have hnot : (k', v) ∉ rest := fun hin =>
        hm2.1 (List.mem_map_of_mem Prod.fst hin)
      simp only [GoMap.get, if_true, Option.some.injEq, List.mem_cons, Prod.mk.injEq, true_and]
      constructor
      · intro hv; exact Or.inl hv.symm
      · rintro (hv | hv)
        · exact hv.symm
        · exact absurd hv hnot
    · have h2 : ¬ k = k' := fun e => h e.symm
      simp [GoMap.get, h, h2, ih hm2.2]

theorem GoMap.get_perm {l₁ l₂ : GoMap κ ν} (hp : l₁.Perm l₂) (hw : l₁.WF) (k : κ) :
    l₁.get k = l₂.get k := by
  have hw2 : l₂.WF := by
    have hk : (GoMap.keys l₁).Perm (GoMap.keys l₂) := hp.map Prod.fst
    exact hk.nodup_iff.mp hw
  cases h : GoMap.get l₂ k with
  | none =>
    rw [GoMap.get_eq_none_iff] at h ⊢
    intro hin
    exact h ((hp.map Prod.fst).mem_iff.mp hin)
  | some v =>
    rw [GoMap.get_eq_some_iff _ hw2] at h
    rw [GoMap.get_eq_some_iff _ hw]
    exact hp.mem_iff.mpr h

end MapLemmas

theorem inOrder_range {α : Type} (tasks : List α) :
    inOrder tasks (List.range tasks.length) = tasks := by
  induction tasks with
  | nil => simp [inOrder]
  | cons a rest ih =>
    have hstep : List.filterMap (fun i => (a :: rest)[i]?) (List.map Nat.succ (List.range rest.length))
        = List.filterMap (fun i => rest[i]?) (List.range rest.length) := by
      rw [List.filterMap_map]
      congr 1
      funext i
      simp
    unfold inOrder at ih ⊢
    rw [List.length_cons, List.range_succ_eq_map, List.filterMap_cons]
    simp only [List.getElem?_cons_zero]
    rw [hstep, ih]

theorem inOrder_perm {α : Type} (tasks : List α) (order : List Nat)
    (hord : order.Perm (List.range tasks.length)) : (inOrder tasks order).Perm tasks := by
  have h := hord.filterMap (fun i => tasks[i]?)
  have h2 := inOrder_range tasks
  unfold inOrder at h2 ⊢
  rw [h2] at h
  exact h

theorem inOrder_mem {α : Type} (tasks : List α) (order : List Nat) (a : α)
    (ha : a ∈ inOrder tasks order) : a ∈ tasks := by
  unfold inOrder at ha
  rw [List.mem_filterMap] at ha
  obtain ⟨i, _, hi⟩ := ha
  exact List.getElem?_mem hi

/-- The write loop shared by the two manager fan-outs: a `step` that leaves
the map alone when the call fails and stores the value under the task's key
when it succeeds. -/
theorem fanout_get {κ σ β : Type} [DecidableEq κ] (f : σ → Except Error β)
    (step : GoMap κ β → κ × σ → GoMap κ β)
    (herr : ∀ acc e err, f e.2 = .error err → step acc e = acc)
    (hok : ∀ acc e v, f e.2 = .ok v → step acc e = acc.set e.1 v)
    (tasks : GoMap κ σ) (hw : tasks.WF) (acc : GoMap κ β) (k : κ) :
    (tasks.foldl step acc).get k =
      match tasks.get k with
      | none => acc.get k
      | some s =>
        match f s with
        | .error _ => acc.get k
        | .ok v => some v := by
  induction tasks generalizing acc with
  | nil => simp [GoMap.get]
  | cons e rest ih =>
    obtain ⟨k', s⟩ := e
    have hw2 : k' ∉ GoMap.keys rest ∧ GoMap.WF rest := by
      simpa [GoMap.WF, GoMap.keys] using hw
    rw [List.foldl_cons, ih hw2.2]
    by_cases h : k' = k
    · subst h
      have hnone : GoMap.get rest k' = none := (GoMap.get_eq_none_iff rest k').mpr hw2.1
      simp only [hnone, GoMap.get, if_true]
      cases hf : f s with
      | error err => rw [herr acc (k', s) err hf]
      | ok v => rw [hok acc (k', s) v hf]; simp [GoMap.get_set_self]
    · simp only [GoMap.get, h, if_false]
      cases hf : f s with
      | error err => rw [herr acc (k', s) err hf]
      | ok v => rw [hok acc (k', s) v hf]; simp only [GoMap.get_set_ne _ _ _ _ h]

theorem fanout_wf {κ σ β : Type} [DecidableEq κ] (f : σ → Except Error β)
    (step : GoMap κ β → κ × σ → GoMap κ β)
    (herr : ∀ acc e err, f e.2 = .error err → step acc e = acc)
    (hok : ∀ acc e v, f e.2 = .ok v → step acc e = acc.set e.1 v)
    (tasks : GoMap κ σ) (acc : GoMap κ β) (hacc : acc.WF) :
    (tasks.foldl step acc).WF := by
  induction tasks generalizing acc with
  | nil => simpa using hacc
  | cons e rest ih =>
    rw [List.foldl_cons]
    apply ih
    cases hf : f e.2 with
    | error err => rw [herr acc e err hf]; exact hacc
    | ok v => rw [hok acc e v hf]; exact GoMap.wf_set _ _ _ hacc

theorem fanout_all_failed {κ σ β : Type} [DecidableEq κ] (f : σ → Except Error β)
    (step : GoMap κ β → κ × σ → GoMap κ β)
    (herr : ∀ acc e err, f e.2 = .error err → step acc e = acc)
    (tasks : GoMap κ σ) (acc : GoMap κ β)
    (hfail : ∀ e ∈ tasks, ∃ err, f e.2 = .error err) :
    tasks.foldl step acc = acc := by
  induction tasks generalizing acc with
  | nil => rfl
  | cons e rest ih =>
    rw [List.foldl_cons]
    obtain ⟨err, hf⟩ := hfail e (List.mem_cons_self _ _)
    rw [herr acc e err hf]
    exact ih acc (fun e2 he2 => hfail e2 (List.mem_cons_of_mem _ he2))

/-- The write step of `SearchAcrossServers`. -/
theorem search_step_error (query : String) (acc : GoMap MediaServerType (List SearchResult))
    (e : MediaServerType × MediaServer) (err : Error)
    (h : e.2.Search query = .error err) :
    (match e.2.Search query with
      | .error _ => acc
      | .ok searchResults => acc.set e.1 searchResults) = acc := by
  simp only [h]

theorem search_step_ok (query : String) (acc : GoMap MediaServerType (List SearchResult))
    (e : MediaServerType × MediaServer) (v : List SearchResult)
    (h : e.2.Search query = .ok v) :
    (match e.2.Search query with
      | .error _ => acc
      | .ok searchResults => acc.set e.1 searchResults) = acc.set e.1 v := by
  simp only [h]

/-- The write step of `GetServerInfoAcrossServers`. -/
theorem info_step_error (acc : GoMap MediaServerType (Option ServerInfo))
    (e : MediaServerType × MediaServer) (err : Error)
    (h : e.2.GetServerInfo = .error err) :
    (match e.2.GetServerInfo with
      | .error _ => acc
      | .ok serverInfo => acc.set e.1 serverInfo) = acc := by
  simp only [h]

theorem info_step_ok (acc : GoMap MediaServerType (Option ServerInfo))
    (e : MediaServerType × MediaServer) (v : Option ServerInfo)
    (h : e.2.GetServerInfo = .ok v) :
    (match e.2.GetServerInfo with
      | .error _ => acc
      | .ok serverInfo => acc.set e.1 serverInfo) = acc.set e.1 v := by
  simp only [h]

theorem GoMap.mem_keys_iff_get {κ ν : Type} [DecidableEq κ] (m : GoMap κ ν) (k : κ) :
    k ∈ m.keys ↔ ∃ v, m.get k = some v := by
  constructor
  · intro hk
    cases h : m.get k with
    | none => exact absurd hk ((GoMap.get_eq_none_iff m k).mp h)
    | some v => exact ⟨v, rfl⟩
  · rintro ⟨v, hv⟩
    by_contra hk
    rw [(GoMap.get_eq_none_iff m k).mpr hk] at hv
    cases hv

/-! ## Aggregation manager: fan-out results -/

/-- C1: for every manager (a map with distinct keys), every query and every
completion order of the goroutines, `SearchAcrossServers` returns a map in
which a backend type is a key exactly when that backend is configured and its
`Search` returned no error, and the value under the key is the list that
`Search` returned. -/
theorem searchAcrossServers_entry_iff (m : MediaServerManager) (query : String)
    (order : List Nat) (hwf : m.servers.WF)
    (hord : order.Perm (List.range m.servers.length)) :
    ∃ results, m.SearchAcrossServers query order = (some results, none) ∧ results.WF ∧
      (∀ st, st ∈ results.keys ↔
        ∃ s l, m.servers.get st = some s ∧ s.Search query = .ok l) ∧
      (∀ st l, results.get st = some l ↔
        ∃ s, m.servers.get st = some s ∧ s.Search query = .ok l) := by
  have hperm := inOrder_perm m.servers order hord
  have hwf2 : GoMap.WF (inOrder m.servers order) :=
    ((hperm.map Prod.fst).nodup_iff).mpr hwf
  have hget : ∀ st l,
      GoMap.get ((inOrder m.servers order).foldl
        (fun results e =>
          match e.2.Search query with
          | .error _ => results
          | .ok searchResults => GoMap.set results e.1 searchResults) []) st = some l ↔
      ∃ s, m.servers.get st = some s ∧ s.Search query = .ok l := by
    intro st l
    rw [fanout_get (fun s : MediaServer => s.Search query) _
      (search_step_error query) (search_step_ok query) _ hwf2 [] st,
      GoMap.get_perm hperm hwf2 st]
    cases hs : GoMap.get m.servers st with
    | none => simp [GoMap.get]
    | some s =>
      cases hq : s.Search query with
      | error err => simp [GoMap.get, hq]
      | ok v => simp [hq]
  refine ⟨_, rfl, ?_, ?_, hget⟩
  · exact fanout_wf (fun s : MediaServer => s.Search query) _
      (search_step_error query) (search_step_ok query) _ []
      (by simp [GoMap.WF, GoMap.keys])
  · intro st
    rw [GoMap.mem_keys_iff_get]
    constructor
    · rintro ⟨l, hl⟩
      obtain ⟨s, hs, hq⟩ := (hget st l).mp hl
      exact ⟨s, l, hs, hq⟩
    · rintro ⟨s, l, hs, hq⟩
      exact ⟨l, (hget st l).mpr ⟨s, hs, hq⟩⟩

/-- C1 instantiated: Audiobookshelf answers, Emby fails, Emby finishes first. -/
theorem searchAcrossServers_entry_iff_witness :
    exampleManagerHalf.servers.WF ∧ [1, 0].Perm (List.range exampleManagerHalf.servers.length) ∧
    ∃ results, exampleManagerHalf.SearchAcrossServers "foo" [1, 0] = (some results, none) ∧
      results.WF ∧
      (∀ st, st ∈ results.keys ↔
        ∃ s l, exampleManagerHalf.servers.get st = some s ∧ s.Search "foo" = .ok l) ∧
      (∀ st l, results.get st = some l ↔
        ∃ s, exampleManagerHalf.servers.get st = some s ∧ s.Search "foo" = .ok l) :=
  ⟨by decide, by decide,
    searchAcrossServers_entry_iff exampleManagerHalf "foo" [1, 0] (by decide) (by decide)⟩

/-- C2: for every manager, query and completion order, `SearchAcrossServers`
and `GetServerInfoAcrossServers` return a nil error and a non-nil map; when
the call of every configured backend fails, that map is empty. -/
theorem fanout_never_fails (m : MediaServerManager) (query : String) (order : List Nat) :
    (∃ results, m.SearchAcrossServers query order = (some results, none)) ∧
    (∃ info, m.GetServerInfoAcrossServers order = (some info, none)) ∧
    ((∀ e ∈ m.servers, ∃ err, e.2.Search query = .error err) →
      m.SearchAcrossServers query order = (some [], none)) ∧
    ((∀ e ∈ m.servers, ∃ err, e.2.GetServerInfo = .error err) →
      m.GetServerInfoAcrossServers order = (some [], none)) := by
  refine ⟨⟨_, rfl⟩, ⟨_, rfl⟩, ?_, ?_⟩
  · intro hfail
    unfold MediaServerManager.SearchAcrossServers
    simp only []
    rw [fanout_all_failed (fun s : MediaServer => s.Search query) _
      (search_step_error query) _ []
      (fun e he => hfail e (inOrder_mem _ _ _ he))]
  · intro hfail
    unfold MediaServerManager.GetServerInfoAcrossServers
    simp only []
    rw [fanout_all_failed (fun s : MediaServer => s.GetServerInfo) _
      info_step_error _ []
      (fun e he => hfail e (inOrder_mem _ _ _ he))]

/-- C2 instantiated: both backends are down, so both maps are empty and no
error is returned. -/
theorem fanout_never_fails_witness :
    (∀ e ∈ exampleManagerDown.servers, ∃ err, e.2.Search "foo" = .error err) ∧
    (∀ e ∈ exampleManagerDown.servers, ∃ err, e.2.GetServerInfo = .error err) ∧
    exampleManagerDown.SearchAcrossServers "foo" [0, 1] = (some [], none) ∧
    exampleManagerDown.GetServerInfoAcrossServers [0, 1] = (some [], none) := by
  have hs : ∀ e ∈ exampleManagerDown.servers, ∃ err, e.2.Search "foo" = .error err := by
    intro e he
    simp only [exampleManagerDown, List.mem_cons, List.mem_singleton, List.not_mem_nil,
      or_false] at he
    rcases he with rfl | rfl <;> exact ⟨_, rfl⟩
  have hi : ∀ e ∈ exampleManagerDown.servers, ∃ err, e.2.GetServerInfo = .error err := by
    intro e he
    simp only [exampleManagerDown, List.mem_cons, List.mem_singleton, List.not_mem_nil,
      or_false] at he
    rcases he with rfl | rfl <;> exact ⟨_, rfl⟩
  have h := fanout_never_fails exampleManagerDown "foo" [0, 1]
  exact ⟨hs, hi, h.2.2.1 hs, h.2.2.2 hi⟩

/-- C3: for every manager and completion order the keys of the map returned
by `GetServerInfoAcrossServers` are configured backend types; when the
configured backends are exactly Audiobookshelf and Emby and both
`GetServerInfo` calls succeed, the map has exactly 2 entries, one per
backend. -/
theorem getServerInfoAcrossServers_keys (m : MediaServerManager) (order : List Nat)
    (hwf : m.servers.WF) (hord : order.Perm (List.range m.servers.length)) :
    ∃ info, m.GetServerInfoAcrossServers order = (some info, none) ∧
      (∀ st ∈ info.keys, st ∈ m.servers.keys) ∧
      (m.servers.keys.Perm [AbsServerType, EmbyServerType] →
        (∀ e ∈ m.servers, ∃ v, e.2.GetServerInfo = .ok v) →
        info.length = 2 ∧ AbsServerType ∈ info.keys ∧ EmbyServerType ∈ info.keys) := by
  have hperm := inOrder_perm m.servers order hord
  have hwf2 : GoMap.WF (inOrder m.servers order) :=
    ((hperm.map Prod.fst).nodup_iff).mpr hwf
  have hget : ∀ st,
      GoMap.get ((inOrder m.servers order).foldl
        (fun info e =>
          match e.2.GetServerInfo with
          | .error _ => info
          | .ok serverInfo => GoMap.set info e.1 serverInfo) []) st =
      match m.servers.get st with
      | none => none
      | some s =>
        match s.GetServerInfo with
        | .error _ => none
        | .ok v => some v := by
    intro st
    rw [fanout_get (fun s : MediaServer => s.GetServerInfo) _
      info_step_error info_step_ok _ hwf2 [] st, GoMap.get_perm hperm hwf2 st]
    cases hs : GoMap.get m.servers st with
    | none => rfl
    | some s => cases hq : s.GetServerInfo <;> simp [GoMap.get, hq]
  have hinfowf : GoMap.WF ((inOrder m.servers order).foldl
        (fun info e =>
          match e.2.GetServerInfo with
          | .error _ => info
          | .ok serverInfo => GoMap.set info e.1 serverInfo) []) :=
    fanout_wf (fun s : MediaServer => s.GetServerInfo) _
      info_step_error info_step_ok _ [] (by simp [GoMap.WF, GoMap.keys])
  have hsub : ∀ st, st ∈ GoMap.keys ((inOrder m.servers order).foldl
        (fun info e =>
          match e.2.GetServerInfo with
          | .error _ => info
          | .ok serverInfo => GoMap.set info e.1 serverInfo) []) → st ∈ m.servers.keys := by
    intro st hst
    rw [GoMap.mem_keys_iff_get] at hst
    obtain ⟨v, hv⟩ := hst
    rw [hget st] at hv
    by_contra hnot
    rw [(GoMap.get_eq_none_iff _ _).mpr hnot] at hv
    cases hv
  refine ⟨_, rfl, hsub, ?_⟩
  intro hboth hok
  have hall : ∀ st, st ∈ m.servers.keys → st ∈ GoMap.keys ((inOrder m.servers order).foldl
        (fun info e =>
          match e.2.GetServerInfo with
          | .error _ => info
          | .ok serverInfo => GoMap.set info e.1 serverInfo) []) := by
    intro st hst
    rw [GoMap.mem_keys_iff_get] at hst ⊢
    obtain ⟨s, hs⟩ := hst
    obtain ⟨v, hv⟩ := hok (st, s) ((GoMap.get_eq_some_iff _ hwf _ _).mp hs)
    refine ⟨v, ?_⟩
    rw [hget st, hs]
    simp only at hv
    simp only [hv]
  have hkeys : (GoMap.keys ((inOrder m.servers order).foldl
        (fun info e =>
          match e.2.GetServerInfo with
          | .error _ => info
          | .ok serverInfo => GoMap.set info e.1 serverInfo) [])).Perm m.servers.keys :=
    (List.perm_ext_iff_of_nodup hinfowf hwf).mpr (fun st => ⟨hsub st, hall st⟩)
  have hlen := (hkeys.trans hboth).length_eq
  refine ⟨?_, ?_, ?_⟩
  · simpa [GoMap.keys] using hlen
  · exact hall _ (hboth.mem_iff.mpr (by simp))
  · exact hall _ (hboth.mem_iff.mpr (by simp))

/-- C3 instantiated: both backends configured and answering. -/
theorem getServerInfoAcrossServers_keys_witness :
    exampleManager.servers.WF ∧ [1, 0].Perm (List.range exampleManager.servers.length) ∧
    exampleManager.servers.keys.Perm [AbsServerType, EmbyServerType] ∧
    (∀ e ∈ exampleManager.servers, ∃ v, e.2.GetServerInfo = .ok v) ∧
    ∃ info, exampleManager.GetServerInfoAcrossServers [1, 0] = (some info, none) ∧
      (∀ st ∈ info.keys, st ∈ exampleManager.servers.keys) ∧
      info.length = 2 ∧ AbsServerType ∈ info.keys ∧ EmbyServerType ∈ info.keys := by
  have hok : ∀ e ∈ exampleManager.servers, ∃ v, e.2.GetServerInfo = .ok v := by
    intro e he
    simp only [exampleManager, List.mem_cons, List.mem_singleton, List.not_mem_nil,
      or_false] at he
    rcases he with rfl | rfl <;> exact ⟨_, rfl⟩
  have hkeys : exampleManager.servers.keys.Perm [AbsServerType, EmbyServerType] :=
    List.Perm.refl _
  obtain ⟨info, hinfo, hsub, h2⟩ :=
    getServerInfoAcrossServers_keys exampleManager [1, 0] (by decide) (by decide)
  exact ⟨by decide, by decide, hkeys, hok, info, hinfo, hsub, h2 hkeys hok⟩

/-! ## Aggregation manager: construction -/

theorem absServerType_ne_emby : AbsServerType ≠ EmbyServerType := by decide

/-- C4: `NewMediaServerManager` returns an error (and a nil manager) exactly
when both tokens are empty; otherwise the manager it returns holds the
Audiobookshelf adapter exactly when `AudiobookshelfToken` is non-empty, the
Emby adapter exactly when `EmbyToken` is non-empty, and no other backend
type. -/
theorem newMediaServerManager_spec (newAbs newEmby : Config → MediaServer)
    (cfg : Config) :
    ((NewMediaServerManager newAbs newEmby cfg).2 ≠ none ↔
      cfg.AudiobookshelfToken = "" ∧ cfg.EmbyToken = "") ∧
    ((NewMediaServerManager newAbs newEmby cfg).2 ≠ none →
      (NewMediaServerManager newAbs newEmby cfg).1 = none) ∧
    ((NewMediaServerManager newAbs newEmby cfg).2 = none →
      ∃ m, (NewMediaServerManager newAbs newEmby cfg).1 = some m ∧
        m.servers.WF ∧
        m.servers.get AbsServerType =
          (if cfg.AudiobookshelfToken ≠ "" then some (newAbs cfg) else none) ∧
        m.servers.get EmbyServerType =
          (if cfg.EmbyToken ≠ "" then some (newEmby cfg) else none) ∧
        ∀ st ∈ m.servers.keys, st = AbsServerType ∨ st = EmbyServerType) := by
  have hne := absServerType_ne_emby
  have hne2 : ¬ EmbyServerType = AbsServerType := fun h => hne h.symm
  by_cases ha : cfg.AudiobookshelfToken = "" <;> by_cases he : cfg.EmbyToken = ""
  · simp [NewMediaServerManager, ha, he]
  · simp [NewMediaServerManager, ha, he, GoMap.set, GoMap.get, GoMap.WF, GoMap.keys, hne2]
  · simp [NewMediaServerManager, ha, he, GoMap.set, GoMap.get, GoMap.WF, GoMap.keys, hne]
  · simp only [NewMediaServerManager, ha, he, GoMap.set, GoMap.get, GoMap.WF, GoMap.keys, hne,
      hne2, ne_eq, not_false_eq_true, if_true, if_false, List.length_cons, List.length_nil,
      List.map_cons, List.map_nil, List.mem_cons, List.mem_singleton, List.not_mem_nil,
      or_false, List.nodup_cons, List.nodup_nil, and_true, not_true_eq_false, false_and,
      Nat.add_one_ne_zero, Option.some.injEq, exists_eq_left', true_and, false_iff,
      not_and, iff_false, IsEmpty.forall_iff, forall_true_left, implies_true, true_implies,
      reduceCtorEq]
    exact fun st h => h

/-- C4 instantiated: only the Audiobookshelf token is set. -/
theorem newMediaServerManager_spec_witness :
    (NewMediaServerManager (fun _ => exampleUp "abs") (fun _ => exampleDown)
      exampleConfigAbsOnly).2 = none ∧
    ∃ m, (NewMediaServerManager (fun _ => exampleUp "abs") (fun _ => exampleDown)
        exampleConfigAbsOnly).1 = some m ∧
      m.servers.WF ∧
      m.servers.get AbsServerType =
        (if exampleConfigAbsOnly.AudiobookshelfToken ≠ "" then some (exampleUp "abs")
          else none) ∧
      m.servers.get EmbyServerType =
        (if exampleConfigAbsOnly.EmbyToken ≠ "" then some exampleDown else none) ∧
      ∀ st ∈ m.servers.keys, st = AbsServerType ∨ st = EmbyServerType :=
  ⟨rfl, (newMediaServerManager_spec (fun _ => exampleUp "abs") (fun _ => exampleDown)
    exampleConfigAbsOnly).2.2 rfl⟩

/-! ## Audiobookshelf client: search over all libraries -/

theorem GoMap.readBool_set_true (m : GoMap String Bool) (k k₂ : String) :
    (m.set k true).readBool k₂ = true ↔ k₂ = k ∨ m.readBool k₂ = true := by
  unfold GoMap.readBool
  by_cases h : k = k₂
  · subst h
    simp [GoMap.get_set_self]
  · have h2 : ¬ k₂ = k := fun e => h e.symm
    rw [GoMap.get_set_ne m k k₂ true h]
    simp [h2]

theorem SearchBooksState.inv_empty : SearchBooksState.Inv {} := by
  constructor
  · intro k
    simp [GoMap.readBool, GoMap.get]
  · simp

theorem searchBooks_worker_eq (env : SearchBooksEnv) (st : SearchBooksState)
    (task : Nat × AbsLibraryInfo) :
    AbsClient.SearchBooks.worker env st task =
      match env.decoded task.1 with
      | none => st
      | some results => AbsClient.SearchBooks.dedup task.2 results st := by
  unfold AbsClient.SearchBooks.worker SearchBooksEnv.decoded
  cases h1 : env.doRequestLib task.1 with
  | error err => rfl
  | ok data =>
    cases h2 : env.unmarshal data with
    | error err => simp [h2]
    | ok results => simp [h2]

/-- The dedup loop keeps the invariant, adds exactly the paths of `results`,
and every book it adds is built from one of `results`. -/
theorem searchBooks_dedup_spec (lib : AbsLibraryInfo) (results : List LibraryItem)
    (st : SearchBooksState) (hinv : st.Inv) :
    (AbsClient.SearchBooks.dedup lib results st).Inv ∧
    (∀ k, k ∈ (AbsClient.SearchBooks.dedup lib results st).allBooks.map AbsBook.RelPath ↔
      k ∈ st.allBooks.map AbsBook.RelPath ∨ k ∈ results.map LibraryItem.RelPath) ∧
    (∀ b ∈ (AbsClient.SearchBooks.dedup lib results st).allBooks,
      b ∈ st.allBooks ∨ ∃ result ∈ results, b = AbsBook.ofItem lib result) := by
  induction results generalizing st with
  | nil =>
    refine ⟨hinv, ?_, ?_⟩
    · intro k; simp [AbsClient.SearchBooks.dedup]
    · intro b hb; exact Or.inl hb
  | cons r rest ih =>
    have hstep : AbsClient.SearchBooks.dedup lib (r :: rest) st =
        AbsClient.SearchBooks.dedup lib rest
          (if !st.bookRelPaths.readBool r.RelPath then
            { allBooks := st.allBooks ++ [AbsBook.ofItem lib r],
              bookRelPaths := st.bookRelPaths.set r.RelPath true }
          else st) := by
      simp only [AbsClient.SearchBooks.dedup, List.foldl_cons, AbsBook.ofItem]
    rw [hstep]
    by_cases hseen : st.bookRelPaths.readBool r.RelPath = true
    · have hmem : r.RelPath ∈ st.allBooks.map AbsBook.RelPath := (hinv.1 _).mp hseen
      simp only [hseen, Bool.not_true, Bool.false_eq_true, if_false]
      obtain ⟨h1, h2, h3⟩ := ih st hinv
      refine ⟨h1, ?_, ?_⟩
      · intro k
        rw [h2 k]
        simp only [List.map_cons, List.mem_cons]
        constructor
        · rintro (h | h)
          · exact Or.inl h
          · exact Or.inr (Or.inr h)
        · rintro (h | h | h)
          · exact Or.inl h
          · exact Or.inl (h ▸ hmem)
          · exact Or.inr h
      · intro b hb
        rcases h3 b hb with h | ⟨x, hx, hbx⟩
        · exact Or.inl h
        · exact Or.inr ⟨x, List.mem_cons_of_mem _ hx, hbx⟩
    · have hnot : r.RelPath ∉ st.allBooks.map AbsBook.RelPath := fun h => hseen ((hinv.1 _).mpr h)
      have hfalse : st.bookRelPaths.readBool r.RelPath = false := by
        cases hb : st.bookRelPaths.readBool r.RelPath with
        | true => exact absurd hb hseen
        | false => rfl
      simp only [hfalse, Bool.not_false, if_true]
      have hinv2 : SearchBooksState.Inv
          { allBooks := st.allBooks ++ [AbsBook.ofItem lib r],
            bookRelPaths := st.bookRelPaths.set r.RelPath true } := by
        constructor
        · intro k
          simp only [GoMap.readBool_set_true, List.map_append, List.map_cons, List.map_nil,
            List.mem_append, List.mem_singleton, AbsBook.ofItem]
          rw [hinv.1 k]
          tauto
        · simp only [List.map_append, List.map_cons, List.map_nil, AbsBook.ofItem]
          rw [List.nodup_append]
          refine ⟨hinv.2, by simp, ?_⟩
          intro a ha hb
          simp only [List.mem_singleton] at hb
          exact hnot (hb ▸ ha)
      obtain ⟨h1, h2, h3⟩ := ih _ hinv2
      refine ⟨h1, ?_, ?_⟩
      · intro k
        rw [h2 k]
        simp only [List.map_append, List.map_cons, List.map_nil, List.mem_append,
          List.mem_singleton, List.mem_cons, AbsBook.ofItem]
        tauto
      · intro b hb
        rcases h3 b hb with h | ⟨x, hx, hbx⟩
        · simp only [List.mem_append, List.mem_singleton] at h
          rcases h with h | h
          · exact Or.inl h
          · exact Or.inr ⟨r, List.mem_cons_self _ _, h⟩
        · exact Or.inr ⟨x, List.mem_cons_of_mem _ hx, hbx⟩

/-- The goroutines of `SearchBooks`, run in any order over any task list,
keep the invariant; the paths of the merged list are those seen before and
those of the decoded responses; every new book comes from a decoded response
and carries the id of the library of that response. -/
theorem searchBooks_fold_spec (env : SearchBooksEnv) (tasks : List (Nat × AbsLibraryInfo))
    (st : SearchBooksState) (hinv : st.Inv) :
    (tasks.foldl (AbsClient.SearchBooks.worker env) st).Inv ∧
    (∀ k, k ∈ (tasks.foldl (AbsClient.SearchBooks.worker env) st).allBooks.map AbsBook.RelPath ↔
      k ∈ st.allBooks.map AbsBook.RelPath ∨
      ∃ t ∈ tasks, ∃ results, env.decoded t.1 = some results ∧
        k ∈ results.map LibraryItem.RelPath) ∧
    (∀ b ∈ (tasks.foldl (AbsClient.SearchBooks.worker env) st).allBooks,
      b ∈ st.allBooks ∨
      ∃ t ∈ tasks, ∃ results, env.decoded t.1 = some results ∧
        ∃ result ∈ results, b = AbsBook.ofItem t.2 result) := by
  induction tasks generalizing st with
  | nil =>
    refine ⟨hinv, ?_, ?_⟩
    · intro k; simp
    · intro b hb; exact Or.inl hb
  | cons t rest ih =>
    rw [List.foldl_cons, searchBooks_worker_eq]
    cases hd : env.decoded t.1 with
    | none =>
      obtain ⟨h1, h2, h3⟩ := ih st hinv
      refine ⟨h1, ?_, ?_⟩
      · intro k
        rw [h2 k]
        constructor
        · rintro (h | ⟨t2, ht2, r, hr, hk⟩)
          · exact Or.inl h
          · exact Or.inr ⟨t2, List.mem_cons_of_mem _ ht2, r, hr, hk⟩
        · rintro (h | ⟨t2, ht2, r, hr, hk⟩)
          · exact Or.inl h
          · rcases List.mem_cons.mp ht2 with rfl | ht2
            · rw [hd] at hr; cases hr
            · exact Or.inr ⟨t2, ht2, r, hr, hk⟩
      · intro b hb
        rcases h3 b hb with h | ⟨t2, ht2, r, hr, hx⟩
        · exact Or.inl h
        · exact Or.inr ⟨t2, List.mem_cons_of_mem _ ht2, r, hr, hx⟩
    | some results =>
      obtain ⟨g1, g2, g3⟩ := searchBooks_dedup_spec t.2 results st hinv
      obtain ⟨h1, h2, h3⟩ := ih _ g1
      refine ⟨h1, ?_, ?_⟩
      · intro k
        rw [h2 k, g2 k]
        constructor
        · rintro ((h | h) | ⟨t2, ht2, r, hr, hk⟩)
          · exact Or.inl h
          · exact Or.inr ⟨t, List.mem_cons_self _ _, results, hd, h⟩
          · exact Or.inr ⟨t2, List.mem_cons_of_mem _ ht2, r, hr, hk⟩
        · rintro (h | ⟨t2, ht2, r, hr, hk⟩)
          · exact Or.inl (Or.inl h)
          · rcases List.mem_cons.mp ht2 with rfl | ht2
            · rw [hd] at hr
              cases hr
              exact Or.inl (Or.inr hk)
            · exact Or.inr ⟨t2, ht2, r, hr, hk⟩
      · intro b hb
        rcases h3 b hb with h | ⟨t2, ht2, r, hr, hx⟩
        · rcases g3 b h with h | ⟨x, hx, hbx⟩
          · exact Or.inl h
          · exact Or.inr ⟨t, List.mem_cons_self _ _, results, hd, x, hx, hbx⟩
        · exact Or.inr ⟨t2, List.mem_cons_of_mem _ ht2, r, hr, hx⟩

theorem searchBooks_all_eq (env : SearchBooksEnv) (libraries : List AbsLibraryInfo)
    (hlibs : env.GetLibrariesInfo = .ok libraries) :
    AbsClient.SearchBooks env "" =
      .ok ((inOrder libraries.enum env.order).foldl
        (AbsClient.SearchBooks.worker env) {}).allBooks := by
  simp [AbsClient.SearchBooks, hlibs]

theorem mem_inOrder_enum {α : Type} (l : List α) (order : List Nat)
    (hord : order.Perm (List.range l.length)) (t : Nat × α) :
    t ∈ inOrder l.enum order ↔ l[t.1]? = some t.2 := by
  have hp := inOrder_perm l.enum order (by rw [List.enum_length]; exact hord)
  rw [hp.mem_iff, List.mem_enum_iff_getElem?]

/-- C5: for every library list and every set of per-library responses, in
every completion order, the list merged by `SearchBooks` with an empty library
id contains each relative path that occurs in a decoded response exactly once
and no other relative path. -/
theorem searchBooks_keys_once (env : SearchBooksEnv) (libraries : List AbsLibraryInfo)
    (hlibs : env.GetLibrariesInfo = .ok libraries)
    (hord : env.order.Perm (List.range libraries.length)) :
    ∃ books, AbsClient.SearchBooks env "" = .ok books ∧
      ∀ key,
        ((∃ i results, i < libraries.length ∧ env.decoded i = some results ∧
            key ∈ results.map LibraryItem.RelPath) →
          (books.map AbsBook.RelPath).count key = 1) ∧
        ((¬ ∃ i results, i < libraries.length ∧ env.decoded i = some results ∧
            key ∈ results.map LibraryItem.RelPath) →
          (books.map AbsBook.RelPath).count key = 0) := by
  refine ⟨_, searchBooks_all_eq env libraries hlibs, ?_⟩
  obtain ⟨h1, h2, _⟩ := searchBooks_fold_spec env (inOrder libraries.enum env.order) {}
    SearchBooksState.inv_empty
  intro key
  constructor
  · rintro ⟨i, results, hi, hd, hk⟩
    apply List.count_eq_one_of_mem h1.2
    rw [h2 key]
    right
    refine ⟨(i, libraries[i]), ?_, results, hd, hk⟩
    rw [mem_inOrder_enum libraries env.order hord]
    exact List.getElem?_eq_getElem hi
  · intro hnone
    rw [List.count_eq_zero]
    intro hmem
    rw [h2 key] at hmem
    rcases hmem with h | ⟨t, ht, results, hd, hk⟩
    · simp at h
    · rw [mem_inOrder_enum libraries env.order hord] at ht
      have hlt : t.1 < libraries.length := by
        by_contra hge
        rw [List.getElem?_eq_none (Nat.le_of_not_lt hge)] at ht
        cases ht
      exact hnone ⟨t.1, results, hlt, hd, hk⟩

/-- C5 instantiated: `L1` returns two items, `L2` returns one of them again. -/
theorem searchBooks_keys_once_witness :
    exampleSearchOverlap.GetLibrariesInfo = .ok exampleLibraries ∧
    exampleSearchOverlap.order.Perm (List.range exampleLibraries.length) ∧
    ∃ books, AbsClient.SearchBooks exampleSearchOverlap "" = .ok books ∧
      ∀ key,
        ((∃ i results, i < exampleLibraries.length ∧
            exampleSearchOverlap.decoded i = some results ∧
            key ∈ results.map LibraryItem.RelPath) →
          (books.map AbsBook.RelPath).count key = 1) ∧
        ((¬ ∃ i results, i < exampleLibraries.length ∧
            exampleSearchOverlap.decoded i = some results ∧
            key ∈ results.map LibraryItem.RelPath) →
          (books.map AbsBook.RelPath).count key = 0) :=
  ⟨rfl, by decide, searchBooks_keys_once exampleSearchOverlap exampleLibraries rfl (by decide)⟩

/-! ## Audiobookshelf adapter: search -/

/-- The conversion loop returns one result per book, in order, each carrying
the book's fields and the id built from them. -/
theorem search_loop_spec (env : Nat → LookupEnv) (i : Nat) (books : List AbsBook)
    (a : AbsAdapter) :
    (AbsAdapter.Search.loop env i books a).1.map SearchResult.toAbsBook = books ∧
    (AbsAdapter.Search.loop env i books a).1.map SearchResult.ID =
      books.map AbsBook.searchID := by
  induction books generalizing i a with
  | nil => simp [AbsAdapter.Search.loop]
  | cons book rest ih =>
    by_cases hid : book.LibraryID = ""
    · obtain ⟨h1, h2⟩ := ih (i + 1) a
      have hl : AbsAdapter.Search.loop env i (book :: rest) a =
          (AbsAdapter.Search.convert book "" :: (AbsAdapter.Search.loop env (i + 1) rest a).1,
            (AbsAdapter.Search.loop env (i + 1) rest a).2) := by
        simp [AbsAdapter.Search.loop, hid]
      rw [hl]
      simp [h1, h2, SearchResult.toAbsBook, AbsAdapter.Search.convert, AbsBook.searchID]
    · obtain ⟨h1, h2⟩ := ih (i + 1) (a.getLibraryNameByID (env i) book.LibraryID).adapter
      have hl : AbsAdapter.Search.loop env i (book :: rest) a =
          (AbsAdapter.Search.convert book (a.getLibraryNameByID (env i) book.LibraryID).name ::
            (AbsAdapter.Search.loop env (i + 1) rest
              (a.getLibraryNameByID (env i) book.LibraryID).adapter).1,
            (AbsAdapter.Search.loop env (i + 1) rest
              (a.getLibraryNameByID (env i) book.LibraryID).adapter).2) := by
        simp [AbsAdapter.Search.loop, hid]
      rw [hl]
      simp [h1, h2, SearchResult.toAbsBook, AbsAdapter.Search.convert, AbsBook.searchID]

theorem append_sep_cases (c : Char) (a b x y : List Char)
    (h : a ++ c :: x = b ++ c :: y) :
    (a = b ∧ x = y) ∨ (∃ p, b = a ++ c :: p) ∨ (∃ p, a = b ++ c :: p) := by
  induction a generalizing b with
  | nil =>
    cases b with
    | nil => exact Or.inl (by simpa using h)
    | cons d b₂ =>
      simp only [List.nil_append, List.cons_append, List.cons.injEq] at h
      exact Or.inr (Or.inl ⟨b₂, by simp [h.1]⟩)
  | cons e a₂ ih =>
    cases b with
    | nil =>
      simp only [List.nil_append, List.cons_append, List.cons.injEq] at h
      exact Or.inr (Or.inr ⟨a₂, by simp [h.1]⟩)
    | cons d b₂ =>
      simp only [List.cons_append, List.cons.injEq] at h
      rcases ih b₂ h.2 with ⟨h1, h2⟩ | ⟨p, hp⟩ | ⟨p, hp⟩
      · exact Or.inl ⟨by rw [h.1, h1], h2⟩
      · exact Or.inr (Or.inl ⟨p, by simp [h.1, hp]⟩)
      · exact Or.inr (Or.inr ⟨p, by simp [h.1, hp]⟩)

/-- Two books with the same id have the same library id and the same
relative path, unless one library id is the other one followed by an
underscore and any text, the empty text included. -/
theorem searchID_inj (b₁ b₂ : AbsBook)
    (h₁ : ∀ p : String, b₂.LibraryID ≠ b₁.LibraryID ++ "_" ++ p)
    (h₂ : ∀ p : String, b₁.LibraryID ≠ b₂.LibraryID ++ "_" ++ p)
    (h : b₁.searchID = b₂.searchID) :
    b₁.LibraryID = b₂.LibraryID ∧ b₁.RelPath = b₂.RelPath := by
  have hd := congrArg String.data h
  simp only [AbsBook.searchID, String.data_append] at hd
  have hd2 : b₁.LibraryID.data ++ '_' :: b₁.RelPath.data =
      b₂.LibraryID.data ++ '_' :: b₂.RelPath.data := by
    simpa using hd
  rcases append_sep_cases '_' _ _ _ _ hd2 with ⟨g1, g2⟩ | ⟨p, hp⟩ | ⟨p, hp⟩
  · exact ⟨String.ext g1, String.ext g2⟩
  · exact absurd (String.ext (by simpa [String.data_append] using hp)) (h₁ (String.mk p))
  · exact absurd (String.ext (by simpa [String.data_append] using hp)) (h₂ (String.mk p))

theorem inOrder_enum_mem {α : Type} (l : List α) (order : List Nat) (t : Nat × α)
    (ht : t ∈ inOrder l.enum order) : l[t.1]? = some t.2 :=
  List.mem_enum_iff_getElem?.mp (inOrder_mem _ _ _ ht)

/-- A library "failed" in `SearchBooks` exactly when its request failed or
its body could not be decoded. -/
theorem decoded_eq_none_iff (env : SearchBooksEnv) (i : Nat) :
    env.decoded i = none ↔
      (∃ err, env.doRequestLib i = .error err) ∨
      (∃ data err, env.doRequestLib i = .ok data ∧ env.unmarshal data = .error err) := by
  unfold SearchBooksEnv.decoded
  cases h1 : env.doRequestLib i with
  | error err => simp
  | ok data =>
    cases h2 : env.unmarshal data with
    | error err => simp [h2]
    | ok results => simp [h2]

/-- Every book of the all-libraries search comes from a decoded response and
carries the id of the library that gave the response. -/
theorem searchBooks_provenance (env : SearchBooksEnv) (libraries : List AbsLibraryInfo) :
    ∀ b ∈ ((inOrder libraries.enum env.order).foldl
        (AbsClient.SearchBooks.worker env) {}).allBooks,
      ∃ i lib results, libraries[i]? = some lib ∧ env.decoded i = some results ∧
        ∃ result ∈ results, b = AbsBook.ofItem lib result := by
  intro b hb
  obtain ⟨_, _, h3⟩ := searchBooks_fold_spec env (inOrder libraries.enum env.order) {}
    SearchBooksState.inv_empty
  rcases h3 b hb with h | ⟨t, ht, results, hd, x, hx, hbx⟩
  · simp at h
  · exact ⟨t.1, t.2, results, inOrder_enum_mem _ _ _ ht, hd, x, hx, hbx⟩

/-- C7: when the library list was fetched, then for every set of failing
per-library requests (transport error or undecodable body, `decoded i = none`)
and every completion order, `SearchBooks` with an empty library id and
`AbsAdapter.Search` on top of it return a nil error; every item returned comes
from the decoded response of a library that did not fail, and no item carries
the id of a library all of whose requests failed. -/
theorem search_partial_failure (env : SearchBooksEnv) (libraries : List AbsLibraryInfo)
    (hlibs : env.GetLibrariesInfo = .ok libraries) (a : AbsAdapter) (lenv : Nat → LookupEnv) :
    ∃ books results,
      AbsClient.SearchBooks env "" = .ok books ∧
      (a.Search (AbsClient.SearchBooks env "") lenv).1 = .ok results ∧
      results.map SearchResult.toAbsBook = books ∧
      (∀ b ∈ books, ∃ i lib items, libraries[i]? = some lib ∧ env.decoded i = some items ∧
        ∃ item ∈ items, b = AbsBook.ofItem lib item) ∧
      (∀ r ∈ results, ∃ i lib items, libraries[i]? = some lib ∧ env.decoded i = some items ∧
        ∃ item ∈ items, r.LibraryID = lib.ID ∧ r.RelPath = item.RelPath ∧
          r.Size = item.Size ∧ r.AddedAt = item.AddedAt) ∧
      (∀ id, (∀ i lib, libraries[i]? = some lib → lib.ID = id → env.decoded i = none) →
        ∀ r ∈ results, r.LibraryID ≠ id) := by
  have hbooks := searchBooks_all_eq env libraries hlibs
  have hprov := searchBooks_provenance env libraries
  have hloop := (search_loop_spec lenv 0
    ((inOrder libraries.enum env.order).foldl (AbsClient.SearchBooks.worker env) {}).allBooks
    a).1
  have hres : ∀ r ∈ (AbsAdapter.Search.loop lenv 0
      ((inOrder libraries.enum env.order).foldl (AbsClient.SearchBooks.worker env) {}).allBooks
      a).1, ∃ i lib items, libraries[i]? = some lib ∧ env.decoded i = some items ∧
        ∃ item ∈ items, r.LibraryID = lib.ID ∧ r.RelPath = item.RelPath ∧
          r.Size = item.Size ∧ r.AddedAt = item.AddedAt := by
    intro r hr
    have hb : r.toAbsBook ∈ ((inOrder libraries.enum env.order).foldl
        (AbsClient.SearchBooks.worker env) {}).allBooks := by
      rw [← hloop]
      exact List.mem_map_of_mem _ hr
    obtain ⟨i, lib, items, hi, hd, item, hitem, heq⟩ := hprov _ hb
    refine ⟨i, lib, items, hi, hd, item, hitem, ?_⟩
    have e1 := congrArg AbsBook.LibraryID heq
    have e2 := congrArg AbsBook.RelPath heq
    have e3 := congrArg AbsBook.Size heq
    have e4 := congrArg AbsBook.AddedAt heq
    exact ⟨e1, e2, e3, e4⟩
  refine ⟨_, _, hbooks, ?_, hloop, hprov, hres, ?_⟩
  · rw [hbooks]
    rfl
  · intro id hfailed r hr hid
    obtain ⟨i, lib, items, hi, hd, item, _, h1, _⟩ := hres r hr
    rw [hfailed i lib hi (h1.symm.trans hid)] at hd
    cases hd

/-- C7 instantiated: `L1` answers, the request for `L2` fails. -/
theorem search_partial_failure_witness :
    exampleSearchPartial.GetLibrariesInfo = .ok exampleLibraries ∧
    ∃ books results,
      AbsClient.SearchBooks exampleSearchPartial "" = .ok books ∧
      (NewAbsAdapter.Search (AbsClient.SearchBooks exampleSearchPartial "") exampleLookups).1 =
        .ok results ∧
      results.map SearchResult.toAbsBook = books ∧
      (∀ b ∈ books, ∃ i lib items, exampleLibraries[i]? = some lib ∧
        exampleSearchPartial.decoded i = some items ∧
        ∃ item ∈ items, b = AbsBook.ofItem lib item) ∧
      (∀ r ∈ results, ∃ i lib items, exampleLibraries[i]? = some lib ∧
        exampleSearchPartial.decoded i = some items ∧
        ∃ item ∈ items, r.LibraryID = lib.ID ∧ r.RelPath = item.RelPath ∧
          r.Size = item.Size ∧ r.AddedAt = item.AddedAt) ∧
      (∀ id, (∀ i lib, exampleLibraries[i]? = some lib → lib.ID = id →
          exampleSearchPartial.decoded i = none) →
        ∀ r ∈ results, r.LibraryID ≠ id) :=
  ⟨rfl, search_partial_failure exampleSearchPartial exampleLibraries rfl NewAbsAdapter
    exampleLookups⟩

/-- C6, as stated, fails: libraries `a` and `a_b` return the distinct paths
`b_c` and `c`, and both results get the id `a_b_c`. -/
theorem search_ids_collide :
    ∃ results,
      (NewAbsAdapter.Search (AbsClient.SearchBooks exampleSearchUnderscore "")
        exampleLookups).1 = .ok results ∧
      results.map SearchResult.ID = ["a_b_c", "a_b_c"] ∧
      results.map SearchResult.LibraryID = ["a", "a_b"] ∧
      results.map SearchResult.RelPath = ["b_c", "c"] ∧
      ¬ (results.map SearchResult.ID).Nodup :=
  ⟨_, rfl, by decide, by decide, by decide, by decide⟩

/-- C6 as amended: in every result list of `AbsAdapter.Search` the relative
paths are pairwise distinct, and the ids (library id, underscore, relative
path) are pairwise distinct whenever no library id is another library id
followed by an underscore and any text `p`, the empty text included (so
neither `a_b` nor `a_` beside `a`). -/
theorem search_ids_distinct (env : SearchBooksEnv) (libraries : List AbsLibraryInfo)
    (hlibs : env.GetLibrariesInfo = .ok libraries) (a : AbsAdapter) (lenv : Nat → LookupEnv) :
    ∃ results, (a.Search (AbsClient.SearchBooks env "") lenv).1 = .ok results ∧
      (results.map SearchResult.RelPath).Nodup ∧
      ((∀ lib₁ ∈ libraries, ∀ lib₂ ∈ libraries, ∀ p : String,
          lib₂.ID ≠ lib₁.ID ++ "_" ++ p) →
        (results.map SearchResult.ID).Nodup) := by
  have hbooks := searchBooks_all_eq env libraries hlibs
  have hprov := searchBooks_provenance env libraries
  obtain ⟨hinv, _, _⟩ := searchBooks_fold_spec env (inOrder libraries.enum env.order) {}
    SearchBooksState.inv_empty
  obtain ⟨hloop, hids⟩ := search_loop_spec lenv 0
    ((inOrder libraries.enum env.order).foldl (AbsClient.SearchBooks.worker env) {}).allBooks a
  refine ⟨_, by rw [hbooks]; rfl, ?_, ?_⟩
  · have hmap : ∀ rs : List SearchResult, rs.map SearchResult.RelPath =
        (rs.map SearchResult.toAbsBook).map AbsBook.RelPath := by
      intro rs
      rw [List.map_map]
      rfl
    rw [hmap, hloop]
    exact hinv.2
  · intro hsep
    rw [hids]
    refine List.Nodup.map_on ?_ (List.Nodup.of_map _ hinv.2)
    intro x hx y hy hxy
    have hlib : ∀ b ∈ ((inOrder libraries.enum env.order).foldl
        (AbsClient.SearchBooks.worker env) {}).allBooks,
        ∃ lib ∈ libraries, b.LibraryID = lib.ID := by
      intro b hb
      obtain ⟨i, lib, items, hi, _, item, _, heq⟩ := hprov b hb
      exact ⟨lib, List.getElem?_mem hi, by rw [heq]; rfl⟩
    obtain ⟨lx, hlx, ex⟩ := hlib x hx
    obtain ⟨ly, hly, ey⟩ := hlib y hy
    have hrel := (searchID_inj x y
      (fun p => by rw [ex, ey]; exact hsep lx hlx ly hly p)
      (fun p => by rw [ex, ey]; exact hsep ly hly lx hlx p) hxy).2
    exact List.inj_on_of_nodup_map hinv.2 hx hy hrel

/-- C6 as amended, instantiated on libraries `L1` and `L2`. -/
theorem search_ids_distinct_witness :
    exampleSearchOverlap.GetLibrariesInfo = .ok exampleLibraries ∧
    (∀ lib₁ ∈ exampleLibraries, ∀ lib₂ ∈ exampleLibraries, ∀ p : String,
      lib₂.ID ≠ lib₁.ID ++ "_" ++ p) ∧
    ∃ results,
      (NewAbsAdapter.Search (AbsClient.SearchBooks exampleSearchOverlap "")
        exampleLookups).1 = .ok results ∧
      (results.map SearchResult.RelPath).Nodup ∧ (results.map SearchResult.ID).Nodup := by
  have hsep : ∀ lib₁ ∈ exampleLibraries, ∀ lib₂ ∈ exampleLibraries, ∀ p : String,
      lib₂.ID ≠ lib₁.ID ++ "_" ++ p := by
    intro lib₁ h₁ lib₂ h₂ p heq
    have hlen := congrArg String.length heq
    simp only [String.length_append] at hlen
    simp only [exampleLibraries, List.mem_cons, List.mem_singleton, List.not_mem_nil,
      or_false] at h₁ h₂
    rcases h₁ with rfl | rfl <;> rcases h₂ with rfl | rfl <;>
      · have h2 : ("L1" : String).length = 2 := by decide
        have h3 : ("L2" : String).length = 2 := by decide
        have h4 : ("_" : String).length = 1 := by decide
        simp only [h2, h3, h4] at hlen
        omega
  obtain ⟨results, h1, h2, h3⟩ :=
    search_ids_distinct exampleSearchOverlap exampleLibraries rfl NewAbsAdapter exampleLookups
  exact ⟨rfl, hsep, results, h1, h2, h3 hsep⟩

/-! ## Stats cache services: the count fan-out -/

section SlotLemmas

variable (env : StatsEnv)
  (step : List LibraryWithStats → Nat × LibraryInfo → List LibraryWithStats)
  (hstep : ∀ slots t, step slots t = slots.set t.1 (env.entry t.1 t.2))

include hstep

theorem slots_fold_length (tasks : List (Nat × LibraryInfo)) (slots : List LibraryWithStats) :
    (tasks.foldl step slots).length = slots.length := by
  induction tasks generalizing slots with
  | nil => rfl
  | cons t rest ih => rw [List.foldl_cons, ih, hstep, List.length_set]

theorem slots_fold_untouched (tasks : List (Nat × LibraryInfo))
    (slots : List LibraryWithStats) (j : Nat) (hj : j ∉ tasks.map Prod.fst) :
    (tasks.foldl step slots)[j]? = slots[j]? := by
  induction tasks generalizing slots with
  | nil => rfl
  | cons t rest ih =>
    have hne : t.1 ≠ j := fun e => hj (by simp [e])
    have hrest : j ∉ rest.map Prod.fst := fun e => hj (by simp at e ⊢; exact Or.inr e)
    rw [List.foldl_cons, ih _ hrest, hstep, List.getElem?_set_ne hne]

theorem slots_fold_written (tasks : List (Nat × LibraryInfo))
    (hnd : (tasks.map Prod.fst).Nodup) (slots : List LibraryWithStats) (j : Nat)
    (lib : LibraryInfo) (hmem : (j, lib) ∈ tasks) (hj : j < slots.length) :
    (tasks.foldl step slots)[j]? = some (env.entry j lib) := by
  induction tasks generalizing slots with
  | nil => cases hmem
  | cons t rest ih =>
    have hnd2 : t.1 ∉ rest.map Prod.fst ∧ (rest.map Prod.fst).Nodup := by
      simpa using hnd
    rw [List.foldl_cons]
    rcases List.mem_cons.mp hmem with heq | hin
    · subst heq
      rw [slots_fold_untouched env step hstep rest _ j hnd2.1, hstep]
      exact List.getElem?_set_self hj
    · apply ih hnd2.2 _ hin
      rw [hstep, List.length_set]
      exact hj

/-- The count fan-out over `libraries`, in any completion order, fills a
slice as long as `libraries` whose slot `i` holds library `i` and its count,
`0` when the count call failed. -/
theorem slots_fanout (libraries : List LibraryInfo) (order : List Nat)
    (hord : order.Perm (List.range libraries.length)) :
    ((inOrder libraries.enum order).foldl step
        (List.replicate libraries.length {})).length = libraries.length ∧
    ∀ i lib, libraries[i]? = some lib →
      ((inOrder libraries.enum order).foldl step
        (List.replicate libraries.length {}))[i]? = some (env.entry i lib) := by
  constructor
  · rw [slots_fold_length env step hstep, List.length_replicate]
  · intro i lib hi
    have hp := inOrder_perm libraries.enum order (by rw [List.enum_length]; exact hord)
    have hnd : ((inOrder libraries.enum order).map Prod.fst).Nodup := by
      rw [(hp.map Prod.fst).nodup_iff, List.enum_map_fst]
      exact List.nodup_range _
    apply slots_fold_written env step hstep _ hnd
    · exact (mem_inOrder_enum libraries order hord (i, lib)).mpr hi
    · rw [List.length_replicate]
      by_contra hge
      rw [List.getElem?_eq_none (Nat.le_of_not_lt hge)] at hi
      cases hi

end SlotLemmas

theorem StatsEnv.entry_error (env : StatsEnv) (i : Nat) (lib : LibraryInfo) (err : Error)
    (h : env.GetLibraryItemsCount i lib.ID = .error err) :
    env.entry i lib = { LibraryInfo := lib, ItemCount := 0 } := by
  simp [StatsEnv.entry, h]

theorem StatsEnv.entry_ok (env : StatsEnv) (i : Nat) (lib : LibraryInfo) (count : Int)
    (h : env.GetLibraryItemsCount i lib.ID = .ok count) :
    env.entry i lib = { LibraryInfo := lib, ItemCount := count } := by
  simp [StatsEnv.entry, h]

theorem StatsEnv.entry_info (env : StatsEnv) (i : Nat) (lib : LibraryInfo) :
    (env.entry i lib).LibraryInfo = lib := by
  unfold StatsEnv.entry
  cases env.GetLibraryItemsCount i lib.ID <;> rfl
theorem absService_worker_eq (env : StatsEnv) (slots : List LibraryWithStats)
    (t : Nat × LibraryInfo) :
    AbsServerService.GetLibrariesWithStats.worker env slots t =
      slots.set t.1 (env.entry t.1 t.2) := by
  unfold AbsServerService.GetLibrariesWithStats.worker StatsEnv.entry
  cases env.GetLibraryItemsCount t.1 t.2.ID <;> rfl

/-- A call that misses the cache and whose library fetch succeeds. -/
theorem absService_miss_ok (s : AbsServerService) (env : StatsEnv)
    (libraries : List LibraryInfo)
    (hmiss : ¬ (Since env.now s.librariesCacheTime < s.cacheExpiry ∧ s.librariesCache ≠ none))
    (hlibs : env.GetLibraries = .ok libraries) :
    s.GetLibrariesWithStats env =
      { result := .ok ((inOrder libraries.enum env.order).foldl
          (AbsServerService.GetLibrariesWithStats.worker env)
          (List.replicate libraries.length {})),
        service := { s with
          librariesCache := some ((inOrder libraries.enum env.order).foldl
            (AbsServerService.GetLibrariesWithStats.worker env)
            (List.replicate libraries.length {})),
          librariesCacheTime := env.now },
        getLibrariesCalls := 1, countCalls := libraries.length } := by
  unfold AbsServerService.GetLibrariesWithStats
  rw [if_neg hmiss]
  simp only [hlibs]

/-- A call that misses the cache and whose library fetch fails. -/
theorem absService_miss_error (s : AbsServerService) (env : StatsEnv) (err : Error)
    (hmiss : ¬ (Since env.now s.librariesCacheTime < s.cacheExpiry ∧ s.librariesCache ≠ none))
    (hlibs : env.GetLibraries = .error err) :
    s.GetLibrariesWithStats env =
      { result := .error err, service := s, getLibrariesCalls := 1, countCalls := 0 } := by
  unfold AbsServerService.GetLibrariesWithStats
  rw [if_neg hmiss]
  simp only [hlibs]

/-- A call that hits the cache. -/
theorem absService_hit (s : AbsServerService) (env : StatsEnv)
    (cached : List LibraryWithStats) (hcache : s.librariesCache = some cached)
    (hfresh : Since env.now s.librariesCacheTime < s.cacheExpiry) :
    s.GetLibrariesWithStats env =
      { result := .ok cached, service := s, getLibrariesCalls := 0, countCalls := 0 } := by
  unfold AbsServerService.GetLibrariesWithStats
  have hc : Since env.now s.librariesCacheTime < s.cacheExpiry ∧ s.librariesCache ≠ none :=
    ⟨hfresh, by rw [hcache]; simp⟩
  rw [if_pos hc, hcache]
  rfl

theorem absService_miss_spec (s : AbsServerService) (env : StatsEnv)
    (libraries : List LibraryInfo)
    (hmiss : ¬ (Since env.now s.librariesCacheTime < s.cacheExpiry ∧ s.librariesCache ≠ none))
    (hlibs : env.GetLibraries = .ok libraries)
    (hord : env.order.Perm (List.range libraries.length)) :
    ∃ l, (s.GetLibrariesWithStats env).result = .ok l ∧ l.length = libraries.length ∧
      ∀ i lib, libraries[i]? = some lib →
        l[i]?.map LibraryWithStats.LibraryInfo = some lib ∧
        ((∃ err, env.GetLibraryItemsCount i lib.ID = .error err) →
          l[i]? = some { LibraryInfo := lib, ItemCount := 0 }) ∧
        (∀ count, env.GetLibraryItemsCount i lib.ID = .ok count →
          l[i]? = some { LibraryInfo := lib, ItemCount := count }) := by
  obtain ⟨hlen, hslot⟩ := slots_fanout env (AbsServerService.GetLibrariesWithStats.worker env)
    (absService_worker_eq env) libraries env.order hord
  rw [absService_miss_ok s env libraries hmiss hlibs]
  refine ⟨_, rfl, hlen, ?_⟩
  intro i lib hi
  rw [hslot i lib hi]
  refine ⟨?_, ?_, ?_⟩
  · simp [StatsEnv.entry_info]
  · rintro ⟨err, herr⟩
    rw [StatsEnv.entry_error env i lib err herr]
  · intro count hc
    rw [StatsEnv.entry_ok env i lib count hc]

theorem embyService_worker_eq (env : StatsEnv) (slots : List LibraryWithStats)
    (t : Nat × LibraryInfo) :
    EmbyServerService.GetLibrariesWithStats.worker env slots t =
      slots.set t.1 (env.entry t.1 t.2) := by
  unfold EmbyServerService.GetLibrariesWithStats.worker StatsEnv.entry
  cases env.GetLibraryItemsCount t.1 t.2.ID <;> rfl

/-- A call that misses the cache and whose library fetch succeeds. -/
theorem embyService_miss_ok (s : EmbyServerService) (env : StatsEnv)
    (libraries : List LibraryInfo)
    (hmiss : ¬ (Since env.now s.librariesCacheTime < s.cacheExpiry ∧ s.librariesCache ≠ none))
    (hlibs : env.GetLibraries = .ok libraries) :
    s.GetLibrariesWithStats env =
      { result := .ok ((inOrder libraries.enum env.order).foldl
          (EmbyServerService.GetLibrariesWithStats.worker env)
          (List.replicate libraries.length {})),
        service := { s with
          librariesCache := some ((inOrder libraries.enum env.order).foldl
            (EmbyServerService.GetLibrariesWithStats.worker env)
            (List.replicate libraries.length {})),
          librariesCacheTime := env.now },
        getLibrariesCalls := 1, countCalls := libraries.length } := by
  unfold EmbyServerService.GetLibrariesWithStats
  rw [if_neg hmiss]
  simp only [hlibs]

/-- A call that misses the cache and whose library fetch fails. -/
theorem embyService_miss_error (s : EmbyServerService) (env : StatsEnv) (err : Error)
    (hmiss : ¬ (Since env.now s.librariesCacheTime < s.cacheExpiry ∧ s.librariesCache ≠ none))
    (hlibs : env.GetLibraries = .error err) :
    s.GetLibrariesWithStats env =
      { result := .error err, service := s, getLibrariesCalls := 1, countCalls := 0 } := by
  unfold EmbyServerService.GetLibrariesWithStats
  rw [if_neg hmiss]
  simp only [hlibs]

/-- A call that hits the cache. -/
theorem embyService_hit (s : EmbyServerService) (env : StatsEnv)
    (cached : List LibraryWithStats) (hcache : s.librariesCache = some cached)
    (hfresh : Since env.now s.librariesCacheTime < s.cacheExpiry) :
    s.GetLibrariesWithStats env =
      { result := .ok cached, service := s, getLibrariesCalls := 0, countCalls := 0 } := by
  unfold EmbyServerService.GetLibrariesWithStats
  have hc : Since env.now s.librariesCacheTime < s.cacheExpiry ∧ s.librariesCache ≠ none :=
    ⟨hfresh, by rw [hcache]; simp⟩
  rw [if_pos hc, hcache]
  rfl

theorem embyService_miss_spec (s : EmbyServerService) (env : StatsEnv)
    (libraries : List LibraryInfo)
    (hmiss : ¬ (Since env.now s.librariesCacheTime < s.cacheExpiry ∧ s.librariesCache ≠ none))
    (hlibs : env.GetLibraries = .ok libraries)
    (hord : env.order.Perm (List.range libraries.length)) :
    ∃ l, (s.GetLibrariesWithStats env).result = .ok l ∧ l.length = libraries.length ∧
      ∀ i lib, libraries[i]? = some lib →
        l[i]?.map LibraryWithStats.LibraryInfo = some lib ∧
        ((∃ err, env.GetLibraryItemsCount i lib.ID = .error err) →
          l[i]? = some { LibraryInfo := lib, ItemCount := 0 }) ∧
        (∀ count, env.GetLibraryItemsCount i lib.ID = .ok count →
          l[i]? = some { LibraryInfo := lib, ItemCount := count }) := by
  obtain ⟨hlen, hslot⟩ := slots_fanout env (EmbyServerService.GetLibrariesWithStats.worker env)
    (embyService_worker_eq env) libraries env.order hord
  rw [embyService_miss_ok s env libraries hmiss hlibs]
  refine ⟨_, rfl, hlen, ?_⟩
  intro i lib hi
  rw [hslot i lib hi]
  refine ⟨?_, ?_, ?_⟩
  · simp [StatsEnv.entry_info]
  · rintro ⟨err, herr⟩
    rw [StatsEnv.entry_error env i lib err herr]
  · intro count hc
    rw [StatsEnv.entry_ok env i lib count hc]

/-- The cache of `AbsServerService` between a populating call and expiry. -/
theorem absService_ttl_spec (s₀ : AbsServerService) (env₀ : StatsEnv)
    (libraries₀ : List LibraryInfo)
    (hmiss : ¬ (Since env₀.now s₀.librariesCacheTime < s₀.cacheExpiry ∧
      s₀.librariesCache ≠ none))
    (hlibs : env₀.GetLibraries = .ok libraries₀) :
    ∃ l₀, (s₀.GetLibrariesWithStats env₀).result = .ok l₀ ∧
      (s₀.GetLibrariesWithStats env₀).service.librariesCache = some l₀ ∧
      (s₀.GetLibrariesWithStats env₀).service.librariesCacheTime = env₀.now ∧
      (∀ envs : List StatsEnv, (∀ env ∈ envs, Since env.now env₀.now < s₀.cacheExpiry) →
        ∀ c ∈ (s₀.GetLibrariesWithStats env₀).service.callsInSequence envs,
          c = { result := .ok l₀, service := (s₀.GetLibrariesWithStats env₀).service,
                getLibrariesCalls := 0, countCalls := 0 }) ∧
      (∀ env : StatsEnv, Since env.now env₀.now ≥ s₀.cacheExpiry →
        ((s₀.GetLibrariesWithStats env₀).service.GetLibrariesWithStats env).getLibrariesCalls
          = 1 ∧
        ∀ libraries, env.GetLibraries = .ok libraries →
          ∃ l, ((s₀.GetLibrariesWithStats env₀).service.GetLibrariesWithStats env).result
              = .ok l ∧
            l.length = libraries.length ∧
            (NewAbsServerService.GetLibrariesWithStats env).result = .ok l ∧
            ((s₀.GetLibrariesWithStats env₀).service.GetLibrariesWithStats env).service.librariesCache
              = some l ∧
            ((s₀.GetLibrariesWithStats env₀).service.GetLibrariesWithStats
              env).service.librariesCacheTime = env.now ∧
            ((s₀.GetLibrariesWithStats env₀).service.GetLibrariesWithStats env).countCalls
              = libraries.length) := by
  rw [absService_miss_ok s₀ env₀ libraries₀ hmiss hlibs]
  refine ⟨_, rfl, rfl, rfl, ?_, ?_⟩
  · intro envs
    induction envs with
    | nil => intro _ c hc; cases hc
    | cons env rest ih =>
      intro hfresh c hc
      have hhit := absService_hit
        { s₀ with
          librariesCache := some ((inOrder libraries₀.enum env₀.order).foldl
            (AbsServerService.GetLibrariesWithStats.worker env₀)
            (List.replicate libraries₀.length {})),
          librariesCacheTime := env₀.now } env _ rfl (hfresh env (List.mem_cons_self _ _))
      simp only [AbsServerService.callsInSequence, hhit, List.mem_cons] at hc
      rcases hc with hc | hc
      · exact hc
      · exact ih (fun e he => hfresh e (List.mem_cons_of_mem _ he)) c hc
  · intro env hexp
    have hmiss2 : ¬ (Since env.now env₀.now < s₀.cacheExpiry ∧
        (some ((inOrder libraries₀.enum env₀.order).foldl
          (AbsServerService.GetLibrariesWithStats.worker env₀)
          (List.replicate libraries₀.length {})) : Option (List LibraryWithStats)) ≠ none) :=
      fun h => absurd h.1 (not_lt.mpr hexp)
    constructor
    · cases hl : env.GetLibraries with
      | error err => rw [absService_miss_error _ env err hmiss2 hl]
      | ok libraries => rw [absService_miss_ok _ env libraries hmiss2 hl]
    · intro libraries hl
      have hnew : ¬ (Since env.now NewAbsServerService.librariesCacheTime < NewAbsServerService.cacheExpiry ∧
          NewAbsServerService.librariesCache ≠ none) := fun h => h.2 rfl
      rw [absService_miss_ok _ env libraries hmiss2 hl,
        absService_miss_ok _ env libraries hnew hl]
      refine ⟨_, rfl, ?_, rfl, rfl, rfl, rfl⟩
      rw [slots_fold_length env (AbsServerService.GetLibrariesWithStats.worker env)
        (absService_worker_eq env), List.length_replicate]

/-- The cache of `EmbyServerService` between a populating call and expiry. -/
theorem embyService_ttl_spec (s₀ : EmbyServerService) (env₀ : StatsEnv)
    (libraries₀ : List LibraryInfo)
    (hmiss : ¬ (Since env₀.now s₀.librariesCacheTime < s₀.cacheExpiry ∧
      s₀.librariesCache ≠ none))
    (hlibs : env₀.GetLibraries = .ok libraries₀) :
    ∃ l₀, (s₀.GetLibrariesWithStats env₀).result = .ok l₀ ∧
      (s₀.GetLibrariesWithStats env₀).service.librariesCache = some l₀ ∧
      (s₀.GetLibrariesWithStats env₀).service.librariesCacheTime = env₀.now ∧
      (∀ envs : List StatsEnv, (∀ env ∈ envs, Since env.now env₀.now < s₀.cacheExpiry) →
        ∀ c ∈ (s₀.GetLibrariesWithStats env₀).service.callsInSequence envs,
          c = { result := .ok l₀, service := (s₀.GetLibrariesWithStats env₀).service,
                getLibrariesCalls := 0, countCalls := 0 }) ∧
      (∀ env : StatsEnv, Since env.now env₀.now ≥ s₀.cacheExpiry →
        ((s₀.GetLibrariesWithStats env₀).service.GetLibrariesWithStats env).getLibrariesCalls
          = 1 ∧
        ∀ libraries, env.GetLibraries = .ok libraries →
          ∃ l, ((s₀.GetLibrariesWithStats env₀).service.GetLibrariesWithStats env).result
              = .ok l ∧
            l.length = libraries.length ∧
            (NewEmbyServerService.GetLibrariesWithStats env).result = .ok l ∧
            ((s₀.GetLibrariesWithStats env₀).service.GetLibrariesWithStats env).service.librariesCache
              = some l ∧
            ((s₀.GetLibrariesWithStats env₀).service.GetLibrariesWithStats
              env).service.librariesCacheTime = env.now ∧
            ((s₀.GetLibrariesWithStats env₀).service.GetLibrariesWithStats env).countCalls
              = libraries.length) := by
  rw [embyService_miss_ok s₀ env₀ libraries₀ hmiss hlibs]
  refine ⟨_, rfl, rfl, rfl, ?_, ?_⟩
  · intro envs
    induction envs with
    | nil => intro _ c hc; cases hc
    | cons env rest ih =>
      intro hfresh c hc
      have hhit := embyService_hit
        { s₀ with
          librariesCache := some ((inOrder libraries₀.enum env₀.order).foldl
            (EmbyServerService.GetLibrariesWithStats.worker env₀)
            (List.replicate libraries₀.length {})),
          librariesCacheTime := env₀.now } env _ rfl (hfresh env (List.mem_cons_self _ _))
      simp only [EmbyServerService.callsInSequence, hhit, List.mem_cons] at hc
      rcases hc with hc | hc
      · exact hc
      · exact ih (fun e he => hfresh e (List.mem_cons_of_mem _ he)) c hc
  · intro env hexp
    have hmiss2 : ¬ (Since env.now env₀.now < s₀.cacheExpiry ∧
        (some ((inOrder libraries₀.enum env₀.order).foldl
          (EmbyServerService.GetLibrariesWithStats.worker env₀)
          (List.replicate libraries₀.length {})) : Option (List LibraryWithStats)) ≠ none) :=
      fun h => absurd h.1 (not_lt.mpr hexp)
    constructor
    · cases hl : env.GetLibraries with
      | error err => rw [embyService_miss_error _ env err hmiss2 hl]
      | ok libraries => rw [embyService_miss_ok _ env libraries hmiss2 hl]
    · intro libraries hl
      have hnew : ¬ (Since env.now NewEmbyServerService.librariesCacheTime < NewEmbyServerService.cacheExpiry ∧
          NewEmbyServerService.librariesCache ≠ none) := fun h => h.2 rfl
      rw [embyService_miss_ok _ env libraries hmiss2 hl,
        embyService_miss_ok _ env libraries hnew hl]
      refine ⟨_, rfl, ?_, rfl, rfl, rfl, rfl⟩
      rw [slots_fold_length env (EmbyServerService.GetLibrariesWithStats.worker env)
        (embyService_worker_eq env), List.length_replicate]

/-! ## Stats cache services: time to live -/

/-- C8, as stated, fails: the cache was populated at time `0`, the call at
time `5 * Minute` finds it expired and makes one `GetLibraries` call, which
fails; the call returns the error, recomputes nothing and leaves the cache
time at `0`. -/
theorem statsCache_expired_fetch_fails :
    (NewAbsServerService.GetLibrariesWithStats (exampleStatsEnv 0)).service.librariesCacheTime
      = 0 ∧
    Since (5 * Minute) 0 ≥
      (NewAbsServerService.GetLibrariesWithStats (exampleStatsEnv 0)).service.cacheExpiry ∧
    ((NewAbsServerService.GetLibrariesWithStats (exampleStatsEnv 0)).service.GetLibrariesWithStats
      (exampleStatsEnvDown (5 * Minute))).getLibrariesCalls = 1 ∧
    ((NewAbsServerService.GetLibrariesWithStats (exampleStatsEnv 0)).service.GetLibrariesWithStats
      (exampleStatsEnvDown (5 * Minute))).countCalls = 0 ∧
    ((NewAbsServerService.GetLibrariesWithStats (exampleStatsEnv 0)).service.GetLibrariesWithStats
      (exampleStatsEnvDown (5 * Minute))).result
      = .error "error making request: connection refused" ∧
    ((NewAbsServerService.GetLibrariesWithStats (exampleStatsEnv 0)).service.GetLibrariesWithStats
      (exampleStatsEnvDown (5 * Minute))).service.librariesCacheTime = 0 ∧
    ((NewAbsServerService.GetLibrariesWithStats (exampleStatsEnv 0)).service.GetLibrariesWithStats
      (exampleStatsEnvDown (5 * Minute))).service.librariesCacheTime ≠ 5 * Minute := by
  decide

/-- C8 as amended, for `AbsServerService` and `EmbyServerService`, with time
explicit and calls made one after another: the default time to live is 5
minutes; if a call at time `T` populated the cache with `l₀`, every later call
at a time `t` with `t - T < TTL` returns `l₀`, calls the adapter not at all
and leaves the service as it was; a call at a time `t` with `t - T ≥ TTL`
makes exactly one `GetLibraries` call and, when that call succeeds, makes one
count call per library, returns the list that a service with an empty cache
computes and stores it in the cache with the time `t`. -/
theorem statsCache_ttl (env₀ : StatsEnv) (libraries₀ : List LibraryInfo)
    (hlibs : env₀.GetLibraries = .ok libraries₀) :
    NewAbsServerService.cacheExpiry = 5 * Minute ∧
    NewEmbyServerService.cacheExpiry = 5 * Minute ∧
    (∀ s₀ : AbsServerService,
      ¬ (Since env₀.now s₀.librariesCacheTime < s₀.cacheExpiry ∧
        s₀.librariesCache ≠ none) →
        ∃ l₀, (s₀.GetLibrariesWithStats env₀).result = .ok l₀ ∧
          (s₀.GetLibrariesWithStats env₀).service.librariesCache = some l₀ ∧
          (s₀.GetLibrariesWithStats env₀).service.librariesCacheTime = env₀.now ∧
          (∀ envs : List StatsEnv, (∀ env ∈ envs, Since env.now env₀.now < s₀.cacheExpiry) →
            ∀ c ∈ (s₀.GetLibrariesWithStats env₀).service.callsInSequence envs,
              c = { result := .ok l₀, service := (s₀.GetLibrariesWithStats env₀).service,
                    getLibrariesCalls := 0, countCalls := 0 }) ∧
          (∀ env : StatsEnv, Since env.now env₀.now ≥ s₀.cacheExpiry →
            ((s₀.GetLibrariesWithStats env₀).service.GetLibrariesWithStats env).getLibrariesCalls
              = 1 ∧
            ∀ libraries, env.GetLibraries = .ok libraries →
              ∃ l, ((s₀.GetLibrariesWithStats env₀).service.GetLibrariesWithStats env).result
                  = .ok l ∧
                l.length = libraries.length ∧
            (NewAbsServerService.GetLibrariesWithStats env).result = .ok l ∧
                ((s₀.GetLibrariesWithStats env₀).service.GetLibrariesWithStats env).service.librariesCache
                  = some l ∧
                ((s₀.GetLibrariesWithStats env₀).service.GetLibrariesWithStats
                  env).service.librariesCacheTime = env.now ∧
                ((s₀.GetLibrariesWithStats env₀).service.GetLibrariesWithStats env).countCalls
                  = libraries.length)) ∧
    (∀ s₀ : EmbyServerService,
      ¬ (Since env₀.now s₀.librariesCacheTime < s₀.cacheExpiry ∧
        s₀.librariesCache ≠ none) →
        ∃ l₀, (s₀.GetLibrariesWithStats env₀).result = .ok l₀ ∧
          (s₀.GetLibrariesWithStats env₀).service.librariesCache = some l₀ ∧
          (s₀.GetLibrariesWithStats env₀).service.librariesCacheTime = env₀.now ∧
          (∀ envs : List StatsEnv, (∀ env ∈ envs, Since env.now env₀.now < s₀.cacheExpiry) →
            ∀ c ∈ (s₀.GetLibrariesWithStats env₀).service.callsInSequence envs,
              c = { result := .ok l₀, service := (s₀.GetLibrariesWithStats env₀).service,
                    getLibrariesCalls := 0, countCalls := 0 }) ∧
          (∀ env : StatsEnv, Since env.now env₀.now ≥ s₀.cacheExpiry →
            ((s₀.GetLibrariesWithStats env₀).service.GetLibrariesWithStats env).getLibrariesCalls
              = 1 ∧
            ∀ libraries, env.GetLibraries = .ok libraries →
              ∃ l, ((s₀.GetLibrariesWithStats env₀).service.GetLibrariesWithStats env).result
                  = .ok l ∧
                l.length = libraries.length ∧
            (NewEmbyServerService.GetLibrariesWithStats env).result = .ok l ∧
                ((s₀.GetLibrariesWithStats env₀).service.GetLibrariesWithStats env).service.librariesCache
                  = some l ∧
                ((s₀.GetLibrariesWithStats env₀).service.GetLibrariesWithStats
                  env).service.librariesCacheTime = env.now ∧
                ((s₀.GetLibrariesWithStats env₀).service.GetLibrariesWithStats env).countCalls
                  = libraries.length)) :=
  ⟨rfl, rfl,
    fun s₀ hmiss => absService_ttl_spec s₀ env₀ libraries₀ hmiss hlibs,
    fun s₀ hmiss => embyService_ttl_spec s₀ env₀ libraries₀ hmiss hlibs⟩

/-- C8 as amended, instantiated: a fresh service is populated at time `0`;
calls at 1 minute and just before 5 minutes are answered from the cache, the
call at 5 minutes refetches once and stamps the cache with its time. -/
theorem statsCache_ttl_witness :
    (exampleStatsEnv 0).GetLibraries = .ok exampleStatsLibraries ∧
    ¬ (Since (exampleStatsEnv 0).now NewAbsServerService.librariesCacheTime <
        NewAbsServerService.cacheExpiry ∧ NewAbsServerService.librariesCache ≠ none) ∧
    ∃ l₀, (NewAbsServerService.GetLibrariesWithStats (exampleStatsEnv 0)).result = .ok l₀ ∧
      (∀ c ∈ (NewAbsServerService.GetLibrariesWithStats (exampleStatsEnv 0)).service.callsInSequence
          [exampleStatsEnvDown Minute, exampleStatsEnv (5 * Minute - 1)],
        c.result = .ok l₀ ∧ c.getLibrariesCalls = 0 ∧ c.countCalls = 0) ∧
      ((NewAbsServerService.GetLibrariesWithStats (exampleStatsEnv 0)).service.GetLibrariesWithStats
        (exampleStatsEnv (5 * Minute))).getLibrariesCalls = 1 ∧
      ((NewAbsServerService.GetLibrariesWithStats (exampleStatsEnv 0)).service.GetLibrariesWithStats
        (exampleStatsEnv (5 * Minute))).service.librariesCacheTime = 5 * Minute := by
  have hmiss : ¬ (Since (exampleStatsEnv 0).now NewAbsServerService.librariesCacheTime <
      NewAbsServerService.cacheExpiry ∧ NewAbsServerService.librariesCache ≠ none) := by
    decide
  obtain ⟨l₀, h1, _, _, h4, h5⟩ :=
    (statsCache_ttl (exampleStatsEnv 0) exampleStatsLibraries rfl).2.2.1
      NewAbsServerService hmiss
  refine ⟨rfl, hmiss, l₀, h1, ?_, ?_, ?_⟩
  · intro c hc
    have hfresh : ∀ env ∈ [exampleStatsEnvDown Minute, exampleStatsEnv (5 * Minute - 1)],
        Since env.now (exampleStatsEnv 0).now < NewAbsServerService.cacheExpiry := by
      intro env henv
      simp only [List.mem_cons, List.mem_singleton, List.not_mem_nil, or_false] at henv
      rcases henv with rfl | rfl <;> decide
    rw [h4 _ hfresh c hc]
    exact ⟨rfl, rfl, rfl⟩
  · exact (h5 (exampleStatsEnv (5 * Minute)) (by decide)).1
  · obtain ⟨l, _, _, _, _, ht, _⟩ :=
      (h5 (exampleStatsEnv (5 * Minute)) (by decide)).2 exampleStatsLibraries rfl
    exact ht

/-! ## Stats cache services: count failures -/

/-- C10: for every library list that the adapter returns, every set of failing
count calls and every completion order, a cache-miss call of
`GetLibrariesWithStats` (of `AbsServerService` and of `EmbyServerService`)
succeeds with a list as long as the library list, whose entry `i` carries the
`LibraryInfo` of library `i`, with `ItemCount` `0` when the count call of
library `i` failed and the returned count otherwise. -/
theorem getLibrariesWithStats_counts (env : StatsEnv) (libraries : List LibraryInfo)
    (hlibs : env.GetLibraries = .ok libraries)
    (hord : env.order.Perm (List.range libraries.length)) :
    (∀ s : AbsServerService,
      ¬ (Since env.now s.librariesCacheTime < s.cacheExpiry ∧ s.librariesCache ≠ none) →
        ∃ l, (s.GetLibrariesWithStats env).result = .ok l ∧ l.length = libraries.length ∧
          ∀ i lib, libraries[i]? = some lib →
            l[i]?.map LibraryWithStats.LibraryInfo = some lib ∧
            ((∃ err, env.GetLibraryItemsCount i lib.ID = .error err) →
              l[i]? = some { LibraryInfo := lib, ItemCount := 0 }) ∧
            (∀ count, env.GetLibraryItemsCount i lib.ID = .ok count →
              l[i]? = some { LibraryInfo := lib, ItemCount := count })) ∧
    (∀ s : EmbyServerService,
      ¬ (Since env.now s.librariesCacheTime < s.cacheExpiry ∧ s.librariesCache ≠ none) →
        ∃ l, (s.GetLibrariesWithStats env).result = .ok l ∧ l.length = libraries.length ∧
          ∀ i lib, libraries[i]? = some lib →
            l[i]?.map LibraryWithStats.LibraryInfo = some lib ∧
            ((∃ err, env.GetLibraryItemsCount i lib.ID = .error err) →
              l[i]? = some { LibraryInfo := lib, ItemCount := 0 }) ∧
            (∀ count, env.GetLibraryItemsCount i lib.ID = .ok count →
              l[i]? = some { LibraryInfo := lib, ItemCount := count })) :=
  ⟨fun s hmiss => absService_miss_spec s env libraries hmiss hlibs hord,
    fun s hmiss => embyService_miss_spec s env libraries hmiss hlibs hord⟩

/-- C10 instantiated: two libraries, the count of the first is `10`, the count
call of the second fails. -/
theorem getLibrariesWithStats_counts_witness :
    (exampleStatsEnv 0).GetLibraries = .ok exampleStatsLibraries ∧
    (exampleStatsEnv 0).order.Perm (List.range exampleStatsLibraries.length) ∧
    ¬ (Since (exampleStatsEnv 0).now NewEmbyServerService.librariesCacheTime <
        NewEmbyServerService.cacheExpiry ∧ NewEmbyServerService.librariesCache ≠ none) ∧
    ∃ l, (NewEmbyServerService.GetLibrariesWithStats (exampleStatsEnv 0)).result = .ok l ∧
      l.length = 2 ∧
      l[0]? = some { LibraryInfo := { ID := "1", Name := "Books" }, ItemCount := 10 } ∧
      l[1]? = some { LibraryInfo := { ID := "x", Name := "Movies" }, ItemCount := 0 } := by
  have hmiss : ¬ (Since (exampleStatsEnv 0).now NewEmbyServerService.librariesCacheTime <
      NewEmbyServerService.cacheExpiry ∧ NewEmbyServerService.librariesCache ≠ none) := by
    decide
  obtain ⟨l, h1, h2, h3⟩ :=
    (getLibrariesWithStats_counts (exampleStatsEnv 0) exampleStatsLibraries rfl
      (by decide)).2 NewEmbyServerService hmiss
  refine ⟨rfl, by decide, hmiss, l, h1, h2, ?_, ?_⟩
  · exact (h3 0 { ID := "1", Name := "Books" } rfl).2.2 10 rfl
  · exact (h3 1 { ID := "x", Name := "Movies" } rfl).2.1 ⟨"timeout", rfl⟩

/-! ## Stats cache services: concurrent callers -/

/-- One caller that runs its three sections is a call of the sequential
method. -/
theorem statsRun_single (s : AbsServerService) (env : StatsEnv) :
    StatsRun.run (fun _ => env) (StatsRun.start s 1) [0, 0, 0] =
      { service := (s.GetLibrariesWithStats env).service,
        callers := [.returned (s.GetLibrariesWithStats env).result],
        getLibrariesCalls := (s.GetLibrariesWithStats env).getLibrariesCalls,
        countCalls := (s.GetLibrariesWithStats env).countCalls } := by
  by_cases hc : Since env.now s.librariesCacheTime < s.cacheExpiry ∧ s.librariesCache ≠ none
  · simp [StatsRun.run, StatsRun.start, StatsRun.step, AbsServerService.GetLibrariesWithStats,
      hc]
  · cases hl : env.GetLibraries with
    | error err =>
      simp [StatsRun.run, StatsRun.start, StatsRun.step,
        AbsServerService.GetLibrariesWithStats, hc, hl]
    | ok libraries =>
      simp [StatsRun.run, StatsRun.start, StatsRun.step,
        AbsServerService.GetLibrariesWithStats, hc, hl]

/-! ## Stats cache services: any number of concurrent callers -/

section ConcurrentCallers

theorem weigh_set (w : Nat → StatsCaller → Nat) (l : List StatsCaller) (k i : Nat)
    (c x : StatsCaller) (h : l[i]? = some c) :
    StatsCaller.weigh w k (l.set i x) + w (k + i) c =
      StatsCaller.weigh w k l + w (k + i) x := by
  induction l generalizing k i with
  | nil => simp at h
  | cons d ds ih =>
    cases i with
    | zero =>
      simp only [List.getElem?_cons_zero, Option.some.injEq] at h
      subst h
      simp only [List.set_cons_zero, StatsCaller.weigh, Nat.add_zero]
      omega
    | succ j =>
      simp only [List.getElem?_cons_succ] at h
      have := ih (k + 1) j h
      simp only [List.set_cons_succ, StatsCaller.weigh]
      have e : k + 1 + j = k + (j + 1) := by omega
      rw [e] at this
      omega

theorem weigh_replicate (w : Nat → StatsCaller → Nat) (c : StatsCaller) (n k : Nat) :
    StatsCaller.weigh w k (List.replicate n c) = ((List.range' k n).map fun i => w i c).sum := by
  induction n generalizing k with
  | zero => rfl
  | succ m ih =>
    simp only [List.replicate_succ, StatsCaller.weigh, ih, List.range'_succ, List.map_cons,
      List.sum_cons]

theorem weigh_eq_zero (w : Nat → StatsCaller → Nat) (l : List StatsCaller) (k : Nat)
    (h : ∀ c ∈ l, ∀ i, w i c = 0) : StatsCaller.weigh w k l = 0 := by
  induction l generalizing k with
  | nil => rfl
  | cons d ds ih =>
    simp only [StatsCaller.weigh, h d (List.mem_cons_self _ _) k, Nat.zero_add]
    exact ih (k + 1) fun c hc => h c (List.mem_cons_of_mem _ hc)

theorem weigh_eq_sum (w : Nat → StatsCaller → Nat) (v : Nat → Nat) (l : List StatsCaller)
    (k : Nat) (h : ∀ i c, l[i]? = some c → w (k + i) c = v (k + i)) :
    StatsCaller.weigh w k l = ((List.range' k l.length).map v).sum := by
  induction l generalizing k with
  | nil => rfl
  | cons d ds ih =>
    simp only [StatsCaller.weigh, List.length_cons, List.range'_succ, List.map_cons,
      List.sum_cons]
    have h0 := h 0 d (by simp)
    rw [Nat.add_zero] at h0
    rw [h0, ih (k + 1)]
    intro i c hi
    have := h (i + 1) c (by simpa using hi)
    have e : k + (i + 1) = k + 1 + i := by omega
    rw [e] at this
    exact this

variable (env : Nat → StatsEnv)

theorem statsRun_step_none (r : StatsRun) (i : Nat) (h : r.callers[i]? = none) :
    StatsRun.step env r i = r := by
  simp only [StatsRun.step, h]

theorem statsRun_step_returned (r : StatsRun) (i : Nat)
    (res : Except Error (List LibraryWithStats)) (h : r.callers[i]? = some (.returned res)) :
    StatsRun.step env r i = r := by
  simp only [StatsRun.step, h]

theorem statsRun_step_hit (r : StatsRun) (i : Nat) (h : r.callers[i]? = some .atCheck)
    (hc : Since (env i).now r.service.librariesCacheTime < r.service.cacheExpiry ∧
      r.service.librariesCache ≠ none) :
    StatsRun.step env r i =
      { r with callers := r.callers.set i (.returned (.ok (r.service.librariesCache.getD []))) } := by
  simp only [StatsRun.step, h]
  rw [if_pos hc]

theorem statsRun_step_miss (r : StatsRun) (i : Nat) (h : r.callers[i]? = some .atCheck)
    (hc : ¬ (Since (env i).now r.service.librariesCacheTime < r.service.cacheExpiry ∧
      r.service.librariesCache ≠ none)) :
    StatsRun.step env r i = { r with callers := r.callers.set i .atFetch } := by
  simp only [StatsRun.step, h, if_neg hc]

theorem statsRun_step_fetch_ok (r : StatsRun) (i : Nat) (h : r.callers[i]? = some .atFetch)
    (libraries : List LibraryInfo) (hl : (env i).GetLibraries = .ok libraries) :
    StatsRun.step env r i =
      { r with
        callers := r.callers.set i
          (.atStore ((inOrder libraries.enum (env i).order).foldl
            (AbsServerService.GetLibrariesWithStats.worker (env i))
            (List.replicate libraries.length {}))),
        getLibrariesCalls := r.getLibrariesCalls + 1,
        countCalls := r.countCalls + libraries.length } := by
  simp only [StatsRun.step, h, hl]

theorem statsRun_step_fetch (r : StatsRun) (i : Nat) (h : r.callers[i]? = some .atFetch) :
    ∃ c : StatsCaller, c.pending = 0 ∧
      StatsRun.step env r i =
        { r with callers := r.callers.set i c,
                 getLibrariesCalls := r.getLibrariesCalls + 1,
                 countCalls := r.countCalls + (env i).round } := by
  cases hl : (env i).GetLibraries with
  | error err =>
    refine ⟨.returned (.error err), rfl, ?_⟩
    simp only [StatsRun.step, h, hl, StatsEnv.round, Nat.add_zero]
  | ok libraries =>
    refine ⟨.atStore ((inOrder libraries.enum (env i).order).foldl
      (AbsServerService.GetLibrariesWithStats.worker (env i))
      (List.replicate libraries.length {})), rfl, ?_⟩
    rw [statsRun_step_fetch_ok env r i h libraries hl]
    simp only [StatsEnv.round, hl]

theorem statsRun_step_store (r : StatsRun) (i : Nat) (l : List LibraryWithStats)
    (h : r.callers[i]? = some (.atStore l)) :
    StatsRun.step env r i =
      { r with
        service := { r.service with librariesCache := some l,
                                    librariesCacheTime := (env i).now },
        callers := r.callers.set i (.returned (.ok l)) } := by
  simp only [StatsRun.step, h]

theorem statsRun_run_append (r : StatsRun) (a b : List Nat) :
    StatsRun.run env r (a ++ b) = StatsRun.run env (StatsRun.run env r a) b := by
  simp only [StatsRun.run, List.foldl_append]

theorem statsRun_run_cons (r : StatsRun) (i : Nat) (rest : List Nat) :
    StatsRun.run env r (i :: rest) = StatsRun.run env (StatsRun.step env r i) rest := rfl

theorem pending_atCheck : StatsCaller.pending .atCheck = 1 := rfl

theorem pending_atFetch : StatsCaller.pending .atFetch = 1 := rfl

theorem pending_atStore (l : List LibraryWithStats) : StatsCaller.pending (.atStore l) = 0 := rfl

theorem pending_returned (res : Except Error (List LibraryWithStats)) :
    StatsCaller.pending (.returned res) = 0 := rfl

/-- What a step does to the numbers of adapter calls made and still to make:
the sum never grows, and it stays the same unless the step is a cache check. -/
theorem statsRun_step_account (r : StatsRun) (i : Nat) :
    r.getLibrariesCalls ≤ (StatsRun.step env r i).getLibrariesCalls ∧
    (StatsRun.step env r i).callers.length = r.callers.length ∧
    (StatsRun.step env r i).getLibrariesCalls +
        StatsCaller.weigh (fun _ c => c.pending) 0 (StatsRun.step env r i).callers ≤
      r.getLibrariesCalls + StatsCaller.weigh (fun _ c => c.pending) 0 r.callers ∧
    (StatsRun.step env r i).countCalls +
        StatsCaller.weigh (fun k c => c.pending * (env k).round) 0
          (StatsRun.step env r i).callers ≤
      r.countCalls + StatsCaller.weigh (fun k c => c.pending * (env k).round) 0 r.callers ∧
    ((r.callers[i]? = some .atCheck →
        ¬ (Since (env i).now r.service.librariesCacheTime < r.service.cacheExpiry ∧
          r.service.librariesCache ≠ none)) →
      (StatsRun.step env r i).getLibrariesCalls +
          StatsCaller.weigh (fun _ c => c.pending) 0 (StatsRun.step env r i).callers =
        r.getLibrariesCalls + StatsCaller.weigh (fun _ c => c.pending) 0 r.callers ∧
      (StatsRun.step env r i).countCalls +
          StatsCaller.weigh (fun k c => c.pending * (env k).round) 0
            (StatsRun.step env r i).callers =
        r.countCalls +
          StatsCaller.weigh (fun k c => c.pending * (env k).round) 0 r.callers) := by
  cases h : r.callers[i]? with
  | none =>
    rw [statsRun_step_none env r i h]
    simp
  | some c =>
    have w1 := fun x => weigh_set (fun _ c => c.pending) r.callers 0 i c x h
    have w2 := fun x => weigh_set (fun k c => c.pending * (env k).round) r.callers 0 i c x h
    simp only [Nat.zero_add] at w1 w2
    cases c with
    | atCheck =>
      by_cases hc : Since (env i).now r.service.librariesCacheTime < r.service.cacheExpiry ∧
          r.service.librariesCache ≠ none
      · rw [statsRun_step_hit env r i h hc]
        have a1 := w1 (.returned (.ok (r.service.librariesCache.getD [])))
        have a2 := w2 (.returned (.ok (r.service.librariesCache.getD [])))
        simp only [pending_atCheck, pending_returned, Nat.one_mul, Nat.zero_mul] at a1 a2
        simp only [List.length_set]
        refine ⟨le_refl _, trivial, by omega, by omega, fun hne => absurd hc (hne trivial)⟩
      · rw [statsRun_step_miss env r i h hc]
        have a1 := w1 .atFetch
        have a2 := w2 .atFetch
        simp only [pending_atCheck, pending_atFetch, Nat.one_mul] at a1 a2
        simp only [List.length_set]
        refine ⟨le_refl _, trivial, by omega, by omega, fun _ => ⟨by omega, by omega⟩⟩
    | atFetch =>
      obtain ⟨c, hp, hs⟩ := statsRun_step_fetch env r i h
      rw [hs]
      have a1 := w1 c
      have a2 := w2 c
      simp only [pending_atFetch, hp, Nat.one_mul, Nat.zero_mul] at a1 a2
      simp only [List.length_set]
      refine ⟨by omega, trivial, by omega, by omega, fun _ => ⟨by omega, by omega⟩⟩
    | atStore l =>
      rw [statsRun_step_store env r i l h]
      have a1 := w1 (.returned (.ok l))
      have a2 := w2 (.returned (.ok l))
      simp only [pending_atStore, pending_returned, Nat.zero_mul] at a1 a2
      simp only [List.length_set]
      refine ⟨le_refl _, trivial, by omega, by omega, fun _ => ⟨by omega, by omega⟩⟩
    | returned res =>
      rw [statsRun_step_returned env r i res h]
      simp

theorem statsRun_run_account (r : StatsRun) (schedule : List Nat) :
    r.getLibrariesCalls ≤ (StatsRun.run env r schedule).getLibrariesCalls ∧
    (StatsRun.run env r schedule).callers.length = r.callers.length ∧
    (StatsRun.run env r schedule).getLibrariesCalls +
        StatsCaller.weigh (fun _ c => c.pending) 0 (StatsRun.run env r schedule).callers ≤
      r.getLibrariesCalls + StatsCaller.weigh (fun _ c => c.pending) 0 r.callers ∧
    (StatsRun.run env r schedule).countCalls +
        StatsCaller.weigh (fun k c => c.pending * (env k).round) 0
          (StatsRun.run env r schedule).callers ≤
      r.countCalls + StatsCaller.weigh (fun k c => c.pending * (env k).round) 0 r.callers := by
  induction schedule generalizing r with
  | nil => exact ⟨le_refl _, rfl, le_refl _, le_refl _⟩
  | cons i rest ih =>
    rw [statsRun_run_cons]
    obtain ⟨h1, h2, h3, h4, _⟩ := statsRun_step_account env r i
    obtain ⟨g1, g2, g3, g4⟩ := ih (StatsRun.step env r i)
    exact ⟨le_trans h1 g1, g2.trans h2, le_trans g3 h3, le_trans g4 h4⟩

theorem statsRun_start_weights (s : AbsServerService) (n : Nat) :
    StatsCaller.weigh (fun _ c => c.pending) 0 (StatsRun.start s n).callers = n ∧
    StatsCaller.weigh (fun k c => c.pending * (env k).round) 0 (StatsRun.start s n).callers =
      ((List.range n).map fun i => (env i).round).sum := by
  constructor
  · simp only [StatsRun.start, weigh_replicate, pending_atCheck]
    simp
  · simp only [StatsRun.start, weigh_replicate, pending_atCheck, Nat.one_mul,
      List.range_eq_range']

theorem weigh_returned (w : Nat → Nat) (l : List StatsCaller)
    (h : ∀ c ∈ l, ∃ res, c = .returned res) :
    StatsCaller.weigh (fun k c => c.pending * w k) 0 l = 0 := by
  apply weigh_eq_zero
  intro c hc i
  obtain ⟨res, rfl⟩ := h c hc
  simp only [pending_returned, Nat.zero_mul]

theorem weigh_returned_one (l : List StatsCaller)
    (h : ∀ c ∈ l, ∃ res, c = .returned res) :
    StatsCaller.weigh (fun _ c => c.pending) 0 l = 0 := by
  apply weigh_eq_zero
  intro c hc i
  obtain ⟨res, rfl⟩ := h c hc
  rfl

theorem statsRun_step_past_check (r : StatsRun) (i : Nat)
    (hpast : ∀ c ∈ r.callers, c ≠ .atCheck) :
    ∀ c ∈ (StatsRun.step env r i).callers, c ≠ .atCheck := by
  cases h : r.callers[i]? with
  | none =>
    rw [statsRun_step_none env r i h]
    exact hpast
  | some c =>
    cases c with
    | atCheck => exact absurd rfl (hpast _ (List.getElem?_mem h))
    | atFetch =>
      obtain ⟨c, hp, hs⟩ := statsRun_step_fetch env r i h
      rw [hs]
      intro d hd
      rcases List.mem_or_eq_of_mem_set hd with hm | rfl
      · exact hpast d hm
      · intro he
        rw [he] at hp
        exact absurd hp (by decide)
    | atStore l =>
      rw [statsRun_step_store env r i l h]
      intro d hd
      rcases List.mem_or_eq_of_mem_set hd with hm | rfl
      · exact hpast d hm
      · exact fun he => StatsCaller.noConfusion he
    | returned res =>
      rw [statsRun_step_returned env r i res h]
      exact hpast

theorem statsRun_run_past_check (r : StatsRun) (hpast : ∀ c ∈ r.callers, c ≠ .atCheck)
    (schedule : List Nat) :
    (StatsRun.run env r schedule).getLibrariesCalls +
        StatsCaller.weigh (fun _ c => c.pending) 0 (StatsRun.run env r schedule).callers =
      r.getLibrariesCalls + StatsCaller.weigh (fun _ c => c.pending) 0 r.callers ∧
    (StatsRun.run env r schedule).countCalls +
        StatsCaller.weigh (fun k c => c.pending * (env k).round) 0
          (StatsRun.run env r schedule).callers =
      r.countCalls + StatsCaller.weigh (fun k c => c.pending * (env k).round) 0 r.callers := by
  induction schedule generalizing r with
  | nil => exact ⟨rfl, rfl⟩
  | cons i rest ih =>
    rw [statsRun_run_cons]
    obtain ⟨_, _, _, _, h5⟩ := statsRun_step_account env r i
    obtain ⟨h6, h7⟩ := h5 fun h => absurd rfl (hpast _ (List.getElem?_mem h))
    obtain ⟨g1, g2⟩ := ih (StatsRun.step env r i) (statsRun_step_past_check env r i hpast)
    exact ⟨g1.trans h6, g2.trans h7⟩

theorem statsRun_run_snoc (r : StatsRun) (a : List Nat) (j : Nat) :
    StatsRun.run env r (a ++ [j]) = StatsRun.step env (StatsRun.run env r a) j := by
  rw [statsRun_run_append]
  rfl

/-- Until some caller takes its third step nothing is stored: the service is
the expired one, every check misses, and a caller stands where the number of
its steps puts it. -/
theorem statsRun_run_checks (s : AbsServerService) (n : Nat)
    (hexp : ∀ i, i < n → ¬ (Since (env i).now s.librariesCacheTime < s.cacheExpiry ∧
      s.librariesCache ≠ none))
    (pre : List Nat) (hpre : ∀ i, pre.count i ≤ 2) :
    (StatsRun.run env (StatsRun.start s n) pre).service = s ∧
    (StatsRun.run env (StatsRun.start s n) pre).callers.length = n ∧
    (StatsRun.run env (StatsRun.start s n) pre).getLibrariesCalls +
        StatsCaller.weigh (fun _ c => c.pending) 0
          (StatsRun.run env (StatsRun.start s n) pre).callers = n ∧
    (StatsRun.run env (StatsRun.start s n) pre).countCalls +
        StatsCaller.weigh (fun k c => c.pending * (env k).round) 0
          (StatsRun.run env (StatsRun.start s n) pre).callers =
      ((List.range n).map fun i => (env i).round).sum ∧
    ∀ i c, (StatsRun.run env (StatsRun.start s n) pre).callers[i]? = some c →
      (c = .atCheck → pre.count i = 0) ∧ (c = .atFetch → 1 ≤ pre.count i) ∧
      (∀ l, c = .atStore l → 2 ≤ pre.count i) := by
  induction pre using List.reverseRecOn with
  | nil =>
    obtain ⟨h1, h2⟩ := statsRun_start_weights env s n
    refine ⟨rfl, by simp [StatsRun.run, StatsRun.start], ?_, ?_, ?_⟩
    · simpa [StatsRun.run, StatsRun.start] using h1
    · simpa [StatsRun.run, StatsRun.start] using h2
    · intro i c hc
      simp only [StatsRun.run, StatsRun.start, List.foldl_nil, List.getElem?_replicate] at hc
      split at hc
      · simp only [Option.some.injEq] at hc
        subst hc
        exact ⟨fun _ => rfl, fun h => StatsCaller.noConfusion h,
          fun l h => StatsCaller.noConfusion h⟩
      · exact absurd hc (by simp)
  | append_singleton pre j ih =>
    have hpre2 : ∀ i, pre.count i ≤ 2 := by
      intro i
      have := hpre i
      rw [List.count_append] at this
      omega
    have hcj : pre.count j + 1 ≤ 2 := by
      have := hpre j
      rw [List.count_append, List.count_singleton_self] at this
      exact this
    have hcount : ∀ i, i ≠ j → (pre ++ [j]).count i = pre.count i := by
      intro i hij
      rw [List.count_append, List.count_singleton]
      simp [Ne.symm hij]
    have hcountj : (pre ++ [j]).count j = pre.count j + 1 := by
      rw [List.count_append, List.count_singleton_self]
    obtain ⟨hs, hlen, ha, hb, hst⟩ := ih hpre2
    rw [statsRun_run_snoc]
    generalize StatsRun.run env (StatsRun.start s n) pre = r at hs hlen ha hb hst
    obtain ⟨_, k2, _, _, k5⟩ := statsRun_step_account env r j
    have hstale : r.callers[j]? = some .atCheck →
        ¬ (Since (env j).now r.service.librariesCacheTime < r.service.cacheExpiry ∧
          r.service.librariesCache ≠ none) := by
      intro hj
      rw [hs]
      apply hexp j
      rw [← hlen]
      exact (List.getElem?_eq_some_iff.mp hj).1
    obtain ⟨k6, k7⟩ := k5 hstale
    have hother : ∀ (x : StatsCaller) i c, (r.callers.set j x)[i]? = some c → i ≠ j →
        (c = .atCheck → (pre ++ [j]).count i = 0) ∧
        (c = .atFetch → 1 ≤ (pre ++ [j]).count i) ∧
        (∀ l, c = .atStore l → 2 ≤ (pre ++ [j]).count i) := by
      intro x i c hc hij
      rw [List.getElem?_set_ne (Ne.symm hij)] at hc
      rw [hcount i hij]
      exact hst i c hc
    have hself : ∀ (x : StatsCaller) c, (r.callers.set j x)[j]? = some c → c = x := by
      intro x c hc
      by_cases hjl : j < r.callers.length
      · rw [List.getElem?_set_self hjl] at hc
        exact (Option.some.inj hc).symm
      · rw [List.getElem?_eq_none (by simpa using hjl)] at hc
        exact absurd hc (by simp)
    refine ⟨?_, k2.trans hlen, k6.trans ha, k7.trans hb, ?_⟩
    · cases h : r.callers[j]? with
      | none => rw [statsRun_step_none env r j h]; exact hs
      | some c =>
        cases c with
        | atCheck => rw [statsRun_step_miss env r j h (hstale h)]; exact hs
        | atFetch =>
          obtain ⟨c, _, hstep⟩ := statsRun_step_fetch env r j h
          rw [hstep]
          exact hs
        | atStore l =>
          have := (hst j _ h).2.2 l rfl
          omega
        | returned res => rw [statsRun_step_returned env r j res h]; exact hs
    · cases h : r.callers[j]? with
      | none =>
        rw [statsRun_step_none env r j h]
        intro i c hc
        have hij : i ≠ j := by
          intro e
          rw [e, h] at hc
          exact absurd hc (by simp)
        rw [hcount i hij]
        exact hst i c hc
      | some d =>
        cases d with
        | atCheck =>
          rw [statsRun_step_miss env r j h (hstale h)]
          intro i c hc
          by_cases hij : i = j
          · subst hij
            have := hself _ c hc
            subst this
            refine ⟨fun e => StatsCaller.noConfusion e, fun _ => ?_,
              fun l e => StatsCaller.noConfusion e⟩
            rw [hcountj]
            omega
          · exact hother _ i c hc hij
        | atFetch =>
          obtain ⟨x, hx, hstep⟩ := statsRun_step_fetch env r j h
          rw [hstep]
          intro i c hc
          by_cases hij : i = j
          · subst hij
            have := hself _ c hc
            subst this
            have h1 := (hst i _ h).2.1 rfl
            refine ⟨fun e => ?_, fun e => ?_, fun l _ => ?_⟩
            · rw [e] at hx
              exact absurd hx (by decide)
            · rw [e] at hx
              exact absurd hx (by decide)
            · rw [hcountj]
              omega
          · exact hother _ i c hc hij
        | atStore l =>
          have := (hst j _ h).2.2 l rfl
          omega
        | returned res =>
          rw [statsRun_step_returned env r j res h]
          intro i c hc
          by_cases hij : i = j
          · subst hij
            rw [h] at hc
            have := (Option.some.inj hc).symm
            subst this
            exact ⟨fun e => StatsCaller.noConfusion e, fun e => StatsCaller.noConfusion e,
              fun l e => StatsCaller.noConfusion e⟩
          · rw [hcount i hij]
            exact hst i c hc

/-- Either a refetch has been made, or nothing has been stored and every
caller has still to refetch. -/
theorem statsRun_run_first (s : AbsServerService) (n : Nat)
    (hexp : ∀ i, i < n → ¬ (Since (env i).now s.librariesCacheTime < s.cacheExpiry ∧
      s.librariesCache ≠ none))
    (r : StatsRun)
    (hr : 1 ≤ r.getLibrariesCalls ∨
      (r.service = s ∧ r.callers.length = n ∧ ∀ c ∈ r.callers, c = .atCheck ∨ c = .atFetch))
    (schedule : List Nat) :
    1 ≤ (StatsRun.run env r schedule).getLibrariesCalls ∨
      ((StatsRun.run env r schedule).service = s ∧
        (StatsRun.run env r schedule).callers.length = n ∧
        ∀ c ∈ (StatsRun.run env r schedule).callers, c = .atCheck ∨ c = .atFetch) := by
  induction schedule generalizing r with
  | nil => exact hr
  | cons i rest ih =>
    rw [statsRun_run_cons]
    apply ih
    rcases hr with hr | ⟨hs, hlen, hall⟩
    · exact Or.inl (le_trans hr (statsRun_step_account env r i).1)
    · cases h : r.callers[i]? with
      | none =>
        rw [statsRun_step_none env r i h]
        exact Or.inr ⟨hs, hlen, hall⟩
      | some c =>
        cases c with
        | atCheck =>
          have hstale : ¬ (Since (env i).now r.service.librariesCacheTime <
              r.service.cacheExpiry ∧ r.service.librariesCache ≠ none) := by
            rw [hs]
            apply hexp i
            rw [← hlen]
            exact (List.getElem?_eq_some_iff.mp h).1
          rw [statsRun_step_miss env r i h hstale]
          refine Or.inr ⟨hs, by simpa using hlen, ?_⟩
          intro d hd
          rcases List.mem_or_eq_of_mem_set hd with hm | rfl
          · exact hall d hm
          · exact Or.inr rfl
        | atFetch =>
          obtain ⟨c, _, hstep⟩ := statsRun_step_fetch env r i h
          rw [hstep]
          exact Or.inl (Nat.le_add_left 1 _)
        | atStore l =>
          rcases hall _ (List.getElem?_mem h) with e | e <;> exact StatsCaller.noConfusion e
        | returned res =>
          rcases hall _ (List.getElem?_mem h) with e | e <;> exact StatsCaller.noConfusion e

/-- Once caller `j` has stored a list that is fresh for every other caller,
the others return it from their check and no further adapter call is made. -/
theorem statsRun_run_served (n j : Nat) (now : Time) (expiry : Duration) (calls counts : Nat)
    (hfresh : ∀ i, i < n → i ≠ j → Since (env i).now now < expiry)
    (r : StatsRun)
    (hr : r.service.cacheExpiry = expiry ∧ r.service.librariesCacheTime = now ∧
      r.service.librariesCache ≠ none ∧ r.callers.length = n ∧
      r.getLibrariesCalls = calls ∧ r.countCalls = counts ∧
      ∀ i c, r.callers[i]? = some c → (c = .atCheck ∧ i ≠ j) ∨ ∃ res, c = .returned res)
    (schedule : List Nat) :
    (StatsRun.run env r schedule).getLibrariesCalls = calls ∧
    (StatsRun.run env r schedule).countCalls = counts := by
  induction schedule generalizing r with
  | nil => exact ⟨hr.2.2.2.2.1, hr.2.2.2.2.2.1⟩
  | cons i rest ih =>
    rw [statsRun_run_cons]
    apply ih
    obtain ⟨h1, h2, h3, h4, h5, h6, h7⟩ := hr
    cases h : r.callers[i]? with
    | none =>
      rw [statsRun_step_none env r i h]
      exact ⟨h1, h2, h3, h4, h5, h6, h7⟩
    | some c =>
      cases c with
      | atCheck =>
        have hij : i ≠ j := by
          rcases h7 i _ h with ⟨_, e⟩ | ⟨res, e⟩
          · exact e
          · exact StatsCaller.noConfusion e
        have hi : i < n := by
          rw [← h4]
          exact (List.getElem?_eq_some_iff.mp h).1
        have hc : Since (env i).now r.service.librariesCacheTime < r.service.cacheExpiry ∧
            r.service.librariesCache ≠ none := by
          rw [h1, h2]
          exact ⟨hfresh i hi hij, h3⟩
        rw [statsRun_step_hit env r i h hc]
        refine ⟨h1, h2, h3, by simpa using h4, h5, h6, ?_⟩
        intro k c hk
        by_cases hki : k = i
        · subst hki
          rw [List.getElem?_set_self (List.getElem?_eq_some_iff.mp h).1] at hk
          exact Or.inr ⟨_, (Option.some.inj hk).symm⟩
        · rw [List.getElem?_set_ne (Ne.symm hki)] at hk
          exact h7 k c hk
      | atFetch =>
        rcases h7 i _ h with ⟨e, _⟩ | ⟨res, e⟩ <;> exact StatsCaller.noConfusion e
      | atStore l =>
        rcases h7 i _ h with ⟨e, _⟩ | ⟨res, e⟩ <;> exact StatsCaller.noConfusion e
      | returned res =>
        rw [statsRun_step_returned env r i res h]
        exact ⟨h1, h2, h3, h4, h5, h6, h7⟩

/-- The run in which caller `j` runs its three sections before anybody else
takes a step. -/
theorem statsRun_run_one_first (s : AbsServerService) (n j : Nat) (hj : j < n)
    (hstale : ¬ (Since (env j).now s.librariesCacheTime < s.cacheExpiry ∧
      s.librariesCache ≠ none))
    (libraries : List LibraryInfo) (hl : (env j).GetLibraries = .ok libraries) :
    StatsRun.run env (StatsRun.start s n) [j, j, j] =
      { service :=
          { s with
            librariesCache := some ((inOrder libraries.enum (env j).order).foldl
              (AbsServerService.GetLibrariesWithStats.worker (env j))
              (List.replicate libraries.length {})),
            librariesCacheTime := (env j).now },
        callers := (List.replicate n StatsCaller.atCheck).set j
          (.returned (.ok ((inOrder libraries.enum (env j).order).foldl
            (AbsServerService.GetLibrariesWithStats.worker (env j))
            (List.replicate libraries.length {})))),
        getLibrariesCalls := 1,
        countCalls := libraries.length } := by
  have h0 : (StatsRun.start s n).callers[j]? = some .atCheck := by
    simp [StatsRun.start, List.getElem?_replicate, hj]
  rw [statsRun_run_cons, statsRun_step_miss env _ j h0 hstale]
  have h1 : ((StatsRun.start s n).callers.set j StatsCaller.atFetch)[j]? = some .atFetch := by
    rw [List.getElem?_set_self (by simpa [StatsRun.start] using hj)]
  rw [statsRun_run_cons, statsRun_step_fetch_ok env _ j h1 libraries hl]
  rw [statsRun_run_cons, statsRun_step_store env _ j _
    (by simp only [List.set_set]; rw [List.getElem?_set_self (by simpa [StatsRun.start] using hj)])]
  simp [StatsRun.run, StatsRun.start]

/-- Concurrent callers of the Audiobookshelf service that find the cache
expired: the bounds on the adapter calls, the run in which every caller checks
before any caller stores, and the run in which one caller completes first. -/
theorem statsRun_concurrent (s : AbsServerService) (n : Nat)
    (hexp : ∀ i, i < n → ¬ (Since (env i).now s.librariesCacheTime < s.cacheExpiry ∧
      s.librariesCache ≠ none)) :
    (∀ schedule : List Nat,
      (StatsRun.run env (StatsRun.start s n) schedule).getLibrariesCalls ≤ n ∧
      (StatsRun.run env (StatsRun.start s n) schedule).countCalls ≤
        ((List.range n).map fun i => (env i).round).sum) ∧
    (∀ schedule : List Nat, 0 < n →
      (∀ c ∈ (StatsRun.run env (StatsRun.start s n) schedule).callers,
        ∃ res, c = .returned res) →
      1 ≤ (StatsRun.run env (StatsRun.start s n) schedule).getLibrariesCalls) ∧
    (∀ pre rest : List Nat, (∀ i, i < n → i ∈ pre) → (∀ i, pre.count i ≤ 2) →
      (∀ c ∈ (StatsRun.run env (StatsRun.start s n) (pre ++ rest)).callers,
        ∃ res, c = .returned res) →
      (StatsRun.run env (StatsRun.start s n) (pre ++ rest)).getLibrariesCalls = n ∧
      (StatsRun.run env (StatsRun.start s n) (pre ++ rest)).countCalls =
        ((List.range n).map fun i => (env i).round).sum) ∧
    (∀ (j : Nat) (libraries : List LibraryInfo) (rest : List Nat), j < n →
      (env j).GetLibraries = .ok libraries →
      (∀ i, i < n → i ≠ j → Since (env i).now (env j).now < s.cacheExpiry) →
      (StatsRun.run env (StatsRun.start s n) ([j, j, j] ++ rest)).getLibrariesCalls = 1 ∧
      (StatsRun.run env (StatsRun.start s n) ([j, j, j] ++ rest)).countCalls =
        libraries.length) := by
  obtain ⟨hw1, hw2⟩ := statsRun_start_weights env s n
  refine ⟨?_, ?_, ?_, ?_⟩
  · intro schedule
    obtain ⟨_, _, h3, h4⟩ := statsRun_run_account env (StatsRun.start s n) schedule
    rw [hw1] at h3
    rw [hw2] at h4
    have e1 : (StatsRun.start s n).getLibrariesCalls = 0 := rfl
    have e2 : (StatsRun.start s n).countCalls = 0 := rfl
    rw [e1] at h3
    rw [e2] at h4
    constructor
    · omega
    · omega
  · intro schedule hn hall
    rcases statsRun_run_first env s n hexp (StatsRun.start s n)
      (Or.inr ⟨rfl, by simp [StatsRun.start], by
        intro c hc
        simp only [StatsRun.start, List.mem_replicate] at hc
        exact Or.inl hc.2⟩) schedule with h | ⟨_, hlen, hpend⟩
    · exact h
    · have h0 : 0 < (StatsRun.run env (StatsRun.start s n) schedule).callers.length := by
        rw [hlen]
        exact hn
      have hmem := List.getElem_mem h0
      obtain ⟨res, hres⟩ := hall _ hmem
      rcases hpend _ hmem with e | e <;>
        · rw [hres] at e
          exact StatsCaller.noConfusion e
  · intro pre rest hin hcount hall
    obtain ⟨_, hlen, ha, hb, hst⟩ := statsRun_run_checks env s n hexp pre hcount
    rw [statsRun_run_append] at hall ⊢
    have hpast : ∀ c ∈ (StatsRun.run env (StatsRun.start s n) pre).callers,
        c ≠ .atCheck := by
      intro c hc he
      obtain ⟨i, hi, hci⟩ := List.getElem_of_mem hc
      have hsome : (StatsRun.run env (StatsRun.start s n) pre).callers[i]? = some c := by
        rw [List.getElem?_eq_getElem hi, hci]
      have h0 := (hst i c hsome).1 he
      have h1 : 0 < pre.count i := List.count_pos_iff.mpr (hin i (by rw [← hlen]; exact hi))
      omega
    obtain ⟨g1, g2⟩ := statsRun_run_past_check env _ hpast rest
    rw [weigh_returned_one _ hall, Nat.add_zero] at g1
    rw [weigh_returned _ _ hall, Nat.add_zero] at g2
    exact ⟨g1.trans ha, g2.trans hb⟩
  · intro j libraries rest hj hl hfresh
    rw [statsRun_run_append, statsRun_run_one_first env s n j hj (hexp j hj) libraries hl]
    apply statsRun_run_served env n j (env j).now s.cacheExpiry 1 libraries.length hfresh
    refine ⟨rfl, rfl, by simp, by simp, rfl, rfl, ?_⟩
    intro i c hc
    by_cases hij : i = j
    · subst hij
      simp only at hc
      rw [List.getElem?_set_self (by simpa using hj)] at hc
      exact Or.inr ⟨_, (Option.some.inj hc).symm⟩
    · simp only at hc
      rw [List.getElem?_set_ne (Ne.symm hij), List.getElem?_replicate] at hc
      split at hc
      · exact Or.inl ⟨(Option.some.inj hc).symm, hij⟩
      · exact absurd hc (by simp)

theorem embyStats_worker_eq :
    EmbyServerService.GetLibrariesWithStats.worker =
      AbsServerService.GetLibrariesWithStats.worker := by
  funext e slots t
  unfold EmbyServerService.GetLibrariesWithStats.worker
    AbsServerService.GetLibrariesWithStats.worker
  cases e.GetLibraryItemsCount t.1 t.2.ID <;> rfl

/-- A step of a caller of the Emby service is the step of a caller of the
Audiobookshelf service on the same cache. -/
theorem embyStatsRun_step_asAbs (r : EmbyStatsRun) (i : Nat) :
    (EmbyStatsRun.step env r i).asAbs = StatsRun.step env r.asAbs i := by
  have hcallers : r.asAbs.callers = r.callers := rfl
  cases h : r.callers[i]? with
  | none => simp only [EmbyStatsRun.step, StatsRun.step, hcallers, h]
  | some c =>
    cases c with
    | atCheck =>
      by_cases hc : Since (env i).now r.service.librariesCacheTime < r.service.cacheExpiry ∧
          r.service.librariesCache ≠ none
      · have hc2 : Since (env i).now r.asAbs.service.librariesCacheTime <
            r.asAbs.service.cacheExpiry ∧ r.asAbs.service.librariesCache ≠ none := hc
        simp only [EmbyStatsRun.step, StatsRun.step, hcallers, h]
        rw [if_pos hc, if_pos hc2]
        rfl
      · have hc2 : ¬ (Since (env i).now r.asAbs.service.librariesCacheTime <
            r.asAbs.service.cacheExpiry ∧ r.asAbs.service.librariesCache ≠ none) := hc
        simp only [EmbyStatsRun.step, StatsRun.step, hcallers, h]
        rw [if_neg hc, if_neg hc2]
        rfl
    | atFetch =>
      cases hl : (env i).GetLibraries with
      | error err =>
        simp only [EmbyStatsRun.step, StatsRun.step, hcallers, h, hl]
        rfl
      | ok libraries =>
        simp only [EmbyStatsRun.step, StatsRun.step, hcallers, h, hl, embyStats_worker_eq]
        rfl
    | atStore l =>
      simp only [EmbyStatsRun.step, StatsRun.step, hcallers, h]
      rfl
    | returned res => simp only [EmbyStatsRun.step, StatsRun.step, hcallers, h]

theorem embyStatsRun_run_asAbs (r : EmbyStatsRun) (schedule : List Nat) :
    (EmbyStatsRun.run env r schedule).asAbs = StatsRun.run env r.asAbs schedule := by
  induction schedule generalizing r with
  | nil => rfl
  | cons i rest ih =>
    have e1 : EmbyStatsRun.run env r (i :: rest) =
        EmbyStatsRun.run env (EmbyStatsRun.step env r i) rest := rfl
    rw [e1, ih, embyStatsRun_step_asAbs, statsRun_run_cons]

/-- Concurrent callers of the Emby service that find the cache expired. -/
theorem embyStatsRun_concurrent (s : EmbyServerService) (n : Nat)
    (hexp : ∀ i, i < n → ¬ (Since (env i).now s.librariesCacheTime < s.cacheExpiry ∧
      s.librariesCache ≠ none)) :
    (∀ schedule : List Nat,
      (EmbyStatsRun.run env (EmbyStatsRun.start s n) schedule).getLibrariesCalls ≤ n ∧
      (EmbyStatsRun.run env (EmbyStatsRun.start s n) schedule).countCalls ≤
        ((List.range n).map fun i => (env i).round).sum) ∧
    (∀ schedule : List Nat, 0 < n →
      (∀ c ∈ (EmbyStatsRun.run env (EmbyStatsRun.start s n) schedule).callers,
        ∃ res, c = .returned res) →
      1 ≤ (EmbyStatsRun.run env (EmbyStatsRun.start s n) schedule).getLibrariesCalls) ∧
    (∀ pre rest : List Nat, (∀ i, i < n → i ∈ pre) → (∀ i, pre.count i ≤ 2) →
      (∀ c ∈ (EmbyStatsRun.run env (EmbyStatsRun.start s n) (pre ++ rest)).callers,
        ∃ res, c = .returned res) →
      (EmbyStatsRun.run env (EmbyStatsRun.start s n) (pre ++ rest)).getLibrariesCalls = n ∧
      (EmbyStatsRun.run env (EmbyStatsRun.start s n) (pre ++ rest)).countCalls =
        ((List.range n).map fun i => (env i).round).sum) ∧
    (∀ (j : Nat) (libraries : List LibraryInfo) (rest : List Nat), j < n →
      (env j).GetLibraries = .ok libraries →
      (∀ i, i < n → i ≠ j → Since (env i).now (env j).now < s.cacheExpiry) →
      (EmbyStatsRun.run env (EmbyStatsRun.start s n) ([j, j, j] ++ rest)).getLibrariesCalls = 1 ∧
      (EmbyStatsRun.run env (EmbyStatsRun.start s n) ([j, j, j] ++ rest)).countCalls =
        libraries.length) := by
  have key : ∀ schedule : List Nat,
      (EmbyStatsRun.run env (EmbyStatsRun.start s n) schedule).asAbs =
        StatsRun.run env (StatsRun.start s.asAbs n) schedule :=
    fun schedule => embyStatsRun_run_asAbs env _ schedule
  have hcalls : ∀ schedule : List Nat,
      (EmbyStatsRun.run env (EmbyStatsRun.start s n) schedule).getLibrariesCalls =
        (StatsRun.run env (StatsRun.start s.asAbs n) schedule).getLibrariesCalls :=
    fun schedule => congrArg StatsRun.getLibrariesCalls (key schedule)
  have hcounts : ∀ schedule : List Nat,
      (EmbyStatsRun.run env (EmbyStatsRun.start s n) schedule).countCalls =
        (StatsRun.run env (StatsRun.start s.asAbs n) schedule).countCalls :=
    fun schedule => congrArg StatsRun.countCalls (key schedule)
  have hcallers : ∀ schedule : List Nat,
      (EmbyStatsRun.run env (EmbyStatsRun.start s n) schedule).callers =
        (StatsRun.run env (StatsRun.start s.asAbs n) schedule).callers :=
    fun schedule => congrArg StatsRun.callers (key schedule)
  obtain ⟨h1, h2, h3, h4⟩ := statsRun_concurrent env s.asAbs n hexp
  refine ⟨?_, ?_, ?_, ?_⟩
  · intro schedule
    rw [hcalls, hcounts]
    exact h1 schedule
  · intro schedule hn hall
    rw [hcalls]
    rw [hcallers] at hall
    exact h2 schedule hn hall
  · intro pre rest hin hcount hall
    rw [hcalls, hcounts]
    rw [hcallers] at hall
    exact h3 pre rest hin hcount hall
  · intro j libraries rest hj hl hfresh
    rw [hcalls, hcounts]
    exact h4 j libraries rest hj hl hfresh

end ConcurrentCallers

/-- C9, the sentence as written fails, for both services: the cache was
populated at time `0`; two callers arrive at `5 * Minute` and both run the
read-locked check before either stores; each makes its own `GetLibraries`
call and its own round of count calls, two refetches instead of one. -/
theorem statsCache_concurrent_refetch :
    (StatsRun.run (fun _ => exampleStatsEnv (5 * Minute))
      (StatsRun.start
        (NewAbsServerService.GetLibrariesWithStats (exampleStatsEnv 0)).service 2)
      [0, 1, 0, 1, 0, 1]).getLibrariesCalls = 2 ∧
    (StatsRun.run (fun _ => exampleStatsEnv (5 * Minute))
      (StatsRun.start
        (NewAbsServerService.GetLibrariesWithStats (exampleStatsEnv 0)).service 2)
      [0, 1, 0, 1, 0, 1]).countCalls = 4 ∧
    (StatsRun.run (fun _ => exampleStatsEnv (5 * Minute))
      (StatsRun.start
        (NewAbsServerService.GetLibrariesWithStats (exampleStatsEnv 0)).service 2)
      [0, 1, 0, 1, 0, 1]).callers =
      [.returned (.ok [{ LibraryInfo := { ID := "1", Name := "Books" }, ItemCount := 10 },
                       { LibraryInfo := { ID := "x", Name := "Movies" }, ItemCount := 0 }]),
       .returned (.ok [{ LibraryInfo := { ID := "1", Name := "Books" }, ItemCount := 10 },
                       { LibraryInfo := { ID := "x", Name := "Movies" }, ItemCount := 0 }])] ∧
    (EmbyStatsRun.run (fun _ => exampleStatsEnv (5 * Minute))
      (EmbyStatsRun.start
        (NewEmbyServerService.GetLibrariesWithStats (exampleStatsEnv 0)).service 2)
      [0, 1, 0, 1, 0, 1]).getLibrariesCalls = 2 ∧
    (EmbyStatsRun.run (fun _ => exampleStatsEnv (5 * Minute))
      (EmbyStatsRun.start
        (NewEmbyServerService.GetLibrariesWithStats (exampleStatsEnv 0)).service 2)
      [0, 1, 0, 1, 0, 1]).countCalls = 4 ∧
    (EmbyStatsRun.run (fun _ => exampleStatsEnv (5 * Minute))
      (EmbyStatsRun.start
        (NewEmbyServerService.GetLibrariesWithStats (exampleStatsEnv 0)).service 2)
      [0, 1, 0, 1, 0, 1]).callers =
      [.returned (.ok [{ LibraryInfo := { ID := "1", Name := "Books" }, ItemCount := 10 },
                       { LibraryInfo := { ID := "x", Name := "Movies" }, ItemCount := 0 }]),
       .returned (.ok [{ LibraryInfo := { ID := "1", Name := "Books" }, ItemCount := 10 },
                       { LibraryInfo := { ID := "x", Name := "Movies" }, ItemCount := 0 }])] := by
  decide

/-- C9 as amended, for both services: `n` callers call `GetLibrariesWithStats`
concurrently and each finds the stats cache expired.  At every point of every
schedule at most `n` `GetLibraries` calls and at most `n` rounds of count
calls have been made, and at least one `GetLibraries` call once all callers
have returned.  When every caller runs its check before any caller stores
(in `pre` each caller takes a step and none takes a third one) and all callers
have returned, each caller has made its own refetch: `n` `GetLibraries` calls
and `n` rounds of count calls, the miss not being checked again under the
write lock.  When caller `j` runs its three sections first, its fetch succeeds
and its store is fresh for every other caller, one `GetLibraries` call and one
round of count calls are made, whatever the others do afterwards. -/
theorem statsCache_concurrent_spec (env : Nat → StatsEnv) (sAbs : AbsServerService)
    (sEmby : EmbyServerService) (n : Nat)
    (hAbs : ∀ i, i < n →
      ¬ (Since (env i).now sAbs.librariesCacheTime < sAbs.cacheExpiry ∧
        sAbs.librariesCache ≠ none))
    (hEmby : ∀ i, i < n →
      ¬ (Since (env i).now sEmby.librariesCacheTime < sEmby.cacheExpiry ∧
        sEmby.librariesCache ≠ none)) :
    ((∀ schedule : List Nat,
        (StatsRun.run env (StatsRun.start sAbs n) schedule).getLibrariesCalls ≤ n ∧
        (StatsRun.run env (StatsRun.start sAbs n) schedule).countCalls ≤
          ((List.range n).map fun i => (env i).round).sum) ∧
      (∀ schedule : List Nat, 0 < n →
        (∀ c ∈ (StatsRun.run env (StatsRun.start sAbs n) schedule).callers,
          ∃ res, c = .returned res) →
        1 ≤ (StatsRun.run env (StatsRun.start sAbs n) schedule).getLibrariesCalls) ∧
      (∀ pre rest : List Nat, (∀ i, i < n → i ∈ pre) → (∀ i, pre.count i ≤ 2) →
        (∀ c ∈ (StatsRun.run env (StatsRun.start sAbs n) (pre ++ rest)).callers,
          ∃ res, c = .returned res) →
        (StatsRun.run env (StatsRun.start sAbs n) (pre ++ rest)).getLibrariesCalls = n ∧
        (StatsRun.run env (StatsRun.start sAbs n) (pre ++ rest)).countCalls =
          ((List.range n).map fun i => (env i).round).sum) ∧
      (∀ (j : Nat) (libraries : List LibraryInfo) (rest : List Nat), j < n →
        (env j).GetLibraries = .ok libraries →
        (∀ i, i < n → i ≠ j → Since (env i).now (env j).now < sAbs.cacheExpiry) →
        (StatsRun.run env (StatsRun.start sAbs n) ([j, j, j] ++ rest)).getLibrariesCalls = 1 ∧
        (StatsRun.run env (StatsRun.start sAbs n) ([j, j, j] ++ rest)).countCalls =
          libraries.length)) ∧
    ((∀ schedule : List Nat,
        (EmbyStatsRun.run env (EmbyStatsRun.start sEmby n) schedule).getLibrariesCalls ≤ n ∧
        (EmbyStatsRun.run env (EmbyStatsRun.start sEmby n) schedule).countCalls ≤
          ((List.range n).map fun i => (env i).round).sum) ∧
      (∀ schedule : List Nat, 0 < n →
        (∀ c ∈ (EmbyStatsRun.run env (EmbyStatsRun.start sEmby n) schedule).callers,
          ∃ res, c = .returned res) →
        1 ≤ (EmbyStatsRun.run env (EmbyStatsRun.start sEmby n) schedule).getLibrariesCalls) ∧
      (∀ pre rest : List Nat, (∀ i, i < n → i ∈ pre) → (∀ i, pre.count i ≤ 2) →
        (∀ c ∈ (EmbyStatsRun.run env (EmbyStatsRun.start sEmby n) (pre ++ rest)).callers,
          ∃ res, c = .returned res) →
        (EmbyStatsRun.run env (EmbyStatsRun.start sEmby n) (pre ++ rest)).getLibrariesCalls = n ∧
        (EmbyStatsRun.run env (EmbyStatsRun.start sEmby n) (pre ++ rest)).countCalls =
          ((List.range n).map fun i => (env i).round).sum) ∧
      (∀ (j : Nat) (libraries : List LibraryInfo) (rest : List Nat), j < n →
        (env j).GetLibraries = .ok libraries →
        (∀ i, i < n → i ≠ j → Since (env i).now (env j).now < sEmby.cacheExpiry) →
        (EmbyStatsRun.run env (EmbyStatsRun.start sEmby n) ([j, j, j] ++ rest)).getLibrariesCalls = 1 ∧
        (EmbyStatsRun.run env (EmbyStatsRun.start sEmby n) ([j, j, j] ++ rest)).countCalls =
          libraries.length)) :=
  ⟨statsRun_concurrent env sAbs n hAbs, embyStatsRun_concurrent env sEmby n hEmby⟩

/-- C9 as amended, instantiated: the cache was populated at time `0` and two
callers arrive at `5 * Minute`.  When both check before either stores, two
refetches are made; when caller `0` completes before caller `1` starts, one. -/
theorem statsCache_concurrent_spec_witness :
    (∀ i, i < 2 →
      ¬ (Since (exampleStatsEnv (5 * Minute)).now
          (NewAbsServerService.GetLibrariesWithStats (exampleStatsEnv 0)).service.librariesCacheTime
            < (NewAbsServerService.GetLibrariesWithStats (exampleStatsEnv 0)).service.cacheExpiry ∧
        (NewAbsServerService.GetLibrariesWithStats (exampleStatsEnv 0)).service.librariesCache
          ≠ none)) ∧
    (StatsRun.run (fun _ => exampleStatsEnv (5 * Minute))
      (StatsRun.start
        (NewAbsServerService.GetLibrariesWithStats (exampleStatsEnv 0)).service 2)
      ([0, 1] ++ [1, 0, 0, 1])).getLibrariesCalls = 2 ∧
    (EmbyStatsRun.run (fun _ => exampleStatsEnv (5 * Minute))
      (EmbyStatsRun.start
        (NewEmbyServerService.GetLibrariesWithStats (exampleStatsEnv 0)).service 2)
      ([0, 1] ++ [1, 0, 0, 1])).countCalls = 4 ∧
    (StatsRun.run (fun _ => exampleStatsEnv (5 * Minute))
      (StatsRun.start
        (NewAbsServerService.GetLibrariesWithStats (exampleStatsEnv 0)).service 2)
      ([0, 0, 0] ++ [1, 1, 1])).getLibrariesCalls = 1 ∧
    (EmbyStatsRun.run (fun _ => exampleStatsEnv (5 * Minute))
      (EmbyStatsRun.start
        (NewEmbyServerService.GetLibrariesWithStats (exampleStatsEnv 0)).service 2)
      ([0, 0, 0] ++ [1, 1, 1])).countCalls = 2 := by
  have hAbs : ∀ i, i < 2 →
      ¬ (Since (exampleStatsEnv (5 * Minute)).now
          (NewAbsServerService.GetLibrariesWithStats (exampleStatsEnv 0)).service.librariesCacheTime
            < (NewAbsServerService.GetLibrariesWithStats (exampleStatsEnv 0)).service.cacheExpiry ∧
        (NewAbsServerService.GetLibrariesWithStats (exampleStatsEnv 0)).service.librariesCache
          ≠ none) := fun _ _ => by decide
  have hEmby : ∀ i, i < 2 →
      ¬ (Since (exampleStatsEnv (5 * Minute)).now
          (NewEmbyServerService.GetLibrariesWithStats (exampleStatsEnv 0)).service.librariesCacheTime
            < (NewEmbyServerService.GetLibrariesWithStats (exampleStatsEnv 0)).service.cacheExpiry ∧
        (NewEmbyServerService.GetLibrariesWithStats (exampleStatsEnv 0)).service.librariesCache
          ≠ none) := fun _ _ => by decide
  obtain ⟨⟨_, _, a3, a4⟩, ⟨_, _, e3, e4⟩⟩ :=
    statsCache_concurrent_spec (fun _ => exampleStatsEnv (5 * Minute))
      (NewAbsServerService.GetLibrariesWithStats (exampleStatsEnv 0)).service
      (NewEmbyServerService.GetLibrariesWithStats (exampleStatsEnv 0)).service 2 hAbs hEmby
  have hin : ∀ i, i < 2 → i ∈ [0, 1] := by
    intro i hi
    interval_cases i <;> simp
  have hcount : ∀ i, [0, 1].count i ≤ 2 := fun i => List.count_le_length _ _
  have hfresh : ∀ i, i < 2 → i ≠ 0 →
      Since (exampleStatsEnv (5 * Minute)).now (exampleStatsEnv (5 * Minute)).now <
        (NewAbsServerService.GetLibrariesWithStats (exampleStatsEnv 0)).service.cacheExpiry :=
    fun _ _ _ => by decide
  have hfreshE : ∀ i, i < 2 → i ≠ 0 →
      Since (exampleStatsEnv (5 * Minute)).now (exampleStatsEnv (5 * Minute)).now <
        (NewEmbyServerService.GetLibrariesWithStats (exampleStatsEnv 0)).service.cacheExpiry :=
    fun _ _ _ => by decide
  refine ⟨hAbs, (a3 [0, 1] [1, 0, 0, 1] hin hcount ?_).1, (e3 [0, 1] [1, 0, 0, 1] hin hcount ?_).2,
    (a4 0 exampleStatsLibraries [1, 1, 1] (by decide) rfl hfresh).1,
    (e4 0 exampleStatsLibraries [1, 1, 1] (by decide) rfl hfreshE).2⟩
  · intro c hc
    have hcallers : (StatsRun.run (fun _ => exampleStatsEnv (5 * Minute))
        (StatsRun.start
          (NewAbsServerService.GetLibrariesWithStats (exampleStatsEnv 0)).service 2)
        ([0, 1] ++ [1, 0, 0, 1])).callers =
        [.returned (.ok [{ LibraryInfo := { ID := "1", Name := "Books" }, ItemCount := 10 },
                         { LibraryInfo := { ID := "x", Name := "Movies" }, ItemCount := 0 }]),
         .returned (.ok [{ LibraryInfo := { ID := "1", Name := "Books" }, ItemCount := 10 },
                         { LibraryInfo := { ID := "x", Name := "Movies" }, ItemCount := 0 }])] := by
      decide
    rw [hcallers] at hc
    simp only [List.mem_cons, List.mem_singleton, List.not_mem_nil, or_false, or_self] at hc
    exact ⟨_, hc⟩
  · intro c hc
    have hcallers : (EmbyStatsRun.run (fun _ => exampleStatsEnv (5 * Minute))
        (EmbyStatsRun.start
          (NewEmbyServerService.GetLibrariesWithStats (exampleStatsEnv 0)).service 2)
        ([0, 1] ++ [1, 0, 0, 1])).callers =
        [.returned (.ok [{ LibraryInfo := { ID := "1", Name := "Books" }, ItemCount := 10 },
                         { LibraryInfo := { ID := "x", Name := "Movies" }, ItemCount := 0 }]),
         .returned (.ok [{ LibraryInfo := { ID := "1", Name := "Books" }, ItemCount := 10 },
                         { LibraryInfo := { ID := "x", Name := "Movies" }, ItemCount := 0 }])] := by
      decide
    rw [hcallers] at hc
    simp only [List.mem_cons, List.mem_singleton, List.not_mem_nil, or_false, or_self] at hc
    exact ⟨_, hc⟩

/-! ## Audiobookshelf adapter: the library-name cache -/

/-- The lookup loop returns the name of the first library with the id, and
the empty string when there is none. -/
theorem lookupLibraryName_eq_find (libs : List LibraryInfo) (libraryID : String) :
    lookupLibraryName libs libraryID =
      ((libs.find? (fun lib => decide (lib.ID = libraryID))).map LibraryInfo.Name).getD "" := by
  induction libs with
  | nil => rfl
  | cons lib rest ih =>
    by_cases h : lib.ID = libraryID
    · simp [lookupLibraryName, List.find?, h]
    · simp [lookupLibraryName, List.find?, h, ih]

theorem find_toLibraryInfo (libraries : List AbsLibraryInfo) (libraryID : String) :
    (((libraries.map AbsLibraryInfo.toLibraryInfo).find?
        (fun lib => decide (lib.ID = libraryID))).map LibraryInfo.Name).getD "" =
      ((libraries.find? (fun lib => decide (lib.ID = libraryID))).map
        AbsLibraryInfo.Name).getD "" := by
  induction libraries with
  | nil => rfl
  | cons lib rest ih =>
    by_cases h : lib.ID = libraryID
    · simp [List.find?, AbsLibraryInfo.toLibraryInfo, h]
    · simpa [List.find?, AbsLibraryInfo.toLibraryInfo, h] using ih

/-- A lookup that misses the cache and whose fetch fails. -/
theorem getLibraryNameByID_miss_error (a : AbsAdapter) (env : LookupEnv) (libraryID : String)
    (err : Error)
    (hmiss : a.librariesCache = none ∨ Since env.now a.librariesCacheTime ≥ a.cacheExpiry)
    (hfail : env.GetLibrariesInfo = .error err) :
    a.getLibraryNameByID env libraryID =
      { name := lookupLibraryName (a.librariesCache.getD []) libraryID,
        adapter := { a with librariesCacheTime := env.now },
        fetches := 1 } := by
  have h1 : ¬ (Since env.now a.librariesCacheTime < a.cacheExpiry ∧ a.librariesCache ≠ none) := by
    rintro ⟨hlt, hne⟩
    rcases hmiss with h | h
    · exact hne h
    · exact absurd hlt (not_lt.mpr h)
  have h2 : Since env.now a.librariesCacheTime ≥ a.cacheExpiry ∨ a.librariesCache = none :=
    hmiss.symm
  unfold AbsAdapter.getLibraryNameByID
  rw [if_neg h1, if_pos h2]
  simp only [hfail]

/-- A lookup that misses the cache and whose fetch succeeds. -/
theorem getLibraryNameByID_miss_ok (a : AbsAdapter) (env : LookupEnv) (libraryID : String)
    (libraries : List AbsLibraryInfo)
    (hmiss : a.librariesCache = none ∨ Since env.now a.librariesCacheTime ≥ a.cacheExpiry)
    (hok : env.GetLibrariesInfo = .ok libraries) :
    a.getLibraryNameByID env libraryID =
      { name := lookupLibraryName (libraries.map AbsLibraryInfo.toLibraryInfo) libraryID,
        adapter := { a with
          librariesCache := some (libraries.map AbsLibraryInfo.toLibraryInfo),
          librariesCacheTime := env.now },
        fetches := 1 } := by
  have h1 : ¬ (Since env.now a.librariesCacheTime < a.cacheExpiry ∧ a.librariesCache ≠ none) := by
    rintro ⟨hlt, hne⟩
    rcases hmiss with h | h
    · exact hne h
    · exact absurd hlt (not_lt.mpr h)
  have h2 : Since env.now a.librariesCacheTime ≥ a.cacheExpiry ∨ a.librariesCache = none :=
    hmiss.symm
  unfold AbsAdapter.getLibraryNameByID
  rw [if_neg h1, if_pos h2]
  simp only [hok, Option.getD_some]

/-- A lookup that hits the cache. -/
theorem getLibraryNameByID_hit (a : AbsAdapter) (env : LookupEnv) (libraryID : String)
    (snapshot : List LibraryInfo) (hsnap : a.librariesCache = some snapshot)
    (hfresh : Since env.now a.librariesCacheTime < a.cacheExpiry) :
    a.getLibraryNameByID env libraryID =
      { name := lookupLibraryName snapshot libraryID, adapter := a, fetches := 0 } := by
  have h1 : Since env.now a.librariesCacheTime < a.cacheExpiry ∧ a.librariesCache ≠ none :=
    ⟨hfresh, by rw [hsnap]; simp⟩
  unfold AbsAdapter.getLibraryNameByID
  rw [if_pos h1, hsnap]
  rfl

/-- C11: for every adapter whose name cache holds a snapshot and has expired,
a lookup whose refresh fails makes one fetch, leaves the snapshot unchanged,
sets the cache time to the current time, and returns the name that the
snapshot holds for the id (the name of its first library with that id), or
the empty string when the snapshot has no such id. -/
theorem getLibraryNameByID_failed_refresh (a : AbsAdapter) (env : LookupEnv)
    (libraryID : String) (snapshot : List LibraryInfo) (err : Error)
    (hsnap : a.librariesCache = some snapshot)
    (hexp : Since env.now a.librariesCacheTime ≥ a.cacheExpiry)
    (hfail : env.GetLibrariesInfo = .error err) :
    (a.getLibraryNameByID env libraryID).fetches = 1 ∧
    (a.getLibraryNameByID env libraryID).adapter.librariesCache = some snapshot ∧
    (a.getLibraryNameByID env libraryID).adapter.librariesCacheTime = env.now ∧
    (a.getLibraryNameByID env libraryID).adapter.cacheExpiry = a.cacheExpiry ∧
    (a.getLibraryNameByID env libraryID).name =
      ((snapshot.find? (fun lib => decide (lib.ID = libraryID))).map LibraryInfo.Name).getD "" ∧
    ((∀ lib ∈ snapshot, lib.ID ≠ libraryID) →
      (a.getLibraryNameByID env libraryID).name = "") := by
  rw [getLibraryNameByID_miss_error a env libraryID err (Or.inr hexp) hfail, hsnap]
  refine ⟨rfl, rfl, rfl, rfl, ?_, ?_⟩
  · exact lookupLibraryName_eq_find snapshot libraryID
  · intro hnone
    simp only [Option.getD_some]
    rw [lookupLibraryName_eq_find]
    have hf : snapshot.find? (fun lib => decide (lib.ID = libraryID)) = none := by
      rw [List.find?_eq_none]
      intro lib hlib
      simpa using hnone lib hlib
    rw [hf]
    rfl

/-- C11 instantiated: the snapshot with `L1` and `L2` was cached at time `0`;
at 30 minutes the refresh fails and the lookup of `L2` still answers
`Podcasts`. -/
theorem getLibraryNameByID_failed_refresh_witness :
    exampleAdapterCached.librariesCache =
      some (exampleLibraries.map AbsLibraryInfo.toLibraryInfo) ∧
    Since (exampleLookupDown (30 * Minute)).now exampleAdapterCached.librariesCacheTime ≥
      exampleAdapterCached.cacheExpiry ∧
    (exampleAdapterCached.getLibraryNameByID (exampleLookupDown (30 * Minute)) "L2").name =
      "Podcasts" ∧
    (exampleAdapterCached.getLibraryNameByID (exampleLookupDown (30 * Minute))
      "L2").adapter.librariesCache = some (exampleLibraries.map AbsLibraryInfo.toLibraryInfo) ∧
    (exampleAdapterCached.getLibraryNameByID (exampleLookupDown (30 * Minute))
      "L2").adapter.librariesCacheTime = 30 * Minute := by
  have h := getLibraryNameByID_failed_refresh exampleAdapterCached
    (exampleLookupDown (30 * Minute)) "L2" (exampleLibraries.map AbsLibraryInfo.toLibraryInfo)
    "error making request: connection refused" rfl (by decide) rfl
  exact ⟨rfl, by decide, h.2.2.2.2.1.trans (by decide), h.2.1, h.2.2.1⟩

/-- After a failed refresh of an adapter that holds a snapshot, the lookups
made within the time to live of the failure are answered from the snapshot
and make no fetch. -/
theorem getLibraryNameByID_failed_then_cached (a : AbsAdapter) (env : LookupEnv)
    (libraryID : String) (snapshot : List LibraryInfo) (err : Error)
    (hsnap : a.librariesCache = some snapshot)
    (hexp : Since env.now a.librariesCacheTime ≥ a.cacheExpiry)
    (hfail : env.GetLibrariesInfo = .error err)
    (env₂ : LookupEnv) (libraryID₂ : String)
    (hfresh : Since env₂.now env.now < a.cacheExpiry) :
    ((a.getLibraryNameByID env libraryID).adapter.getLibraryNameByID env₂ libraryID₂).fetches
      = 0 ∧
    ((a.getLibraryNameByID env libraryID).adapter.getLibraryNameByID env₂ libraryID₂).adapter
      = (a.getLibraryNameByID env libraryID).adapter := by
  rw [getLibraryNameByID_miss_error a env libraryID err (Or.inr hexp) hfail]
  rw [getLibraryNameByID_hit { a with librariesCacheTime := env.now } env₂ libraryID₂ snapshot
    hsnap hfresh]
  exact ⟨rfl, rfl⟩

/-- After a failed refresh of an adapter that holds no snapshot, every further
lookup fetches again, whatever the time. -/
theorem getLibraryNameByID_failed_no_snapshot (a : AbsAdapter) (env : LookupEnv)
    (libraryID : String) (err : Error)
    (hnil : a.librariesCache = none)
    (hfail : env.GetLibrariesInfo = .error err)
    (env₂ : LookupEnv) (libraryID₂ : String) :
    (a.getLibraryNameByID env libraryID).adapter.librariesCache = none ∧
    (a.getLibraryNameByID env libraryID).adapter.librariesCacheTime = env.now ∧
    ((a.getLibraryNameByID env libraryID).adapter.getLibraryNameByID env₂ libraryID₂).fetches
      = 1 := by
  rw [getLibraryNameByID_miss_error a env libraryID err (Or.inl hnil) hfail]
  refine ⟨hnil, rfl, ?_⟩
  cases h2 : env₂.GetLibrariesInfo with
  | error err₂ =>
    rw [getLibraryNameByID_miss_error { a with librariesCacheTime := env.now } env₂ libraryID₂
      err₂ (Or.inl hnil) h2]
  | ok libraries =>
    rw [getLibraryNameByID_miss_ok { a with librariesCacheTime := env.now } env₂ libraryID₂
      libraries (Or.inl hnil) h2]

/-- C12 on the code: a new adapter (no snapshot) looks up `L1` at time `1000`
and the refresh fails, which stamps the cache time `1000`; the next lookup
comes one nanosecond later, far within the 30 minutes, and calls the library
fetch of the client again. -/
theorem getLibraryNameByID_retries_without_snapshot :
    NewAbsAdapter.cacheExpiry = 30 * Minute ∧
    (NewAbsAdapter.getLibraryNameByID (exampleLookupDown 1000) "L1").fetches = 1 ∧
    (NewAbsAdapter.getLibraryNameByID (exampleLookupDown 1000) "L1").adapter.librariesCacheTime
      = 1000 ∧
    (NewAbsAdapter.getLibraryNameByID (exampleLookupDown 1000) "L1").adapter.librariesCache
      = none ∧
    Since (exampleLookupDown 1001).now 1000 < NewAbsAdapter.cacheExpiry ∧
    ((NewAbsAdapter.getLibraryNameByID (exampleLookupDown 1000) "L1").adapter.getLibraryNameByID
      (exampleLookupDown 1001) "L1").fetches = 1 := by
  decide

/-- C19: when the name cache is empty or its age is at least the time to live,
`getLibraryNameByID` makes one fetch of the full library list; if the fetch
succeeds the cache becomes the converted fresh list (same length and order,
fields copied one to one), the cache time becomes the current time, and the
name returned is that of the first library of the fresh list with the id, or
the empty string when there is none. -/
theorem getLibraryNameByID_refresh (a : AbsAdapter) (env : LookupEnv) (libraryID : String)
    (hmiss : a.librariesCache = none ∨ Since env.now a.librariesCacheTime ≥ a.cacheExpiry) :
    (a.getLibraryNameByID env libraryID).fetches = 1 ∧
    ∀ libraries, env.GetLibrariesInfo = .ok libraries →
      ∃ cache, (a.getLibraryNameByID env libraryID).adapter.librariesCache = some cache ∧
        cache.length = libraries.length ∧
        (∀ (i : Nat) (lib : AbsLibraryInfo), libraries[i]? = some lib →
          cache[i]? = some
            ({ ID := lib.ID, Name := lib.Name, ItemCount := lib.ItemCount,
               MediaType := lib.MediaType, CreatedAt := lib.CreatedAt,
               UpdatedAt := lib.UpdatedAt, LastScan := lib.LastScan } : LibraryInfo)) ∧
        (a.getLibraryNameByID env libraryID).adapter.librariesCacheTime = env.now ∧
        (a.getLibraryNameByID env libraryID).adapter.cacheExpiry = a.cacheExpiry ∧
        (a.getLibraryNameByID env libraryID).name =
          ((libraries.find? (fun lib => decide (lib.ID = libraryID))).map
            AbsLibraryInfo.Name).getD "" := by
  constructor
  · cases h : env.GetLibrariesInfo with
    | error err => rw [getLibraryNameByID_miss_error a env libraryID err hmiss h]
    | ok libraries => rw [getLibraryNameByID_miss_ok a env libraryID libraries hmiss h]
  · intro libraries hok
    rw [getLibraryNameByID_miss_ok a env libraryID libraries hmiss hok]
    refine ⟨_, rfl, by simp, ?_, rfl, rfl, ?_⟩
    · intro i lib hi
      rw [List.getElem?_map, hi]
      rfl
    · simp only
      rw [lookupLibraryName_eq_find, find_toLibraryInfo]

/-- C19 instantiated: a new adapter looks up `L2` and the fetch answers with
`L1` and `L2`. -/
theorem getLibraryNameByID_refresh_witness :
    (NewAbsAdapter.librariesCache = none ∨
      Since (exampleLookupUp 1000).now NewAbsAdapter.librariesCacheTime ≥
        NewAbsAdapter.cacheExpiry) ∧
    (NewAbsAdapter.getLibraryNameByID (exampleLookupUp 1000) "L2").fetches = 1 ∧
    ∃ cache, (NewAbsAdapter.getLibraryNameByID (exampleLookupUp 1000)
        "L2").adapter.librariesCache = some cache ∧
      cache.length = 2 ∧
      (NewAbsAdapter.getLibraryNameByID (exampleLookupUp 1000) "L2").adapter.librariesCacheTime
        = 1000 ∧
      (NewAbsAdapter.getLibraryNameByID (exampleLookupUp 1000) "L2").name = "Podcasts" := by
  have h := getLibraryNameByID_refresh NewAbsAdapter (exampleLookupUp 1000) "L2" (Or.inl rfl)
  obtain ⟨cache, h1, h2, _, h4, _, h6⟩ := h.2 exampleLibraries rfl
  exact ⟨Or.inl rfl, h.1, cache, h1, h2, h4, h6.trans (by decide)⟩

/-! ## Stats cache services: failed refresh -/

/-- A call of `AbsServerService.GetLibrariesWithStats` that misses the cache
makes one `GetLibraries` call. -/
theorem absService_miss_calls (s : AbsServerService) (env : StatsEnv)
    (hmiss : ¬ (Since env.now s.librariesCacheTime < s.cacheExpiry ∧ s.librariesCache ≠ none)) :
    (s.GetLibrariesWithStats env).getLibrariesCalls = 1 := by
  cases hl : env.GetLibraries with
  | error err => rw [absService_miss_error s env err hmiss hl]
  | ok libraries => rw [absService_miss_ok s env libraries hmiss hl]

/-- A failed refresh of `AbsServerService` returns the error and leaves the
service as it was, so a later call misses the cache again. -/
theorem absService_failed_refresh (s : AbsServerService) (env : StatsEnv) (err : Error)
    (hmiss : ¬ (Since env.now s.librariesCacheTime < s.cacheExpiry ∧ s.librariesCache ≠ none))
    (hfail : env.GetLibraries = .error err) :
    s.GetLibrariesWithStats env =
      { result := .error err, service := s, getLibrariesCalls := 1, countCalls := 0 } ∧
    ∀ env₂ : StatsEnv, env₂.now ≥ env.now →
      ((s.GetLibrariesWithStats env).service.GetLibrariesWithStats env₂).getLibrariesCalls
        = 1 := by
  rw [absService_miss_error s env err hmiss hfail]
  refine ⟨rfl, ?_⟩
  intro env₂ hlater
  apply absService_miss_calls
  rintro ⟨hlt, hne⟩
  apply hmiss
  refine ⟨?_, hne⟩
  have h1 : Since env.now s.librariesCacheTime ≤ Since env₂.now s.librariesCacheTime := by
    unfold Since
    exact Int.sub_le_sub_right hlater _
  exact lt_of_le_of_lt h1 hlt

/-- A call of `EmbyServerService.GetLibrariesWithStats` that misses the cache
makes one `GetLibraries` call. -/
theorem embyService_miss_calls (s : EmbyServerService) (env : StatsEnv)
    (hmiss : ¬ (Since env.now s.librariesCacheTime < s.cacheExpiry ∧ s.librariesCache ≠ none)) :
    (s.GetLibrariesWithStats env).getLibrariesCalls = 1 := by
  cases hl : env.GetLibraries with
  | error err => rw [embyService_miss_error s env err hmiss hl]
  | ok libraries => rw [embyService_miss_ok s env libraries hmiss hl]

/-- A failed refresh of `EmbyServerService` returns the error and leaves the
service as it was, so a later call misses the cache again. -/
theorem embyService_failed_refresh (s : EmbyServerService) (env : StatsEnv) (err : Error)
    (hmiss : ¬ (Since env.now s.librariesCacheTime < s.cacheExpiry ∧ s.librariesCache ≠ none))
    (hfail : env.GetLibraries = .error err) :
    s.GetLibrariesWithStats env =
      { result := .error err, service := s, getLibrariesCalls := 1, countCalls := 0 } ∧
    ∀ env₂ : StatsEnv, env₂.now ≥ env.now →
      ((s.GetLibrariesWithStats env).service.GetLibrariesWithStats env₂).getLibrariesCalls
        = 1 := by
  rw [embyService_miss_error s env err hmiss hfail]
  refine ⟨rfl, ?_⟩
  intro env₂ hlater
  apply embyService_miss_calls
  rintro ⟨hlt, hne⟩
  apply hmiss
  refine ⟨?_, hne⟩
  have h1 : Since env.now s.librariesCacheTime ≤ Since env₂.now s.librariesCacheTime := by
    unfold Since
    exact Int.sub_le_sub_right hlater _
  exact lt_of_le_of_lt h1 hlt

/-- C13, as stated, fails: the cache was populated at time `0`; the call at
`5 * Minute` finds it expired and its library fetch fails; the cache time stays
`0`, and the next call, one nanosecond later, fetches again. -/
theorem statsCache_failed_refresh_not_stamped :
    ((NewAbsServerService.GetLibrariesWithStats (exampleStatsEnv 0)).service.GetLibrariesWithStats
      (exampleStatsEnvDown (5 * Minute))).result
      = .error "error making request: connection refused" ∧
    ((NewAbsServerService.GetLibrariesWithStats (exampleStatsEnv 0)).service.GetLibrariesWithStats
      (exampleStatsEnvDown (5 * Minute))).service.librariesCacheTime = 0 ∧
    Since (exampleStatsEnv (5 * Minute + 1)).now (5 * Minute) < NewAbsServerService.cacheExpiry ∧
    (((NewAbsServerService.GetLibrariesWithStats
        (exampleStatsEnv 0)).service.GetLibrariesWithStats
      (exampleStatsEnvDown (5 * Minute))).service.GetLibrariesWithStats
      (exampleStatsEnv (5 * Minute + 1))).getLibrariesCalls = 1 := by
  decide

/-- C13 as amended, for `AbsServerService` and `EmbyServerService`: when a
refresh in `GetLibrariesWithStats` fails because the library fetch of the
adapter returns an error, the call returns that error after one
`GetLibraries` call and leaves the cache time and the cached slice as they
were, so every later call misses the cache again and makes a new fetch. -/
theorem statsCache_failed_refresh (env : StatsEnv) (err : Error)
    (hfail : env.GetLibraries = .error err) :
    (∀ s : AbsServerService,
      ¬ (Since env.now s.librariesCacheTime < s.cacheExpiry ∧ s.librariesCache ≠ none) →
        s.GetLibrariesWithStats env =
          { result := .error err, service := s, getLibrariesCalls := 1, countCalls := 0 } ∧
        ∀ env₂ : StatsEnv, env₂.now ≥ env.now →
          ((s.GetLibrariesWithStats env).service.GetLibrariesWithStats env₂).getLibrariesCalls
            = 1) ∧
    (∀ s : EmbyServerService,
      ¬ (Since env.now s.librariesCacheTime < s.cacheExpiry ∧ s.librariesCache ≠ none) →
        s.GetLibrariesWithStats env =
          { result := .error err, service := s, getLibrariesCalls := 1, countCalls := 0 } ∧
        ∀ env₂ : StatsEnv, env₂.now ≥ env.now →
          ((s.GetLibrariesWithStats env).service.GetLibrariesWithStats env₂).getLibrariesCalls
            = 1) :=
  ⟨fun s hmiss => absService_failed_refresh s env err hmiss hfail,
    fun s hmiss => embyService_failed_refresh s env err hmiss hfail⟩

/-- C13 as amended, instantiated: the cache populated at time `0`, a failing
refresh at 5 minutes, and the next call at 6 minutes. -/
theorem statsCache_failed_refresh_witness :
    (exampleStatsEnvDown (5 * Minute)).GetLibraries
      = .error "error making request: connection refused" ∧
    ¬ (Since (exampleStatsEnvDown (5 * Minute)).now
          (NewAbsServerService.GetLibrariesWithStats
            (exampleStatsEnv 0)).service.librariesCacheTime <
        (NewAbsServerService.GetLibrariesWithStats (exampleStatsEnv 0)).service.cacheExpiry ∧
      (NewAbsServerService.GetLibrariesWithStats (exampleStatsEnv 0)).service.librariesCache
        ≠ none) ∧
    ((NewAbsServerService.GetLibrariesWithStats (exampleStatsEnv 0)).service.GetLibrariesWithStats
      (exampleStatsEnvDown (5 * Minute))).service
      = (NewAbsServerService.GetLibrariesWithStats (exampleStatsEnv 0)).service ∧
    (((NewAbsServerService.GetLibrariesWithStats
        (exampleStatsEnv 0)).service.GetLibrariesWithStats
      (exampleStatsEnvDown (5 * Minute))).service.GetLibrariesWithStats
      (exampleStatsEnv (6 * Minute))).getLibrariesCalls = 1 := by
  have hmiss : ¬ (Since (exampleStatsEnvDown (5 * Minute)).now
          (NewAbsServerService.GetLibrariesWithStats
            (exampleStatsEnv 0)).service.librariesCacheTime <
        (NewAbsServerService.GetLibrariesWithStats (exampleStatsEnv 0)).service.cacheExpiry ∧
      (NewAbsServerService.GetLibrariesWithStats (exampleStatsEnv 0)).service.librariesCache
        ≠ none) := by
    decide
  have h := (statsCache_failed_refresh (exampleStatsEnvDown (5 * Minute))
    "error making request: connection refused" rfl).1
    (NewAbsServerService.GetLibrariesWithStats (exampleStatsEnv 0)).service hmiss
  exact ⟨rfl, hmiss, by rw [h.1], h.2 (exampleStatsEnv (6 * Minute)) (by decide)⟩

/-! ## HTTP requests: status codes -/

/-- C17: for every response with status code `s` and body `b` that the round
trip delivers, `doRequest` of `AbsClient` and of `EmbyClient` returns `b` with
no error when `200 ≤ s < 300`; otherwise it returns an error and no bytes, and
the message of the error is the fixed text followed by the decimal status
code, a colon and the body, so it contains both. -/
theorem doRequest_status (s : Int) (b : String) :
    ((200 ≤ s ∧ s < 300) →
      AbsClient.doRequest (.delivered { StatusCode := s, Body := b }) = .ok b ∧
      EmbyClient.doRequest (.delivered { StatusCode := s, Body := b }) = .ok b) ∧
    (¬ (200 ≤ s ∧ s < 300) →
      ∃ msg,
        AbsClient.doRequest (.delivered { StatusCode := s, Body := b }) = .error msg ∧
        EmbyClient.doRequest (.delivered { StatusCode := s, Body := b }) = .error msg ∧
        msg = "API request failed with status " ++ toString s ++ ": " ++ b ∧
        (∃ pre post, msg = pre ++ toString s ++ post) ∧
        (∃ pre post, msg = pre ++ b ++ post)) := by
  constructor
  · rintro ⟨h1, h2⟩
    have hc : ¬ (s < 200 ∨ s ≥ 300) := by
      rintro (h | h)
      · exact absurd h1 (not_le.mpr h)
      · exact absurd h2 (not_lt.mpr h)
    simp only [AbsClient.doRequest, EmbyClient.doRequest, if_neg hc, and_self]
  · intro hout
    have hc : s < 200 ∨ s ≥ 300 := by
      by_contra hn
      apply hout
      constructor
      · by_contra h; exact hn (Or.inl (not_le.mp h))
      · by_contra h; exact hn (Or.inr (not_lt.mp h))
    refine ⟨_, ?_, ?_, rfl, ⟨"API request failed with status ", ": " ++ b, ?_⟩,
      ⟨"API request failed with status " ++ toString s ++ ": ", "", ?_⟩⟩
    · simp only [AbsClient.doRequest, if_pos hc]
    · simp only [EmbyClient.doRequest, if_pos hc]
    · simp [String.append_assoc]
    · simp [String.append_assoc]

/-- C17 instantiated: status `204` with an empty body, and status `404`. -/
theorem doRequest_status_witness :
    (200 ≤ (204 : Int) ∧ (204 : Int) < 300) ∧
    AbsClient.doRequest (.delivered { StatusCode := 204, Body := "" }) = .ok "" ∧
    EmbyClient.doRequest (.delivered { StatusCode := 204, Body := "" }) = .ok "" ∧
    ¬ (200 ≤ (404 : Int) ∧ (404 : Int) < 300) ∧
    AbsClient.doRequest (.delivered { StatusCode := 404, Body := "Not Found" }) =
      .error "API request failed with status 404: Not Found" ∧
    EmbyClient.doRequest (.delivered { StatusCode := 404, Body := "Not Found" }) =
      .error "API request failed with status 404: Not Found" := by
  have h1 := (doRequest_status 204 "").1 (by decide)
  obtain ⟨msg, h2, h3, h4, _⟩ := (doRequest_status 404 "Not Found").2 (by decide)
  have hmsg : msg = "API request failed with status 404: Not Found" := by
    rw [h4]; decide
  rw [hmsg] at h2 h3
  exact ⟨by decide, h1.1, h1.2, by decide, h2, h3⟩

/-! ## Emby adapter: libraries -/

/-- C20: for every media-folder list decoded from the Emby backend,
`EmbyAdapter.GetLibraries` succeeds with a list of the same length and order
whose entry `i` has the id, the name and the collection type of folder `i`,
zero time fields, and as `ItemCount` the value that `GetLibraryItemsCount`
returned for the id of the folder, or `0` when that call failed. -/
theorem embyGetLibraries_spec (env : EmbyLibrariesEnv) (data : String)
    (folders : List EmbyMediaFolder)
    (hreq : env.GetMediaFolders = .ok data) (hdec : env.unmarshal data = .ok folders) :
    ∃ libraries, EmbyAdapter.GetLibraries env = .ok libraries ∧
      libraries.length = folders.length ∧
      ∀ (i : Nat) (folder : EmbyMediaFolder), folders[i]? = some folder →
        ∃ lib, libraries[i]? = some lib ∧
          lib.ID = folder.ID ∧ lib.Name = folder.Name ∧
          lib.MediaType = folder.CollectionType ∧
          lib.CreatedAt = 0 ∧ lib.UpdatedAt = 0 ∧ lib.LastScan = 0 ∧
          (∀ count, env.GetLibraryItemsCount i folder.ID = .ok count →
            lib.ItemCount = count) ∧
          ((∃ err, env.GetLibraryItemsCount i folder.ID = .error err) →
            lib.ItemCount = 0) := by
  refine ⟨folders.enum.map fun t => EmbyAdapter.GetLibraries.convert env t.1 t.2, ?_, ?_, ?_⟩
  · simp only [EmbyAdapter.GetLibraries, hreq, hdec]
  · simp
  · intro i folder hi
    refine ⟨EmbyAdapter.GetLibraries.convert env i folder, ?_, rfl, rfl, rfl, rfl, rfl, rfl,
      ?_, ?_⟩
    · rw [List.getElem?_map, List.getElem?_enum, hi]
      rfl
    · intro count hc
      simp [EmbyAdapter.GetLibraries.convert, hc]
    · rintro ⟨err, herr⟩
      simp [EmbyAdapter.GetLibraries.convert, herr]

/-- C20 instantiated: two folders, the count call of the second fails. -/
theorem embyGetLibraries_spec_witness :
    exampleEmbyLibraries.GetMediaFolders = .ok "folders" ∧
    exampleEmbyLibraries.unmarshal "folders" =
      .ok [{ Name := "Movies", ID := "x", CollectionType := "movies" },
           { Name := "Shows", ID := "y", CollectionType := "tvshows" }] ∧
    ∃ libraries, EmbyAdapter.GetLibraries exampleEmbyLibraries = .ok libraries ∧
      libraries.length = 2 ∧
      ∃ lib, libraries[1]? = some lib ∧ lib.ID = "y" ∧ lib.Name = "Shows" ∧
        lib.MediaType = "tvshows" ∧ lib.ItemCount = 0 := by
  obtain ⟨libraries, h1, h2, h3⟩ := embyGetLibraries_spec exampleEmbyLibraries "folders"
    [{ Name := "Movies", ID := "x", CollectionType := "movies" },
     { Name := "Shows", ID := "y", CollectionType := "tvshows" }] rfl rfl
  obtain ⟨lib, g1, g2, g3, g4, _, _, _, _, g9⟩ :=
    h3 1 { Name := "Shows", ID := "y", CollectionType := "tvshows" } rfl
  exact ⟨rfl, rfl, libraries, h1, h2, lib, g1, g2, g3, g4,
    g9 ⟨"API request failed with status 500: ", rfl⟩⟩

/-! ## Audiobookshelf client: completion order of the search -/

theorem getLibraryName_find_none (libraries : List LibraryInfo) (libraryId : String)
    (hnone : ∀ lib ∈ libraries, lib.ID ≠ libraryId) :
    AbsServerService.GetLibraryName.find libraries libraryId =
      ("", some ("未找到ID为" ++ libraryId ++ "的媒体库")) := by
  induction libraries with
  | nil => rfl
  | cons lib rest ih =>
    have h1 : lib.ID ≠ libraryId := hnone lib (List.mem_cons_self _ _)
    simp only [AbsServerService.GetLibraryName.find, h1, if_false]
    exact ih (fun l hl => hnone l (List.mem_cons_of_mem _ hl))

theorem getLibraryName_find_some (libraries : List LibraryInfo) (libraryId : String)
    (lib : LibraryInfo)
    (hfind : libraries.find? (fun l => decide (l.ID = libraryId)) = some lib) :
    AbsServerService.GetLibraryName.find libraries libraryId = (lib.Name, none) := by
  induction libraries with
  | nil => cases hfind
  | cons l rest ih =>
    by_cases h : l.ID = libraryId
    · simp only [List.find?, h, decide_True, Option.some.injEq] at hfind
      subst hfind
      simp only [AbsServerService.GetLibraryName.find, h, if_true]
    · simp only [List.find?, h, decide_False] at hfind
      simp only [AbsServerService.GetLibraryName.find, h, if_false]
      exact ih hfind

/-- C15: for every library list that the adapter returns and every id,
`AbsServerService.GetLibraryName` returns an error exactly when no library of
the list has the id, and then the name is empty and the error is the
not-found error; otherwise it returns the name of the first library of the
list with the id and no error. -/
theorem getLibraryName_spec (libraries : List LibraryInfo) (libraryId : String) :
    ((AbsServerService.GetLibraryName (.ok libraries) libraryId).2 ≠ none ↔
      ∀ lib ∈ libraries, lib.ID ≠ libraryId) ∧
    ((∀ lib ∈ libraries, lib.ID ≠ libraryId) →
      AbsServerService.GetLibraryName (.ok libraries) libraryId =
        ("", some ("未找到ID为" ++ libraryId ++ "的媒体库"))) ∧
    (∀ lib, libraries.find? (fun l => decide (l.ID = libraryId)) = some lib →
      AbsServerService.GetLibraryName (.ok libraries) libraryId = (lib.Name, none)) := by
  have hnone := getLibraryName_find_none libraries libraryId
  have hsome := getLibraryName_find_some libraries libraryId
  refine ⟨?_, hnone, hsome⟩
  constructor
  · intro herr lib hlib hid
    cases hf : libraries.find? (fun l => decide (l.ID = libraryId)) with
    | none =>
      rw [List.find?_eq_none] at hf
      exact hf lib hlib (by simpa using hid)
    | some l =>
      apply herr
      show (AbsServerService.GetLibraryName.find libraries libraryId).2 = none
      rw [hsome l hf]
  · intro hall
    show (AbsServerService.GetLibraryName.find libraries libraryId).2 ≠ none
    rw [hnone hall]
    simp

/-- C15 instantiated on the libraries `1` and `x`. -/
theorem getLibraryName_spec_witness :
    (∀ lib ∈ exampleStatsLibraries, lib.ID ≠ "2") ∧
    AbsServerService.GetLibraryName (.ok exampleStatsLibraries) "2" =
      ("", some "未找到ID为2的媒体库") ∧
    exampleStatsLibraries.find? (fun l => decide (l.ID = "x")) =
      some { ID := "x", Name := "Movies" } ∧
    AbsServerService.GetLibraryName (.ok exampleStatsLibraries) "x" = ("Movies", none) := by
  have h := getLibraryName_spec exampleStatsLibraries
  have hno : ∀ lib ∈ exampleStatsLibraries, lib.ID ≠ "2" := by decide
  exact ⟨hno, ((h "2").2.1 hno).trans (by decide), by decide,
    (h "x").2.2 { ID := "x", Name := "Movies" } (by decide)⟩

/-- A call of `GetLibrariesInfo` that hits the cache. -/
theorem absClient_hit (c : AbsClient) (env : LibrariesInfoEnv)
    (snapshot : List AbsLibraryInfo) (hsnap : c.librariesCache = some snapshot)
    (hfresh : Since env.now c.librariesCacheTime < c.cacheExpiry) :
    c.GetLibrariesInfo env = { result := .ok snapshot, client := c, requests := 0 } := by
  have hc : Since env.now c.librariesCacheTime < c.cacheExpiry ∧ c.librariesCache ≠ none :=
    ⟨hfresh, by rw [hsnap]; simp⟩
  unfold AbsClient.GetLibrariesInfo
  rw [if_pos hc, hsnap]
  rfl

/-- A call of `GetLibrariesInfo` that misses the cache and returns a non-empty
list has stored that list in the cache with the current time. -/
theorem absClient_populated (c : AbsClient) (env : LibrariesInfoEnv)
    (snapshot : List AbsLibraryInfo)
    (hmiss : ¬ (Since env.now c.librariesCacheTime < c.cacheExpiry ∧ c.librariesCache ≠ none))
    (hfetch : (c.GetLibrariesInfo env).result = .ok snapshot) (hne : snapshot ≠ []) :
    (c.GetLibrariesInfo env).client =
      { c with librariesCache := some snapshot, librariesCacheTime := env.now } := by
  unfold AbsClient.GetLibrariesInfo at hfetch ⊢
  rw [if_neg hmiss] at hfetch ⊢
  cases hreq : env.doRequest with
  | error err => simp [hreq] at hfetch
  | ok data =>
    cases hdec : env.unmarshal data with
    | error err => simp [hreq, hdec] at hfetch
    | ok raw =>
      cases raw with
      | none =>
        simp only [hreq, hdec, Option.map_none', Option.getD_none, Except.ok.injEq] at hfetch
        exact absurd hfetch.symm hne
      | some libraries =>
        simp only [hreq, hdec, Option.map_some', Option.getD_some, Except.ok.injEq] at hfetch
        simp only [hreq, hdec, Option.map_some', hfetch]

theorem find_of_present (snapshot : List AbsLibraryInfo) (libraryId : String)
    (hpresent : ∃ lib ∈ snapshot, lib.ID = libraryId) :
    ∃ lib, snapshot.find? (fun l => decide (l.ID = libraryId)) = some lib := by
  cases hf : snapshot.find? (fun l => decide (l.ID = libraryId)) with
  | some lib => exact ⟨lib, rfl⟩
  | none =>
    obtain ⟨lib, hlib, hid⟩ := hpresent
    rw [List.find?_eq_none] at hf
    exact absurd (by simpa using hid) (hf lib hlib)

/-- The name that `GetLibraryName` returns for a library list of the client
in which the id occurs. -/
theorem getLibraryName_of_snapshot (snapshot : List AbsLibraryInfo) (libraryId : String)
    (lib : AbsLibraryInfo)
    (hfind : snapshot.find? (fun l => decide (l.ID = libraryId)) = some lib) :
    AbsServerService.GetLibraryName (AbsAdapter.GetLibraries (.ok snapshot)) libraryId =
      (lib.Name, none) := by
  have hmap : (snapshot.map AbsLibraryInfo.toLibraryInfo).find?
      (fun l => decide (l.ID = libraryId)) = some lib.toLibraryInfo := by
    rw [List.find?_map]
    have hcomp : ((fun l : LibraryInfo => decide (l.ID = libraryId)) ∘
        AbsLibraryInfo.toLibraryInfo) = (fun l : AbsLibraryInfo => decide (l.ID = libraryId)) :=
      rfl
    rw [hcomp, hfind]
    rfl
  exact getLibraryName_find_some _ libraryId _ hmap

/-- C14: a `GetLibraryName` call that fetches the library list at time `T` and
finds the id in it returns the name of the first library with that id and no
error; every later call made one after another at a time `t` with
`t - T < TTL` returns the same name and no error, issues no HTTP request and
leaves the client as it was. -/
theorem getLibraryName_repeated (c₀ : AbsClient) (env₀ : LibrariesInfoEnv)
    (libraryId : String) (snapshot : List AbsLibraryInfo)
    (hmiss : ¬ (Since env₀.now c₀.librariesCacheTime < c₀.cacheExpiry ∧
      c₀.librariesCache ≠ none))
    (hfetch : (c₀.GetLibrariesInfo env₀).result = .ok snapshot)
    (hpresent : ∃ lib ∈ snapshot, lib.ID = libraryId) :
    ∃ lib, snapshot.find? (fun l => decide (l.ID = libraryId)) = some lib ∧
      (AbsServerService.GetLibraryName.call c₀ env₀ libraryId).name = lib.Name ∧
      (AbsServerService.GetLibraryName.call c₀ env₀ libraryId).err = none ∧
      ∀ envs : List LibrariesInfoEnv,
        (∀ env ∈ envs, Since env.now env₀.now < c₀.cacheExpiry) →
        ∀ r ∈ AbsServerService.GetLibraryName.calls
            (AbsServerService.GetLibraryName.call c₀ env₀ libraryId).client envs libraryId,
          r.name = lib.Name ∧ r.err = none ∧ r.requests = 0 ∧
          r.client = (AbsServerService.GetLibraryName.call c₀ env₀ libraryId).client := by
  obtain ⟨lib, hfind⟩ := find_of_present snapshot libraryId hpresent
  have hne : snapshot ≠ [] := by
    obtain ⟨l, hl, _⟩ := hpresent
    exact List.ne_nil_of_mem hl
  have hclient := absClient_populated c₀ env₀ snapshot hmiss hfetch hne
  have hname := getLibraryName_of_snapshot snapshot libraryId lib hfind
  refine ⟨lib, hfind, ?_, ?_, ?_⟩
  · simp only [AbsServerService.GetLibraryName.call, hfetch, hname]
  · simp only [AbsServerService.GetLibraryName.call, hfetch, hname]
  · have hc : (AbsServerService.GetLibraryName.call c₀ env₀ libraryId).client =
        { c₀ with librariesCache := some snapshot, librariesCacheTime := env₀.now } := hclient
    rw [hc]
    intro envs
    induction envs with
    | nil => intro _ r hr; cases hr
    | cons env rest ih =>
      intro hfresh r hr
      have hhit := absClient_hit
        { c₀ with librariesCache := some snapshot, librariesCacheTime := env₀.now } env
        snapshot rfl (hfresh env (List.mem_cons_self _ _))
      have hcall : AbsServerService.GetLibraryName.call
          { c₀ with librariesCache := some snapshot, librariesCacheTime := env₀.now } env
          libraryId =
          { name := lib.Name, err := none,
            client := { c₀ with librariesCache := some snapshot,
                                librariesCacheTime := env₀.now },
            requests := 0 } := by
        simp only [AbsServerService.GetLibraryName.call, hhit, hname]
      simp only [AbsServerService.GetLibraryName.calls, hcall, List.mem_cons] at hr
      rcases hr with hr | hr
      · rw [hr]
        exact ⟨rfl, rfl, rfl, rfl⟩
      · exact ih (fun e he => hfresh e (List.mem_cons_of_mem _ he)) r hr

/-- C14 instantiated: a new client, the populating call at time `0`, then
calls at 10 and at 29 minutes, the second while the backend is down. -/
theorem getLibraryName_repeated_witness :
    ¬ (Since (exampleLibrariesInfo 0).now (NewAbsClient {}).librariesCacheTime <
        (NewAbsClient {}).cacheExpiry ∧ (NewAbsClient {}).librariesCache ≠ none) ∧
    (∃ lib ∈ ((NewAbsClient {}).GetLibrariesInfo (exampleLibrariesInfo 0)).result.toOption.getD [],
      lib.ID = "L2") ∧
    (AbsServerService.GetLibraryName.call (NewAbsClient {}) (exampleLibrariesInfo 0) "L2").name
      = "Podcasts" ∧
    ∀ r ∈ AbsServerService.GetLibraryName.calls
        (AbsServerService.GetLibraryName.call (NewAbsClient {}) (exampleLibrariesInfo 0)
          "L2").client
        [exampleLibrariesInfo (10 * Minute), exampleLibrariesInfoDown (29 * Minute)] "L2",
      r.name = "Podcasts" ∧ r.err = none ∧ r.requests = 0 := by
  have hmiss : ¬ (Since (exampleLibrariesInfo 0).now (NewAbsClient {}).librariesCacheTime <
      (NewAbsClient {}).cacheExpiry ∧ (NewAbsClient {}).librariesCache ≠ none) := by
    decide
  have hpresent : ∃ lib ∈ AbsClient.GetLibrariesInfo.withCounts (exampleLibrariesInfo 0)
      exampleLibraries, lib.ID = "L2" := by
    decide
  obtain ⟨lib, hfind, h1, _, h3⟩ := getLibraryName_repeated (NewAbsClient {})
    (exampleLibrariesInfo 0) "L2"
    (AbsClient.GetLibrariesInfo.withCounts (exampleLibrariesInfo 0) exampleLibraries)
    hmiss rfl hpresent
  have hlib : lib.Name = "Podcasts" := by
    have hf : (AbsClient.GetLibrariesInfo.withCounts (exampleLibrariesInfo 0)
        exampleLibraries).find? (fun l => decide (l.ID = "L2")) =
        some { ID := "L2", Name := "Podcasts" } := by decide
    rw [hf] at hfind
    cases hfind
    rfl
  refine ⟨hmiss, hpresent, h1.trans hlib, ?_⟩
  intro r hr
  have hfresh : ∀ env ∈ [exampleLibrariesInfo (10 * Minute),
      exampleLibrariesInfoDown (29 * Minute)],
      Since env.now (exampleLibrariesInfo 0).now < (NewAbsClient {}).cacheExpiry := by
    intro env henv
    simp only [List.mem_cons, List.mem_singleton, List.not_mem_nil, or_false] at henv
    rcases henv with rfl | rfl <;> decide
  obtain ⟨g1, g2, g3, _⟩ := h3 _ hfresh r hr
  exact ⟨g1.trans hlib, g2, g3⟩

/-! ## Audiobookshelf adapter: library labels of search results -/

/-- In every branch the name that `getLibraryNameByID` returns is found in
the cache as the call leaves it. -/
theorem getLibraryNameByID_name_eq (a : AbsAdapter) (env : LookupEnv) (libraryID : String) :
    (a.getLibraryNameByID env libraryID).name =
      lookupLibraryName ((a.getLibraryNameByID env libraryID).adapter.librariesCache.getD [])
        libraryID := by
  unfold AbsAdapter.getLibraryNameByID
  split
  · rfl
  · split
    · cases env.GetLibrariesInfo <;> rfl
    · rfl

theorem lookupLibraryName_none (libs : List LibraryInfo) (libraryID : String)
    (hnone : ∀ lib ∈ libs, lib.ID ≠ libraryID) : lookupLibraryName libs libraryID = "" := by
  induction libs with
  | nil => rfl
  | cons lib rest ih =>
    have h1 : lib.ID ≠ libraryID := hnone lib (List.mem_cons_self _ _)
    simp only [lookupLibraryName, h1, if_false]
    exact ih (fun l hl => hnone l (List.mem_cons_of_mem _ hl))

/-- One round of the conversion loop. -/
theorem search_loop_cons (env : Nat → LookupEnv) (k : Nat) (book : AbsBook)
    (rest : List AbsBook) (a : AbsAdapter) :
    AbsAdapter.Search.loop env k (book :: rest) a =
      (AbsAdapter.Search.convert book
          (if book.LibraryID ≠ "" then (a.getLibraryNameByID (env k) book.LibraryID).name
            else "") ::
        (AbsAdapter.Search.loop env (k + 1) rest
          (if book.LibraryID ≠ "" then (a.getLibraryNameByID (env k) book.LibraryID).adapter
            else a)).1,
       (AbsAdapter.Search.loop env (k + 1) rest
          (if book.LibraryID ≠ "" then (a.getLibraryNameByID (env k) book.LibraryID).adapter
            else a)).2) := by
  by_cases hid : book.LibraryID = ""
  · simp [AbsAdapter.Search.loop, hid]
  · simp [AbsAdapter.Search.loop, hid]

/-- Result `j` of the conversion loop is book `j` converted with the name
that the lookup returns on the adapter as the books before it left it. -/
theorem search_loop_getElem (env : Nat → LookupEnv) (k : Nat) (books : List AbsBook)
    (a : AbsAdapter) (j : Nat) (book : AbsBook) (hj : books[j]? = some book) :
    (AbsAdapter.Search.loop env k books a).1[j]? =
      some (AbsAdapter.Search.convert book
        (if book.LibraryID ≠ "" then
          ((AbsAdapter.Search.loop env k (books.take j) a).2.getLibraryNameByID
            (env (k + j)) book.LibraryID).name
        else "")) := by
  induction books generalizing k a j with
  | nil => simp at hj
  | cons b rest ih =>
    rw [search_loop_cons]
    cases j with
    | zero =>
      simp only [List.getElem?_cons_zero, Option.some.injEq] at hj
      subst hj
      simp [AbsAdapter.Search.loop]
    | succ j =>
      simp only [List.getElem?_cons_succ] at hj
      simp only [List.getElem?_cons_succ, List.take_succ_cons]
      rw [ih (k + 1) _ j hj, search_loop_cons]
      have hk : k + 1 + j = k + (j + 1) := by omega
      rw [hk]

/-- C16: `AbsAdapter.Search` on a list of books returns no error and one
result per book; a book with an empty library id gets the label
`Unknown Library`; a book with a non-empty library id for which the name
lookup returns no name gets its raw library id as label, and the lookup
returns no name whenever the cache it leaves holds no library with that id
(unknown id, or a failed fetch with nothing cached). -/
theorem search_library_label (a : AbsAdapter) (books : List AbsBook) (env : Nat → LookupEnv) :
    ∃ results, (a.Search (.ok books) env).1 = .ok results ∧
      results.length = books.length ∧
      ∀ (i : Nat) (book : AbsBook), books[i]? = some book →
        ∃ r, results[i]? = some r ∧
          (book.LibraryID = "" → r.Library = "Unknown Library") ∧
          (book.LibraryID ≠ "" →
            ((AbsAdapter.Search.loop env 0 (books.take i) a).2.getLibraryNameByID (env i)
              book.LibraryID).name = "" →
            r.Library = book.LibraryID) ∧
          (book.LibraryID ≠ "" →
            (∀ lib ∈ ((AbsAdapter.Search.loop env 0 (books.take i) a).2.getLibraryNameByID
                (env i) book.LibraryID).adapter.librariesCache.getD [],
              lib.ID ≠ book.LibraryID) →
            r.Library = book.LibraryID) := by
  refine ⟨(AbsAdapter.Search.loop env 0 books a).1, rfl, ?_, ?_⟩
  · have h := congrArg List.length (search_loop_spec env 0 books a).1
    simpa using h
  · intro i book hi
    have hget := search_loop_getElem env 0 books a i book hi
    rw [Nat.zero_add] at hget
    refine ⟨_, hget, ?_, ?_, ?_⟩
    · intro hid
      simp [AbsAdapter.Search.convert, hid]
    · intro hid hname
      simp [AbsAdapter.Search.convert, hid, hname]
    · intro hid hnone
      have hname := getLibraryNameByID_name_eq
        (AbsAdapter.Search.loop env 0 (books.take i) a).2 (env i) book.LibraryID
      rw [lookupLibraryName_none _ _ hnone] at hname
      simp [AbsAdapter.Search.convert, hid, hname]

/-- C16 instantiated: a new adapter whose library fetch fails converts a book
of library `L9` and a book without library id. -/
theorem search_library_label_witness :
    ∃ results,
      (NewAbsAdapter.Search
        (.ok [{ LibraryID := "L9", RelPath := "a.m4b" }, { LibraryID := "", RelPath := "b.m4b" }])
        (fun _ => exampleLookupDown 1000)).1 = .ok results ∧
      results.length = 2 ∧
      (∃ r, results[0]? = some r ∧ r.Library = "L9") ∧
      (∃ r, results[1]? = some r ∧ r.Library = "Unknown Library") := by
  obtain ⟨results, h1, h2, h3⟩ := search_library_label NewAbsAdapter
    [{ LibraryID := "L9", RelPath := "a.m4b" }, { LibraryID := "", RelPath := "b.m4b" }]
    (fun _ => exampleLookupDown 1000)
  obtain ⟨r0, g0, _, g2, _⟩ := h3 0 { LibraryID := "L9", RelPath := "a.m4b" } rfl
  obtain ⟨r1, k0, k1, _, _⟩ := h3 1 { LibraryID := "", RelPath := "b.m4b" } rfl
  exact ⟨results, h1, h2, ⟨r0, g0, g2 (by decide) (by decide)⟩, ⟨r1, k0, k1 rfl⟩⟩

/-! ## Audiobookshelf adapter: file names -/

/-- The characters after the last `/` of a list, the whole list when it has
none: what `extractFileName` does on the characters of its argument. -/
theorem extractFileName_data (path : String) :
    (extractFileName path).data =
      (path.data.reverse.takeWhile (fun c => decide (c ≠ '/'))).reverse := rfl

theorem lastSegment_no_slash (l : List Char) :
    '/' ∉ (l.reverse.takeWhile (fun c => decide (c ≠ '/'))).reverse := by
  intro hmem
  rw [List.mem_reverse] at hmem
  have h := List.mem_takeWhile_imp hmem
  simp at h

theorem lastSegment_split (l : List Char) :
    l = (l.reverse.dropWhile (fun c => decide (c ≠ '/'))).reverse ++
      (l.reverse.takeWhile (fun c => decide (c ≠ '/'))).reverse := by
  rw [← List.reverse_append, List.takeWhile_append_dropWhile, List.reverse_reverse]

theorem lastSegment_of_no_slash (l : List Char) (h : '/' ∉ l) :
    (l.reverse.takeWhile (fun c => decide (c ≠ '/'))).reverse = l := by
  have hall : ∀ x ∈ l.reverse, (fun c => decide (c ≠ '/')) x = true := by
    intro x hx
    rw [List.mem_reverse] at hx
    simp only [ne_eq, decide_eq_true_eq]
    intro hxe
    exact h (hxe ▸ hx)
  rw [List.takeWhile_eq_self_iff.mpr hall, List.reverse_reverse]

theorem lastSegment_rest (l : List Char) :
    ((l.reverse.dropWhile (fun c => decide (c ≠ '/'))).reverse = [] ∧ '/' ∉ l) ∨
    ∃ q, (l.reverse.dropWhile (fun c => decide (c ≠ '/'))).reverse = q ++ ['/'] := by
  cases hd : l.reverse.dropWhile (fun c => decide (c ≠ '/')) with
  | nil =>
    left
    refine ⟨rfl, ?_⟩
    rw [List.dropWhile_eq_nil_iff] at hd
    intro hmem
    have h := hd '/' (List.mem_reverse.mpr hmem)
    simp at h
  | cons c rest =>
    right
    have hhead := List.head?_dropWhile_not (fun c => decide (c ≠ '/')) l.reverse
    rw [hd] at hhead
    simp only [List.head?_cons, ne_eq, decide_not, Bool.not_eq_true', Bool.not_eq_false',
      decide_eq_true_eq, Bool.not_not] at hhead
    have hc : c = '/' := by simpa using hhead
    exact ⟨rest.reverse, by simp [hc]⟩

/-- C30: for every path `p`, `extractFileName p` holds no `/`; `p` is a prefix
followed by `extractFileName p`, where the prefix is empty and `p` has no `/`,
or the prefix ends with `/`; `extractFileName` is idempotent, returns `p`
itself when `p` has no `/`, and the empty string when `p` ends with `/`. -/
theorem extractFileName_spec (p : String) :
    '/' ∉ (extractFileName p).data ∧
    (∃ pre : String, p = pre ++ extractFileName p ∧
      ((pre = "" ∧ '/' ∉ p.data) ∨ ∃ q : String, pre = q ++ "/")) ∧
    extractFileName (extractFileName p) = extractFileName p ∧
    ('/' ∉ p.data → extractFileName p = p) ∧
    ((∃ q : String, p = q ++ "/") → extractFileName p = "") := by
  refine ⟨?_, ?_, ?_, ?_, ?_⟩
  · rw [extractFileName_data]
    exact lastSegment_no_slash p.data
  · refine ⟨String.mk (p.data.reverse.dropWhile (fun c => decide (c ≠ '/'))).reverse, ?_, ?_⟩
    · apply String.ext
      rw [String.data_append, extractFileName_data]
      exact lastSegment_split p.data
    · rcases lastSegment_rest p.data with ⟨h1, h2⟩ | ⟨q, hq⟩
      · left
        exact ⟨String.ext h1, h2⟩
      · right
        refine ⟨String.mk q, String.ext ?_⟩
        rw [String.data_append]
        exact hq
  · apply String.ext
    rw [extractFileName_data, extractFileName_data]
    exact lastSegment_of_no_slash _ (lastSegment_no_slash p.data)
  · intro hno
    apply String.ext
    rw [extractFileName_data]
    exact lastSegment_of_no_slash p.data hno
  · rintro ⟨q, hq⟩
    apply String.ext
    rw [extractFileName_data, hq, String.data_append]
    simp [List.takeWhile]

/-- C30 instantiated: a path without `/` and a path that ends with `/`. -/
theorem extractFileName_spec_witness :
    '/' ∉ ("a.m4b" : String).data ∧ extractFileName "a.m4b" = "a.m4b" ∧
    (∃ q : String, "Tolkien/" = q ++ "/") ∧ extractFileName "Tolkien/" = "" ∧
    extractFileName "Tolkien/The Hobbit/a.m4b" = "a.m4b" :=
  ⟨by decide, (extractFileName_spec "a.m4b").2.2.2.1 (by decide), ⟨"Tolkien", by decide⟩,
    (extractFileName_spec "Tolkien/").2.2.2.2 ⟨"Tolkien", by decide⟩, by decide⟩

/-! ## Audiobookshelf adapter: fields of search results -/

/-- C23: for every list of books, `AbsAdapter.Search` returns a list of the
same length whose result `i` copies `Size`, `AddedAt`, `LibraryID` and
`RelPath` from book `i`, has type `book` and media type `audio`, and has
`Author`, `Path`, `Overview`, `PremiereDate` empty, `Year`, `ProductionYear`,
`RunTime` zero and `Genres` the empty list. -/
theorem search_result_fields (a : AbsAdapter) (books : List AbsBook) (env : Nat → LookupEnv) :
    ∃ results, (a.Search (.ok books) env).1 = .ok results ∧
      results.length = books.length ∧
      ∀ (i : Nat) (book : AbsBook), books[i]? = some book →
        ∃ r, results[i]? = some r ∧
          r.Size = book.Size ∧ r.AddedAt = book.AddedAt ∧
          r.LibraryID = book.LibraryID ∧ r.RelPath = book.RelPath ∧
          r.Typ = "book" ∧ r.MediaType = "audio" ∧
          r.Author = "" ∧ r.Path = "" ∧ r.Overview = "" ∧ r.PremiereDate = "" ∧
          r.Year = 0 ∧ r.ProductionYear = 0 ∧ r.RunTime = 0 ∧ r.Genres = [] := by
  refine ⟨(AbsAdapter.Search.loop env 0 books a).1, rfl, ?_, ?_⟩
  · have h := congrArg List.length (search_loop_spec env 0 books a).1
    simpa using h
  · intro i book hi
    exact ⟨_, search_loop_getElem env 0 books a i book hi,
      rfl, rfl, rfl, rfl, rfl, rfl, rfl, rfl, rfl, rfl, rfl, rfl, rfl, rfl⟩

/-- C23 instantiated on one book of library `L1`. -/
theorem search_result_fields_witness :
    ∃ results,
      (NewAbsAdapter.Search
        (.ok [{ LibraryID := "L1", RelPath := "a.m4b", Size := 7, AddedAt := 3 }])
        exampleLookups).1 = .ok results ∧
      results.length = 1 ∧
      ∃ r, results[0]? = some r ∧ r.Size = 7 ∧ r.AddedAt = 3 ∧ r.LibraryID = "L1" ∧
        r.RelPath = "a.m4b" ∧ r.Typ = "book" ∧ r.MediaType = "audio" ∧ r.Genres = [] := by
  obtain ⟨results, h1, h2, h3⟩ := search_result_fields NewAbsAdapter
    [{ LibraryID := "L1", RelPath := "a.m4b", Size := 7, AddedAt := 3 }] exampleLookups
  obtain ⟨r, g0, g1, g2, g3, g4, g5, g6, _, _, _, _, _, _, _, g14⟩ :=
    h3 0 { LibraryID := "L1", RelPath := "a.m4b", Size := 7, AddedAt := 3 } rfl
  exact ⟨results, h1, h2, r, g0, g1, g2, g3, g4, g5, g6, g14⟩

/-! ## Audiobookshelf adapter: errors of the search -/

/-- The result of `GetLibrariesInfo` is an error exactly when the call misses
the cache and the request or the decoding of its body fails. -/
theorem getLibrariesInfo_error_iff (c : AbsClient) (e : LibrariesInfoEnv) :
    (∃ err, (c.GetLibrariesInfo e).result = .error err) ↔
      (¬ (Since e.now c.librariesCacheTime < c.cacheExpiry ∧ c.librariesCache ≠ none) ∧
        ((∃ err, e.doRequest = .error err) ∨
          ∃ data err, e.doRequest = .ok data ∧ e.unmarshal data = .error err)) := by
  unfold AbsClient.GetLibrariesInfo
  by_cases hc : Since e.now c.librariesCacheTime < c.cacheExpiry ∧ c.librariesCache ≠ none
  · simp [hc]
  · rw [if_neg hc]
    cases hreq : e.doRequest with
    | error err => simp [hc]
    | ok data =>
      cases hdec : e.unmarshal data with
      | error err => simp [hc, hdec]
      | ok raw => simp [hc, hdec]

/-- C24: `AbsAdapter.Search` returns an error exactly when the library-list
fetch of the client returns one, whatever the per-library search requests and
the name lookups do; and that fetch returns an error exactly when it misses
its cache and the request or the decoding fails. -/
theorem search_error_iff (a : AbsAdapter) (env : SearchBooksEnv) (lenv : Nat → LookupEnv) :
    ((∃ err, (a.Search (AbsClient.SearchBooks env "") lenv).1 = .error err) ↔
      ∃ err, env.GetLibrariesInfo = .error err) ∧
    (∀ (c : AbsClient) (e : LibrariesInfoEnv),
      (∃ err, (c.GetLibrariesInfo e).result = .error err) ↔
        (¬ (Since e.now c.librariesCacheTime < c.cacheExpiry ∧ c.librariesCache ≠ none) ∧
          ((∃ err, e.doRequest = .error err) ∨
            ∃ data err, e.doRequest = .ok data ∧ e.unmarshal data = .error err))) := by
  refine ⟨?_, getLibrariesInfo_error_iff⟩
  cases hl : env.GetLibrariesInfo with
  | error err =>
    have hs : AbsClient.SearchBooks env "" = .error ("获取媒体库列表失败: " ++ err) := by
      simp [AbsClient.SearchBooks, hl]
    rw [hs]
    simp [AbsAdapter.Search]
  | ok libraries =>
    rw [searchBooks_all_eq env libraries hl]
    simp [AbsAdapter.Search]

/-! ## Audiobookshelf client: the library fetch -/

theorem withCounts_length (env : LibrariesInfoEnv) (libraries : List AbsLibraryInfo) :
    (AbsClient.GetLibrariesInfo.withCounts env libraries).length = libraries.length := by
  simp [AbsClient.GetLibrariesInfo.withCounts]

theorem withCounts_getElem (env : LibrariesInfoEnv) (libraries : List AbsLibraryInfo)
    (i : Nat) (lib : AbsLibraryInfo) (hi : libraries[i]? = some lib) :
    (AbsClient.GetLibrariesInfo.withCounts env libraries)[i]? =
      some (match env.GetLibraryItemsCount i lib.ID with
        | .ok count => { lib with ItemCount := count }
        | .error _ => lib) := by
  unfold AbsClient.GetLibrariesInfo.withCounts
  rw [List.getElem?_map, List.getElem?_enum, hi]
  rfl

/-- C27: a call of `GetLibrariesInfo` that misses the cache and whose request
or decoding fails returns an error and leaves the client, cached list and
cache time included, as it was; when request and decoding succeed the call
returns no error, the list it returns is the list it caches with the current
time, as long as the decoded one, and entry `i` is the decoded library `i`
with `ItemCount` overwritten when its count call succeeded and kept when it
failed. -/
theorem getLibrariesInfo_atomic (c : AbsClient) (env : LibrariesInfoEnv)
    (hmiss : ¬ (Since env.now c.librariesCacheTime < c.cacheExpiry ∧ c.librariesCache ≠ none)) :
    (((∃ err, env.doRequest = .error err) ∨
        ∃ data err, env.doRequest = .ok data ∧ env.unmarshal data = .error err) →
      (∃ err, (c.GetLibrariesInfo env).result = .error err) ∧
      (c.GetLibrariesInfo env).client = c) ∧
    (∀ (data : String) (libraries : Option (List AbsLibraryInfo)),
      env.doRequest = .ok data → env.unmarshal data = .ok libraries →
      ∃ l, (c.GetLibrariesInfo env).result = .ok l ∧
        (c.GetLibrariesInfo env).client.librariesCache.getD [] = l ∧
        ((c.GetLibrariesInfo env).client.librariesCache = none ↔ libraries = none) ∧
        (c.GetLibrariesInfo env).client.librariesCacheTime = env.now ∧
        l.length = (libraries.getD []).length ∧
        ∀ (i : Nat) (lib : AbsLibraryInfo), (libraries.getD [])[i]? = some lib →
          (∀ count, env.GetLibraryItemsCount i lib.ID = .ok count →
            l[i]? = some { lib with ItemCount := count }) ∧
          ((∃ err, env.GetLibraryItemsCount i lib.ID = .error err) → l[i]? = some lib)) := by
  constructor
  · intro hfail
    unfold AbsClient.GetLibrariesInfo
    rw [if_neg hmiss]
    rcases hfail with ⟨err, hreq⟩ | ⟨data, err, hreq, hdec⟩
    · simp [hreq]
    · simp [hreq, hdec]
  · intro data libraries hreq hdec
    have hcall : c.GetLibrariesInfo env =
        { result := .ok ((libraries.map (AbsClient.GetLibrariesInfo.withCounts env)).getD []),
          client := { c with
            librariesCache := libraries.map (AbsClient.GetLibrariesInfo.withCounts env),
            librariesCacheTime := env.now },
          requests := 1 +
            ((libraries.map (AbsClient.GetLibrariesInfo.withCounts env)).getD []).length } := by
      unfold AbsClient.GetLibrariesInfo
      rw [if_neg hmiss]
      simp only [hreq, hdec]
    rw [hcall]
    refine ⟨_, rfl, rfl, ?_, rfl, ?_, ?_⟩
    · cases libraries <;> simp
    · cases libraries with
      | none => rfl
      | some libs => simp [withCounts_length]
    · intro i lib hi
      cases libraries with
      | none => simp at hi
      | some libs =>
        simp only [Option.getD_some] at hi
        have hget := withCounts_getElem env libs i lib hi
        simp only [Option.map_some', Option.getD_some]
        constructor
        · intro count hc
          rw [hget]
          simp only [hc]
        · rintro ⟨err, herr⟩
          rw [hget]
          simp only [herr]

/-- C27 instantiated: a new client meets a backend that is down, and then a
backend that lists `L1` (count `7`) and `L2` (count call fails). -/
theorem getLibrariesInfo_atomic_witness :
    ¬ (Since (exampleLibrariesInfoDown 0).now (NewAbsClient {}).librariesCacheTime <
        (NewAbsClient {}).cacheExpiry ∧ (NewAbsClient {}).librariesCache ≠ none) ∧
    (∃ err, (exampleLibrariesInfoDown 0).doRequest = .error err) ∧
    (∃ err, ((NewAbsClient {}).GetLibrariesInfo (exampleLibrariesInfoDown 0)).result
      = .error err) ∧
    ((NewAbsClient {}).GetLibrariesInfo (exampleLibrariesInfoDown 0)).client = NewAbsClient {} ∧
    ∃ l, ((NewAbsClient {}).GetLibrariesInfo (exampleLibrariesInfo 0)).result = .ok l ∧
      l[0]? = some { ID := "L1", Name := "Books", ItemCount := 7 } ∧
      l[1]? = some { ID := "L2", Name := "Podcasts" } := by
  have hmiss : ¬ (Since (exampleLibrariesInfoDown 0).now (NewAbsClient {}).librariesCacheTime <
      (NewAbsClient {}).cacheExpiry ∧ (NewAbsClient {}).librariesCache ≠ none) := by
    decide
  have hdown := (getLibrariesInfo_atomic (NewAbsClient {}) (exampleLibrariesInfoDown 0)
    hmiss).1 (Or.inl ⟨_, rfl⟩)
  obtain ⟨l, h1, _, _, _, _, h6⟩ := (getLibrariesInfo_atomic (NewAbsClient {})
    (exampleLibrariesInfo 0) hmiss).2 "libraries" (some exampleLibraries) rfl rfl
  exact ⟨hmiss, ⟨_, rfl⟩, hdown.1, hdown.2, l, h1,
    (h6 0 { ID := "L1", Name := "Books" } rfl).1 7 rfl,
    (h6 1 { ID := "L2", Name := "Podcasts" } rfl).2 ⟨_, rfl⟩⟩

/-! ## Audiobookshelf service: search round trip -/

/-- C28: for a non-empty term and every list of books that the client
returns, `AbsServerService.SearchBooks` calls `AbsAdapter.Search` once and
returns the same books in the same order; for the empty term it returns an
error, makes no call to the adapter and leaves the adapter as it was. -/
theorem serviceSearchBooks_roundtrip (a : AbsAdapter) (term libraryID : String)
    (env : Nat → LookupEnv) :
    (term ≠ "" → ∀ books : List AbsBook,
      (AbsServerService.SearchBooks a term libraryID (.ok books) env).result = .ok books ∧
      (AbsServerService.SearchBooks a term libraryID (.ok books) env).searchCalls = 1) ∧
    (term = "" → ∀ searchBooks : Except Error (List AbsBook),
      (∃ err, (AbsServerService.SearchBooks a term libraryID searchBooks env).result
        = .error err) ∧
      (AbsServerService.SearchBooks a term libraryID searchBooks env).searchCalls = 0 ∧
      (AbsServerService.SearchBooks a term libraryID searchBooks env).adapter = a) := by
  constructor
  · intro hterm books
    have hback := (search_loop_spec env 0 books a).1
    have hs : (a.Search (.ok books) env).1 = .ok (AbsAdapter.Search.loop env 0 books a).1 := rfl
    unfold AbsServerService.SearchBooks
    rw [if_neg hterm]
    simp only [hs]
    exact ⟨congrArg Except.ok hback, trivial⟩
  · intro hterm searchBooks
    unfold AbsServerService.SearchBooks
    rw [if_pos hterm]
    exact ⟨⟨_, rfl⟩, rfl, rfl⟩

/-- C28 instantiated: the term `hobbit` and two books, and the empty term. -/
theorem serviceSearchBooks_roundtrip_witness :
    ("hobbit" : String) ≠ "" ∧
    (AbsServerService.SearchBooks NewAbsAdapter "hobbit" ""
      (.ok [{ LibraryID := "L1", RelPath := "Tolkien/a.m4b", Size := 10, AddedAt := 5 },
            { LibraryID := "", RelPath := "b.m4b", Size := 20 }]) exampleLookups).result =
      .ok [{ LibraryID := "L1", RelPath := "Tolkien/a.m4b", Size := 10, AddedAt := 5 },
           { LibraryID := "", RelPath := "b.m4b", Size := 20 }] ∧
    (AbsServerService.SearchBooks NewAbsAdapter "" "" (.ok []) exampleLookups).searchCalls
      = 0 := by
  have h := serviceSearchBooks_roundtrip NewAbsAdapter "hobbit" "" exampleLookups
  have h0 := serviceSearchBooks_roundtrip NewAbsAdapter "" "" exampleLookups
  exact ⟨by decide, (h.1 (by decide) _).1, (h0.2 rfl (.ok [])).2.1⟩

/-! ## Aggregation manager: accessors -/

theorem getServerTypes_eq_map (tasks : List (MediaServerType × MediaServer))
    (acc : List MediaServerType) :
    tasks.foldl (fun types e => types ++ [e.1]) acc = acc ++ tasks.map Prod.fst := by
  induction tasks generalizing acc with
  | nil => simp
  | cons e rest ih => rw [List.foldl_cons, ih]; simp

theorem getAllServers_get (m : MediaServerManager) (order : List Nat) (hwf : m.servers.WF)
    (hord : order.Perm (List.range m.servers.length)) (st : MediaServerType) :
    (m.GetAllServers order).get st = m.servers.get st := by
  have hperm := inOrder_perm m.servers order hord
  have hwf2 : GoMap.WF (inOrder m.servers order) :=
    ((hperm.map Prod.fst).nodup_iff).mpr hwf
  unfold MediaServerManager.GetAllServers
  rw [fanout_get (fun s : MediaServer => Except.ok s) _
    (fun acc e err h => by cases h)
    (fun acc e v h => by cases h; rfl) _ hwf2 [] st, GoMap.get_perm hperm hwf2 st]
  cases m.servers.get st <;> rfl

theorem getAllServers_wf (m : MediaServerManager) (order : List Nat) :
    (m.GetAllServers order).WF :=
  fanout_wf (fun s : MediaServer => Except.ok s) _
    (fun acc e err h => by cases h)
    (fun acc e v h => by cases h; rfl) _ [] (by simp [GoMap.WF, GoMap.keys])

/-- C21: for every manager and every iteration order of its map,
`GetServerTypes` returns each configured backend type once and nothing else;
`GetAllServers` returns a map with the entries of the manager; `GetServer`
returns a nil error exactly for the keys of that map; and on the heap the
returned map is a new one, so a write through it leaves the map of the manager
as it was. -/
theorem manager_accessors (m : MediaServerManager) (order : List Nat) (hwf : m.servers.WF)
    (hord : order.Perm (List.range m.servers.length)) :
    (m.GetServerTypes order).Nodup ∧
    (∀ st, st ∈ m.GetServerTypes order ↔ st ∈ m.servers.keys) ∧
    (∀ st, (m.GetServerTypes order).count st = if st ∈ m.servers.keys then 1 else 0) ∧
    (m.GetAllServers order).WF ∧
    (∀ st, (m.GetAllServers order).get st = m.servers.get st) ∧
    (∀ st, (m.GetServer st).2 = none ↔ st ∈ (m.GetAllServers order).keys) ∧
    (∀ st, (m.GetServer st).2 = none → (m.GetServer st).1 = m.servers.get st) ∧
    (∀ (h : ServerHeap) (servers : Nat), h[servers]? = some m.servers →
      (MediaServerManager.GetAllServers.onHeap h servers order).2 ≠ servers ∧
      (MediaServerManager.GetAllServers.onHeap h servers order).1[servers]? = some m.servers ∧
      (MediaServerManager.GetAllServers.onHeap h servers order).1[
        (MediaServerManager.GetAllServers.onHeap h servers order).2]? =
        some (m.GetAllServers order) ∧
      ∀ k v,
        ((MediaServerManager.GetAllServers.onHeap h servers order).1.write
          (MediaServerManager.GetAllServers.onHeap h servers order).2 k v)[servers]? =
          some m.servers) := by
  have hperm := inOrder_perm m.servers order hord
  have htypes : m.GetServerTypes order = (inOrder m.servers order).map Prod.fst := by
    unfold MediaServerManager.GetServerTypes
    rw [getServerTypes_eq_map]
    simp
  have hkeys : (m.GetServerTypes order).Perm m.servers.keys := by
    rw [htypes]
    exact hperm.map Prod.fst
  have hnodup : (m.GetServerTypes order).Nodup := hkeys.nodup_iff.mpr hwf
  have hget := getAllServers_get m order hwf hord
  refine ⟨hnodup, fun st => hkeys.mem_iff, ?_, getAllServers_wf m order, hget, ?_, ?_, ?_⟩
  · intro st
    by_cases hst : st ∈ m.servers.keys
    · rw [if_pos hst]
      exact List.count_eq_one_of_mem hnodup (hkeys.mem_iff.mpr hst)
    · rw [if_neg hst, List.count_eq_zero]
      exact fun h => hst (hkeys.mem_iff.mp h)
  · intro st
    rw [GoMap.mem_keys_iff_get, hget st]
    unfold MediaServerManager.GetServer
    cases m.servers.get st <;> simp
  · intro st
    unfold MediaServerManager.GetServer
    cases m.servers.get st <;> simp
  · intro h servers hs
    have hlt : servers < h.length := by
      by_contra hge
      rw [List.getElem?_eq_none (Nat.le_of_not_lt hge)] at hs
      cases hs
    have hcopy : MediaServerManager.GetAllServers.onHeap h servers order =
        (h ++ [m.GetAllServers order], h.length) := by
      simp [MediaServerManager.GetAllServers.onHeap, hs]
    rw [hcopy]
    refine ⟨fun e => absurd hlt (by simp at e; omega), ?_, ?_, ?_⟩
    · simp only
      rw [List.getElem?_append_left hlt, hs]
    · simp
    · intro k v
      have hnew : (h ++ [m.GetAllServers order])[h.length]? = some (m.GetAllServers order) := by
        simp
      simp only [ServerHeap.write, hnew]
      rw [List.getElem?_set_ne (Nat.ne_of_gt hlt), List.getElem?_append_left hlt, hs]

/-- C21 instantiated on the manager with both backends, visited in reverse
order. -/
theorem manager_accessors_witness :
    exampleManager.servers.WF ∧ [1, 0].Perm (List.range exampleManager.servers.length) ∧
    exampleManager.GetServerTypes [1, 0] = [EmbyServerType, AbsServerType] ∧
    (∀ st, (exampleManager.GetAllServers [1, 0]).get st = exampleManager.servers.get st) ∧
    (exampleManager.GetServer "plex").2 ≠ none ∧
    (exampleManager.GetServer EmbyServerType).2 = none := by
  have h := manager_accessors exampleManager [1, 0] (by decide) (by decide)
  refine ⟨by decide, by decide, by decide, h.2.2.2.2.1, ?_, ?_⟩
  · intro hnone
    have hk := (h.2.2.2.2.2.1 "plex").mp hnone
    revert hk
    decide
  · exact (h.2.2.2.2.2.1 EmbyServerType).mpr (by decide)

/-! ## Emby users -/

theorem int64_of_range (x : Int) (hlo : -9223372036854775808 ≤ x)
    (hhi : x < 9223372036854775808) : int64 x = x := by
  unfold int64
  omega

/-- C22: for every Emby user record, `toUser` yields `Type` `Admin` exactly
when `Policy.IsAdministrator` is set and `EmbyUser` otherwise, `IsActive` the
negation of `Policy.IsDisabled`, `CreatedAt` and `UpdatedAt` zero, and
`LastSeen` zero when `LastActivityDate` is empty or does not parse; when it
parses to the Unix second `u` (any `u` whose product with 1000 fits an
`int64`, as that of every four-digit-year timestamp does) `LastSeen` is
`u * 1000`, a multiple of 1000. -/
theorem toUser_spec (parse : String → Except Error Int) (embyUser : EmbyUser) :
    ((toUser parse embyUser).Typ = "Admin" ↔ embyUser.Policy.IsAdministrator = true) ∧
    (embyUser.Policy.IsAdministrator = false → (toUser parse embyUser).Typ = "EmbyUser") ∧
    (toUser parse embyUser).IsActive = (!embyUser.Policy.IsDisabled) ∧
    (toUser parse embyUser).CreatedAt = 0 ∧
    (toUser parse embyUser).UpdatedAt = 0 ∧
    (toUser parse embyUser).ID = embyUser.ID ∧
    (toUser parse embyUser).Username = embyUser.Name ∧
    (embyUser.LastActivityDate = "" → (toUser parse embyUser).LastSeen = 0) ∧
    ((∃ err, parse embyUser.LastActivityDate = .error err) →
      (toUser parse embyUser).LastSeen = 0) ∧
    (∀ u, embyUser.LastActivityDate ≠ "" → parse embyUser.LastActivityDate = .ok u →
      -9223372036854775 ≤ u → u ≤ 9223372036854775 →
      (toUser parse embyUser).LastSeen = u * 1000 ∧
      (1000 : Int) ∣ (toUser parse embyUser).LastSeen) := by
  refine ⟨?_, ?_, rfl, rfl, rfl, rfl, rfl, ?_, ?_, ?_⟩
  · cases h : embyUser.Policy.IsAdministrator <;> simp [toUser, h]
  · intro h
    simp [toUser, h]
  · intro h
    simp [toUser, h]
  · rintro ⟨err, herr⟩
    by_cases h : embyUser.LastActivityDate = ""
    · simp [toUser, h]
    · simp [toUser, h, herr]
  · intro u hne hok hlo hhi
    have hval : (toUser parse embyUser).LastSeen = int64 (u * 1000) := by
      simp [toUser, hne, hok]
    rw [hval, int64_of_range (u * 1000) (by omega) (by omega)]
    exact ⟨rfl, Dvd.intro_left u rfl⟩

/-- C22 instantiated: an administrator last seen on 1 January 2024. -/
theorem toUser_spec_witness :
    ("2024-01-01T00:00:00Z" : String) ≠ "" ∧
    exampleParse "2024-01-01T00:00:00Z" = .ok 1704067200 ∧
    (toUser exampleParse exampleEmbyAdmin).LastSeen = 1704067200 * 1000 ∧
    (toUser exampleParse exampleEmbyAdmin).Typ = "Admin" := by
  have h := toUser_spec exampleParse exampleEmbyAdmin
  exact ⟨by decide, rfl,
    (h.2.2.2.2.2.2.2.2.2 1704067200 (by decide) rfl (by decide) (by decide)).1,
    h.1.mpr rfl⟩

/-! ## Library labels of both backends -/

/-- C29: every result of `AbsAdapter.Search` and of `EmbyAdapter.Search` has a
non-empty `Library`.  For Audiobookshelf it is `Unknown Library` when the book
has no library id, and otherwise the name that the lookup resolves or, when
the lookup resolves none, the raw library id; for Emby it is the parent id
when the item has one and `Unknown Library` otherwise. -/
theorem search_library_nonempty (a : AbsAdapter) (books : List AbsBook)
    (lenv : Nat → LookupEnv) (env : EmbySearchEnv) :
    (∃ results, (a.Search (.ok books) lenv).1 = .ok results ∧
      results.length = books.length ∧
      ∀ (i : Nat) (book : AbsBook), books[i]? = some book →
        ∃ r, results[i]? = some r ∧ r.Library ≠ "" ∧
          (book.LibraryID = "" → r.Library = "Unknown Library") ∧
          (book.LibraryID ≠ "" →
            (((AbsAdapter.Search.loop lenv 0 (books.take i) a).2.getLibraryNameByID
                (lenv i) book.LibraryID).name = "" → r.Library = book.LibraryID) ∧
            (((AbsAdapter.Search.loop lenv 0 (books.take i) a).2.getLibraryNameByID
                (lenv i) book.LibraryID).name ≠ "" →
              r.Library = ((AbsAdapter.Search.loop lenv 0 (books.take i)
                a).2.getLibraryNameByID (lenv i) book.LibraryID).name))) ∧
    (∀ (data : String) (items : List EmbySearchItem),
      env.SearchItems = .ok data → env.unmarshal data = .ok items →
      ∃ results, EmbyAdapter.Search env = .ok results ∧
        results.length = items.length ∧
        ∀ (i : Nat) (item : EmbySearchItem), items[i]? = some item →
          ∃ r, results[i]? = some r ∧ r.Library ≠ "" ∧
            (item.ParentId ≠ "" → r.Library = item.ParentId) ∧
            (item.ParentId = "" → r.Library = "Unknown Library")) := by
  constructor
  · refine ⟨(AbsAdapter.Search.loop lenv 0 books a).1, rfl, ?_, ?_⟩
    · have h := congrArg List.length (search_loop_spec lenv 0 books a).1
      simpa using h
    · intro i book hi
      have hget := search_loop_getElem lenv 0 books a i book hi
      rw [Nat.zero_add] at hget
      refine ⟨_, hget, ?_, ?_, ?_⟩
      · by_cases hid : book.LibraryID = ""
        · simp [AbsAdapter.Search.convert, hid]
        · by_cases hname : ((AbsAdapter.Search.loop lenv 0 (books.take i)
              a).2.getLibraryNameByID (lenv i) book.LibraryID).name = ""
          · simp [AbsAdapter.Search.convert, hid, hname]
          · simp [AbsAdapter.Search.convert, hid, hname]
      · intro hid
        simp [AbsAdapter.Search.convert, hid]
      · intro hid
        constructor
        · intro hname
          simp [AbsAdapter.Search.convert, hid, hname]
        · intro hname
          simp [AbsAdapter.Search.convert, hid, hname]
  · intro data items hreq hdec
    refine ⟨items.map (EmbyAdapter.Search.convert env), ?_, by simp, ?_⟩
    · simp only [EmbyAdapter.Search, hreq, hdec]
    · intro i item hi
      refine ⟨EmbyAdapter.Search.convert env item, ?_, ?_, ?_, ?_⟩
      · rw [List.getElem?_map, hi]
        rfl
      · by_cases hp : item.ParentId = ""
        · simp [EmbyAdapter.Search.convert, hp]
        · simp [EmbyAdapter.Search.convert, hp]
      · intro hp
        simp [EmbyAdapter.Search.convert, hp]
      · intro hp
        simp [EmbyAdapter.Search.convert, hp]

/-- C29 instantiated on the Emby search of the examples. -/
theorem search_library_nonempty_witness :
    exampleEmbySearch.SearchItems = .ok "items" ∧
    ∃ results, EmbyAdapter.Search exampleEmbySearch = .ok results ∧
      results.length = 2 ∧
      (∃ r, results[0]? = some r ∧ r.Library = "x") ∧
      (∃ r, results[1]? = some r ∧ r.Library = "Unknown Library") := by
  obtain ⟨results, h1, h2, h3⟩ := (search_library_nonempty NewAbsAdapter [] exampleLookups
    exampleEmbySearch).2 "items" [exampleEmbyMovie, exampleEmbyLoose] rfl rfl
  obtain ⟨r0, g0, _, g2, _⟩ := h3 0 exampleEmbyMovie rfl
  obtain ⟨r1, k0, _, _, k3⟩ := h3 1 exampleEmbyLoose rfl
  exact ⟨rfl, results, h1, h2, ⟨r0, g0, g2 (by decide)⟩, ⟨r1, k0, k3 rfl⟩⟩

/-! ## Allowed user ids -/

theorem foldl_append_filterMap {α β : Type} (step : List β → α → List β) (f : α → Option β)
    (h : ∀ ids p, step ids p = ids ++ (f p).toList) (pieces : List α) (acc : List β) :
    pieces.foldl step acc = acc ++ pieces.filterMap f := by
  induction pieces generalizing acc with
  | nil => simp
  | cons p ps ih =>
    rw [List.foldl_cons, ih, h, List.filterMap_cons]
    cases f p <;> simp

theorem parseAllowedUserIDs_eq_filterMap (Split : String → List String)
    (TrimSpace : String → String) (ParseInt : String → Except Error Int) (s : String)
    (hs : s ≠ "") :
    parseAllowedUserIDs Split TrimSpace ParseInt s =
      (Split s).filterMap fun p => (ParseInt (TrimSpace p)).toOption := by
  unfold parseAllowedUserIDs
  rw [if_neg hs]
  refine (foldl_append_filterMap _ (fun p => (ParseInt (TrimSpace p)).toOption) ?_ _ _).trans
    (List.nil_append _)
  intro ids p
  cases h : ParseInt (TrimSpace p) <;> simp [h, Except.toOption]

theorem mem_parseAllowedUserIDs (Split : String → List String)
    (TrimSpace : String → String) (ParseInt : String → Except Error Int) (s : String)
    (hs : s ≠ "") (u : Int) :
    u ∈ parseAllowedUserIDs Split TrimSpace ParseInt s ↔
      ∃ p ∈ Split s, ParseInt (TrimSpace p) = .ok u := by
  rw [parseAllowedUserIDs_eq_filterMap Split TrimSpace ParseInt s hs, List.mem_filterMap]
  constructor
  · rintro ⟨p, hp, hu⟩
    refine ⟨p, hp, ?_⟩
    cases h : ParseInt (TrimSpace p) with
    | error e => simp [h, Except.toOption] at hu
    | ok v =>
      simp [h, Except.toOption] at hu
      rw [hu]
  · rintro ⟨p, hp, hu⟩
    exact ⟨p, hp, by simp [hu, Except.toOption]⟩

/-- C26: for every string `s`, `parseAllowedUserIDs s` is the list that
results from splitting `s` at commas, trimming every piece, dropping the
pieces that are no base-10 signed 64-bit integer and converting the rest in
their order; it is empty for the empty string and never longer than the
number of pieces.  The library functions are arbitrary, except that no piece
of the empty string is an integer (as `strings.Split` gives the one piece
`""`, which `strconv.ParseInt` rejects). -/
theorem parseAllowedUserIDs_refines (Split : String → List String)
    (TrimSpace : String → String) (ParseInt : String → Except Error Int)
    (hempty : ∀ p ∈ Split "", ∃ e, ParseInt (TrimSpace p) = .error e) (s : String) :
    parseAllowedUserIDs Split TrimSpace ParseInt s =
      parseAllowedUserIDs.described Split TrimSpace ParseInt s ∧
    parseAllowedUserIDs Split TrimSpace ParseInt "" = [] ∧
    parseAllowedUserIDs.described Split TrimSpace ParseInt "" = [] ∧
    (parseAllowedUserIDs Split TrimSpace ParseInt s).length ≤ (Split s).length := by
  have hdesc : parseAllowedUserIDs.described Split TrimSpace ParseInt "" = [] := by
    unfold parseAllowedUserIDs.described
    rw [List.filterMap_map, List.filterMap_eq_nil_iff]
    intro p hp
    obtain ⟨e, he⟩ := hempty p hp
    simp [he, Except.toOption]
  have hnil : parseAllowedUserIDs Split TrimSpace ParseInt "" = [] := by
    simp [parseAllowedUserIDs]
  refine ⟨?_, hnil, hdesc, ?_⟩
  · by_cases hs : s = ""
    · rw [hs, hnil, hdesc]
    · rw [parseAllowedUserIDs_eq_filterMap Split TrimSpace ParseInt s hs]
      unfold parseAllowedUserIDs.described
      rw [List.filterMap_map]
      rfl
  · by_cases hs : s = ""
    · rw [hs, hnil]
      exact Nat.zero_le _
    · rw [parseAllowedUserIDs_eq_filterMap Split TrimSpace ParseInt s hs]
      exact List.length_filterMap_le _ _

/-- C26 instantiated with the behaviour of the Go library on a string with a
padded id, a word, a negative id, an empty piece and a signed id. -/
theorem parseAllowedUserIDs_refines_witness :
    (∀ p ∈ strings.Split "" ',', ∃ e, strconv.ParseInt (strings.TrimSpace p) 64 = .error e) ∧
    parseAllowedUserIDs (fun s => strings.Split s ',') strings.TrimSpace
      (fun s => strconv.ParseInt s 64) " 12, x,-3,,+4" = [12, -3, 4] ∧
    parseAllowedUserIDs.described (fun s => strings.Split s ',') strings.TrimSpace
      (fun s => strconv.ParseInt s 64) " 12, x,-3,,+4" = [12, -3, 4] ∧
    (strings.Split " 12, x,-3,,+4" ',').length = 5 := by
  have hempty : ∀ p ∈ strings.Split "" ',',
      ∃ e, strconv.ParseInt (strings.TrimSpace p) 64 = .error e := by
    intro p hp
    have hp2 : p = "" := by simpa [strings.Split, strings.Split.scan] using hp
    rw [hp2]
    exact ⟨"invalid syntax", by decide⟩
  have h := parseAllowedUserIDs_refines (fun s => strings.Split s ',') strings.TrimSpace
    (fun s => strconv.ParseInt s 64) hempty " 12, x,-3,,+4"
  have hv : parseAllowedUserIDs (fun s => strings.Split s ',') strings.TrimSpace
      (fun s => strconv.ParseInt s 64) " 12, x,-3,,+4" = [12, -3, 4] := by decide
  exact ⟨hempty, hv, h.1 ▸ hv, by decide⟩

/-! ## Access control of the bot -/

theorem set_ne_nil {κ ν : Type} [DecidableEq κ] (m : GoMap κ ν) (k : κ) (v : ν) :
    m.set k v ≠ [] := by
  cases m with
  | nil => simp [GoMap.set]
  | cons e rest =>
    obtain ⟨k', v'⟩ := e
    by_cases h : k' = k <;> simp [GoMap.set, h]

theorem allowed_fold_ne_nil (ids : List Int) (m : GoMap Int Bool) (hm : m ≠ []) :
    ids.foldl (fun (allowedUserIDs : GoMap Int Bool) id => allowedUserIDs.set id true) m ≠ [] := by
  induction ids generalizing m with
  | nil => exact hm
  | cons id rest ih => exact ih _ (set_ne_nil m id true)

theorem allowed_fold_get (ids : List Int) (m : GoMap Int Bool) (u : Int) :
    (ids.foldl (fun (allowedUserIDs : GoMap Int Bool) id => allowedUserIDs.set id true) m).get u =
      if u ∈ ids then some true else m.get u := by
  induction ids generalizing m with
  | nil => simp
  | cons id rest ih =>
    rw [List.foldl_cons, ih]
    by_cases hr : u ∈ rest
    · simp [hr]
    · by_cases hid : id = u
      · subst hid
        simp [hr, GoMap.get_set_self]
      · have hne : ¬ u = id := fun h => hid h.symm
        simp [hr, hne, GoMap.get_set_ne m id u true hid]

theorem loadConfig_allowedUserIDs (Split : String → List String) (TrimSpace : String → String)
    (ParseInt Atoi : String → Except Error Int) (environ : String → Option String) :
    (LoadConfig Split TrimSpace ParseInt Atoi environ).AllowedUserIDs =
      parseAllowedUserIDs Split TrimSpace ParseInt
        (getEnvWithDefault environ "ALLOWED_USER_IDS" "") := by
  unfold LoadConfig
  simp only []
  repeat' split
  all_goals rfl

theorem newBotManager_allowed (initializeTelegramBot : Config → Except Error BotAPI)
    (newAbs newEmby : Config → MediaServer) (cfg : Config) (bm : Manager)
    (hbuilt : NewBotManager initializeTelegramBot newAbs newEmby cfg = (some bm, none)) :
    bm.allowedUserIDs =
      cfg.AllowedUserIDs.foldl
        (fun (allowedUserIDs : GoMap Int Bool) id => allowedUserIDs.set id true) [] := by
  unfold NewBotManager at hbuilt
  split at hbuilt
  · simp at hbuilt
  · split at hbuilt
    · simp at hbuilt
    · simp only [Prod.mk.injEq, Option.some.injEq, and_true] at hbuilt
      rw [← hbuilt]

theorem isUserAllowed_iff (initializeTelegramBot : Config → Except Error BotAPI)
    (newAbs newEmby : Config → MediaServer) (cfg : Config) (bm : Manager)
    (hbuilt : NewBotManager initializeTelegramBot newAbs newEmby cfg = (some bm, none))
    (u : Int) :
    bm.IsUserAllowed u = true ↔ cfg.AllowedUserIDs = [] ∨ u ∈ cfg.AllowedUserIDs := by
  have hmap := newBotManager_allowed initializeTelegramBot newAbs newEmby cfg bm hbuilt
  unfold Manager.IsUserAllowed
  rw [hmap]
  cases hids : cfg.AllowedUserIDs with
  | nil => simp
  | cons id rest =>
    have hne : (id :: rest).foldl (fun (allowedUserIDs : GoMap Int Bool) id => allowedUserIDs.set id true)
        ([] : GoMap Int Bool) ≠ [] := by
      rw [List.foldl_cons]
      exact allowed_fold_ne_nil rest _ (set_ne_nil _ id true)
    have hlen : ¬ ((id :: rest).foldl
        (fun (allowedUserIDs : GoMap Int Bool) id => allowedUserIDs.set id true) []).length = 0 := by
      intro h
      exact hne (List.length_eq_zero.mp h)
    rw [if_neg hlen, allowed_fold_get]
    by_cases hu : u ∈ id :: rest
    · simp [hu]
    · simp [hu, GoMap.get]

/-- C25, the sentence as written fails: `ALLOWED_USER_IDS` is the non-empty
string `abc`, in which no integer is written, the manager is built, and it
allows the user 42. -/
theorem isUserAllowed_unlisted :
    exampleEnviron "abc" "ALLOWED_USER_IDS" = some "abc" ∧
    ("abc" : String) ≠ "" ∧
    (exampleBotManager "abc").2 = none ∧
    (exampleBotManager "abc").1.map (fun bm => bm.IsUserAllowed 42) = some true ∧
    strings.Split "abc" ',' = ["abc"] ∧
    strings.TrimSpace "abc" = "abc" ∧
    strconv.ParseInt "abc" 64 = .error "invalid syntax" ∧
    ¬ ∃ p ∈ strings.Split "abc" ',', strconv.ParseInt (strings.TrimSpace p) 64 = .ok 42 := by
  decide

/-- C25 amended: when `ALLOWED_USER_IDS` is a non-empty string in which some
comma-separated piece is, once trimmed, a base-10 signed 64-bit integer, a bot
manager built from that configuration allows the user `u` only when (indeed
exactly when) `u` is one of the integers written in the string; when no piece
is such an integer the manager allows every user. -/
theorem isUserAllowed_spec (Split : String → List String) (TrimSpace : String → String)
    (ParseInt Atoi : String → Except Error Int) (environ : String → Option String)
    (initializeTelegramBot : Config → Except Error BotAPI)
    (newAbs newEmby : Config → MediaServer) (s : String) (bm : Manager)
    (henv : environ "ALLOWED_USER_IDS" = some s) (hs : s ≠ "")
    (hbuilt : NewBotManager initializeTelegramBot newAbs newEmby
      (LoadConfig Split TrimSpace ParseInt Atoi environ) = (some bm, none)) :
    ((∃ p ∈ Split s, ∃ id, ParseInt (TrimSpace p) = .ok id) →
      ∀ u, bm.IsUserAllowed u = true ↔ ∃ p ∈ Split s, ParseInt (TrimSpace p) = .ok u) ∧
    ((∀ p ∈ Split s, ∃ e, ParseInt (TrimSpace p) = .error e) →
      ∀ u, bm.IsUserAllowed u = true) := by
  have hids : (LoadConfig Split TrimSpace ParseInt Atoi environ).AllowedUserIDs =
      parseAllowedUserIDs Split TrimSpace ParseInt s := by
    rw [loadConfig_allowedUserIDs]
    simp [getEnvWithDefault, henv]
  have hall := isUserAllowed_iff initializeTelegramBot newAbs newEmby _ bm hbuilt
  rw [hids] at hall
  constructor
  · rintro ⟨p, hp, id, hid⟩ u
    have hmem : id ∈ parseAllowedUserIDs Split TrimSpace ParseInt s :=
      (mem_parseAllowedUserIDs Split TrimSpace ParseInt s hs id).mpr ⟨p, hp, hid⟩
    rw [hall u, ← mem_parseAllowedUserIDs Split TrimSpace ParseInt s hs u]
    constructor
    · rintro (h | h)
      · rw [h] at hmem
        exact absurd hmem (List.not_mem_nil _)
      · exact h
    · exact Or.inr
  · intro hnone u
    rw [hall u]
    left
    rw [List.eq_nil_iff_forall_not_mem]
    intro id hid
    obtain ⟨p, hp, hok⟩ := (mem_parseAllowedUserIDs Split TrimSpace ParseInt s hs id).mp hid
    obtain ⟨e, he⟩ := hnone p hp
    rw [he] at hok
    exact Except.noConfusion hok

/-- C25 amended, instantiated: with `ALLOWED_USER_IDS` set to `12, x,-3` the
manager allows 12 and -3 and refuses 5. -/
theorem isUserAllowed_spec_witness :
    exampleEnviron "12, x,-3" "ALLOWED_USER_IDS" = some "12, x,-3" ∧
    ("12, x,-3" : String) ≠ "" ∧
    ∃ bm, exampleBotManager "12, x,-3" = (some bm, none) ∧
      (∀ u, bm.IsUserAllowed u = true ↔
        ∃ p ∈ strings.Split "12, x,-3" ',',
          strconv.ParseInt (strings.TrimSpace p) 64 = .ok u) ∧
      bm.IsUserAllowed 12 = true ∧ bm.IsUserAllowed (-3) = true ∧
      bm.IsUserAllowed 5 = false := by
  have hbuilt : exampleBotManager "12, x,-3" =
      (some { Bot := { Token := "t", Debug := false },
              mediaServerManager := (NewMediaServerManager (fun _ => exampleUp "abs")
                (fun _ => exampleUp "emby") (exampleLoadConfig "12, x,-3")).1,
              allowedUserIDs := [(12, true), (-3, true)] }, none) := by
    rfl
  refine ⟨rfl, by decide, _, hbuilt, ?_, by decide, by decide, by decide⟩
  exact (isUserAllowed_spec (fun s => strings.Split s ',') strings.TrimSpace
    (fun s => strconv.ParseInt s 64) strconv.Atoi (exampleEnviron "12, x,-3")
    (fun cfg => .ok { Token := cfg.TelegramBotToken, Debug := cfg.Debug })
    (fun _ => exampleUp "abs") (fun _ => exampleUp "emby") "12, x,-3" _ rfl (by decide)
    hbuilt).1 ⟨"12", by decide, 12, by decide⟩

end MediaManager
